import Mathlib

/-!
AGFS plugins: skillsfs, summaryfs, simpcurlfs.

A shallow embedding of the three virtual-filesystem plugins

* `agfs-shell/skillsfs/skillsfs.c`   (skill execution, lazy with TTL),
* `agfs-shell/summaryfs/summaryfs.c` (summarizer, eager),
* `agfs-server/examples/simpcurlfs/simpcurlfs.c` (search, eager),

and theorems about their read / write / cache behaviour.

Modelling conventions.

* A C `char` is a `Char`; a buffer is a `List Char`.  A `char *` field is an
  `Option (List Char)`: `none` is the NULL pointer, `some b` a buffer holding the
  bytes `b` followed by the terminating NUL the code writes.  `b` itself may
  contain NUL bytes (`memcpy` of caller data); everything that reads the buffer
  as a C string (`strlen`, `dup_string`, `%s`) sees `c_str b`, the bytes before
  the first NUL.
* A (pointer, length) pair such as `last_raw` / `last_raw_len` or
  `log_text` / `log_len` is one list; the length field is the length of the list.
* `malloc`, `calloc` and `realloc` succeed, except for a request that exceeds
  `PTRDIFF_MAX` (`malloc_fails`); the sizes of objects in memory fit the integer
  types they are converted to.  The caller-supplied `int64_t` arguments `offset`
  and `size` are arbitrary integers; the difference `len - offset` is taken in 64
  bits where it can leave the range (`remaining_bytes`).
* `time`, `clock`, `localtime`/`strftime`, the `%.2f` conversion and the yyjson
  parser are collaborators outside the plugin; they are fields of `Env`, and one
  ABI call observes one `Env`.
-/

namespace AGFS

/-! ## C strings -/

/-- The NUL byte. -/
def NUL : Char := Char.ofNat 0

/-- The C-string view of a buffer: the bytes before the first NUL. -/
def c_str (buf : List Char) : List Char := buf.takeWhile (fun c => c != NUL)

/-- C `strlen`. -/
def strlen (buf : List Char) : Nat := (c_str buf).length

/-- Source `dup_string`: NULL for NULL, else a fresh copy of the C string. -/
def dup_string : Option (List Char) → Option (List Char)
  | none => none
  | some src => some (c_str src)

/-- C `snprintf(buf, n, ...)` applied to the fully formatted text: at most `n - 1`
bytes are stored. -/
def snprintf (n : Nat) (formatted : List Char) : List Char := formatted.take (n - 1)

/-! ## Read results and the common slicing tail of `FSRead` -/

/-- Outcome of an `FSRead` call. -/
inductive ReadResult where
  /-- Static error string returned, `*out_len = -1`. -/
  | error (msg : String)
  /-- Heap copy of `bytes` returned, `*out_len = out_len`. -/
  | data (bytes : List Char) (out_len : Int)
  /-- The `memcpy` source range lies outside the source buffer, or its destination
  is NULL (undefined behaviour in C); `read_len` is the length the code computed. -/
  | out_of_bounds (read_len : Int)
  deriving DecidableEq, Repr

/-- `memcpy(dst, src + offset, n)` where `src` holds `src_bytes` followed by a NUL:
the bytes copied, or `none` when the range is not inside the buffer. -/
def memcpy_from (src_bytes : List Char) (offset n : Int) : Option (List Char) :=
  if 0 ≤ offset ∧ 0 ≤ n ∧ offset + n ≤ (src_bytes.length : Int) then
    some ((src_bytes.drop offset.toNat).take n.toNat)
  else none

/-- Conversion of an integer to `int64_t` (two's complement, 64 bits). -/
def to_int64 (i : Int) : Int :=
  (i + 9223372036854775808) % 18446744073709551616 - 9223372036854775808

/-- The assignment `int64_t remaining = len - offset;` with `len` a `size_t`, reached
with `offset < len`.  The difference is formed in 64 bits; `len` being the size of
an object in memory, it lies in `(0, len]` for `offset ≥ 0` and is stored as it is,
while for a negative `offset` it can exceed `INT64_MAX` and wraps. -/
def remaining_bytes (len : Nat) (offset : Int) : Int :=
  if 0 ≤ offset then (len : Int) - offset else to_int64 ((len : Int) - offset)

/-- The line `int64_t read_len = (size > 0 && size < remaining) ? size : remaining;`. -/
def read_len_of (len : Nat) (offset size : Int) : Int :=
  if size > 0 ∧ size < remaining_bytes len offset then size else remaining_bytes len offset

/-- Whether `malloc(read_len + 1)` returns NULL: a request that is negative as an
`int64_t` is a `size_t` above `PTRDIFF_MAX`, which no allocator serves; every other
request succeeds.  (For `read_len = INT64_MAX` the sum overflows, which is undefined
in C; this needs a negative offset, for which the copy that follows is undefined
as well.) -/
def malloc_fails (read_len : Int) : Prop := read_len + 1 < 0

instance (read_len : Int) : Decidable (malloc_fails read_len) := by
  unfold malloc_fails
  infer_instance

/-- The tail of `FSRead` in skillsfs and summaryfs:
```
if (offset >= (int64_t)len) { *out_len = 0; return dup_string(""); }
int64_t remaining = len - offset;
int64_t read_len = (size > 0 && size < remaining) ? size : remaining;
char *copy = malloc(read_len + 1);
if (!copy) { *out_len = -1; return "allocation failure"; }
memcpy(copy, src + offset, read_len); copy[read_len] = 0; *out_len = read_len;
```
with `src` holding `src_bytes` and `len = src_bytes.length`. -/
def read_slice (src_bytes : List Char) (offset size : Int) : ReadResult :=
  let len : Int := (src_bytes.length : Int)
  if offset ≥ len then ReadResult.data [] 0
  else
    let read_len : Int := read_len_of src_bytes.length offset size
    if malloc_fails read_len then ReadResult.error "allocation failure"
    else
      match memcpy_from src_bytes offset read_len with
      | some bytes => ReadResult.data bytes read_len
      | none => ReadResult.out_of_bounds read_len

/-- The tail of `FSRead` in simpcurlfs, which is the one above without the test of
the `malloc` result: when the allocation fails, `memcpy` writes through NULL. -/
def read_slice_unchecked (src_bytes : List Char) (offset size : Int) : ReadResult :=
  let len : Int := (src_bytes.length : Int)
  if offset ≥ len then ReadResult.data [] 0
  else
    let read_len : Int := read_len_of src_bytes.length offset size
    if malloc_fails read_len then ReadResult.out_of_bounds read_len
    else
      match memcpy_from src_bytes offset read_len with
      | some bytes => ReadResult.data bytes read_len
      | none => ReadResult.out_of_bounds read_len

/-! ## summaryfs -/

namespace SummaryFS

/-- Source `SummaryFS` struct.  `last_raw` is the pair (`last_raw`, `last_raw_len`);
`temperature` (a C double) is carried as a rational. -/
structure State where
  model : Option (List Char)
  endpoint : Option (List Char)
  timeout_ms : Int
  temperature : Rat
  system_prompt : Option (List Char)
  api_key : Option (List Char)
  api_key_env : Option (List Char)
  last_raw : Option (List Char)
  last_summary : Option (List Char)
  initialized : Bool
  deriving DecidableEq, Repr

/-- Source `PluginNew` of summaryfs. -/
def PluginNew : State :=
  { model := none, endpoint := none, timeout_ms := 120000, temperature := 2 / 10,
    system_prompt := none, api_key := none, api_key_env := none, last_raw := none,
    last_summary := none, initialized := false }

/-- Length field `last_raw_len`. -/
def State.last_raw_len (fs : State) : Nat := (fs.last_raw.getD []).length

/-- Source `FSRead` of summaryfs.  The state is returned to make the frame
explicit: the function never assigns through `fs`. -/
def FSRead (fs : State) (path : String) (offset size : Int) : State × ReadResult :=
  if path = "/response.json" then
    match fs.last_raw with
    | some raw => (fs, read_slice raw offset size)
    | none => (fs, read_slice (c_str "No response yet\n".data) offset size)
  else if path = "/response.txt" then
    match fs.last_summary with
    | some s => (fs, read_slice (c_str s) offset size)
    | none => (fs, read_slice (c_str "No summary yet\n".data) offset size)
  else (fs, ReadResult.error "unsupported path")

end SummaryFS

/-! ## simpcurlfs -/

namespace SimpCurlFS

/-- Source `SimpCurlFS` struct; `last_response` is the pair
(`last_response`, `last_response_len`). -/
structure State where
  api_key : Option (List Char)
  endpoint : Option (List Char)
  default_max_results : Int
  last_response : Option (List Char)
  pretty_summary : Option (List Char)
  initialized : Bool
  deriving DecidableEq, Repr

/-- Source `PluginNew` of simpcurlfs. -/
def PluginNew : State :=
  { api_key := none, endpoint := dup_string (some "https://api.perplexity.ai/search".data),
    default_max_results := 3, last_response := none, pretty_summary := none,
    initialized := false }

/-- Source `FSRead` of simpcurlfs.  Without a stored response `/response.json`
returns the whole placeholder with `*out_len = strlen(msg)`, whatever the offset. -/
def FSRead (fs : State) (path : String) (offset size : Int) : State × ReadResult :=
  if path = "/response.json" then
    match fs.last_response with
    | none =>
      let msg := "No response yet\n".data
      (fs, ReadResult.data (c_str msg) (strlen msg))
    | some resp => (fs, read_slice_unchecked resp offset size)
  else if path = "/response.txt" then
    match fs.pretty_summary with
    | some s => (fs, read_slice_unchecked (c_str s) offset size)
    | none => (fs, read_slice_unchecked (c_str "No response yet\n".data) offset size)
  else (fs, ReadResult.error "unsupported path")

end SimpCurlFS

/-! ## The collaborators of skillsfs -/

/-- A parsed JSON value, as the yyjson accessors used by the plugins see it. -/
inductive JVal where
  | null
  | bool (b : Bool)
  | int (i : Int)
  | real (r : Rat)
  | str (s : List Char)
  | arr (items : List JVal)
  | obj (members : List (List Char × JVal))

/-- yyjson `yyjson_obj_get`: the value of the first member named `key`; NULL when
`root` is not an object or has no such member. -/
def yyjson_obj_get (root : JVal) (key : List Char) : Option JVal :=
  match root with
  | JVal.obj members => (members.find? (fun kv => kv.1 = key)).map (fun kv => kv.2)
  | _ => none

/-- yyjson `yyjson_is_str`. -/
def yyjson_is_str : JVal → Bool
  | JVal.str _ => true
  | _ => false

/-- yyjson `yyjson_get_str`: the string's bytes, NULL for a non-string. -/
def yyjson_get_str : JVal → Option (List Char)
  | JVal.str s => some s
  | _ => none

/-- yyjson `yyjson_is_int`. -/
def yyjson_is_int : JVal → Bool
  | JVal.int _ => true
  | _ => false

/-- Conversion of a 64-bit integer to C `int` (two's complement, 32 bits). -/
def to_int32 (i : Int) : Int := (i + 2147483648) % 4294967296 - 2147483648

/-- yyjson `yyjson_get_int`: the integer converted to `int`, 0 for a non-integer. -/
def yyjson_get_int : JVal → Int
  | JVal.int i => to_int32 i
  | _ => 0

/-- What one ABI call observes of the world outside the plugin. -/
structure Env where
  /-- Value of `time(NULL)`. -/
  now : Int
  /-- Text `strftime(.., "%Y-%m-%d %H:%M:%S", localtime(t))` writes for `t`. -/
  strftime : Int → List Char
  /-- Value of `clock() - start` measured by `run_skill`, in clock ticks. -/
  clock_ticks : Int
  /-- Text `%.2f` writes for the duration of the given number of ticks in ms. -/
  fmt_duration : Int → List Char
  /-- Parser `yyjson_read`: NULL (`none`) when the text is not valid JSON. -/
  yyjson_read : List Char → Option JVal

/-! ## skillsfs -/

namespace SkillFS

/-- Source `SkillFS` struct.  `log_text` is the pair (`log_text`, `log_len`);
`last_duration_ms` is carried as the number of clock ticks it is computed from;
the flags `pending` and `initialized` only ever hold 0 or 1. -/
structure State where
  skill_name : Option (List Char)
  metadata : Option (List Char)
  instructions : Option (List Char)
  last_params : Option (List Char)
  last_result : Option (List Char)
  status_json : Option (List Char)
  log_text : Option (List Char)
  log_cap : Nat
  last_request_ts : Int
  last_exec_ts : Int
  last_duration_ms : Int
  cache_ttl_seconds : Int
  pending : Bool
  initialized : Bool
  deriving DecidableEq, Repr

/-- Length field `log_len`. -/
def State.log_len (fs : State) : Nat := (fs.log_text.getD []).length

/-- The doubling loop `while (new_cap < need) new_cap *= 2;` run for at most
`fuel` rounds. -/
def grow_cap (need : Nat) : Nat → Nat → Nat
  | 0, c => c
  | fuel + 1, c => if c < need then grow_cap need fuel (c * 2) else c

/-- Source `append_text` on the buffer (`buffer`, `len`, `cap`): the new buffer
and capacity (the return value is 1, `realloc` succeeding). -/
def append_text (buffer : Option (List Char)) (cap : Nat) (text : List Char) :
    Option (List Char) × Nat :=
  let len := (buffer.getD []).length
  let text_len := strlen text
  let need := len + text_len + 1
  let new_cap := if need > cap then grow_cap need need (if cap = 0 then 1024 else cap * 2) else cap
  (some (buffer.getD [] ++ c_str text), new_cap)

/-- The `switch` of `json_escape`: the text written for one byte. -/
def json_escape_char (c : Char) : List Char :=
  if c = '\\' then ['\\', '\\']
  else if c = '\"' then ['\\', '\"']
  else if c = '\n' then ['\\', 'n']
  else if c = '\r' then ['\\', 'r']
  else if c = '\t' then ['\\', 't']
  else [c]

/-- Source `json_escape`; NULL input gives the empty string. -/
def json_escape : Option (List Char) → List Char
  | none => []
  | some text => (c_str text).flatMap json_escape_char

/-- Source `append_log`. -/
def append_log (env : Env) (fs : State) (level message : String) : State :=
  let ts := env.strftime env.now
  let line := snprintf 1024
    ("[".data ++ c_str ts ++ "] [".data ++ c_str level.data ++ "] ".data
      ++ c_str message.data ++ "\n".data)
  let r := append_text fs.log_text fs.log_cap line
  { fs with log_text := r.1, log_cap := r.2 }

/-- Text of a C truth value in the status snapshot. -/
def bool_text (b : Bool) : List Char := if b then "true".data else "false".data

/-- The formatted status snapshot before it is cut to the buffer size. -/
def status_text (skill_json state : List Char) (pending cache_hit : Bool)
    (ts_buf duration : List Char) : List Char :=
  "\x7b\"skill\":\"".data ++ c_str skill_json ++ "\",\"state\":\"".data ++ c_str state
    ++ "\",\"pending\":".data ++ bool_text pending ++ ",\"cache_hit\":".data
    ++ bool_text cache_hit ++ ",\"last_execution\":\"".data ++ c_str ts_buf
    ++ "\",\"duration_ms\":".data ++ duration ++ "\x7d".data

/-- Source `set_status`. -/
def set_status (env : Env) (fs : State) (state : String) (cache_hit : Bool) : State :=
  let ts_buf := if fs.last_exec_ts > 0 then env.strftime fs.last_exec_ts else []
  let skill_json := json_escape (some (fs.skill_name.getD "skillfs".data))
  let status_buf := snprintf 512
    (status_text skill_json state.data fs.pending cache_hit ts_buf
      (env.fmt_duration fs.last_duration_ms))
  { fs with status_json := dup_string (some status_buf) }

/-- The formatted result of `run_skill` before it is cut to `needed` bytes. -/
def result_text (skill ts instr params : List Char) : List Char :=
  "Skill: ".data ++ c_str skill ++ "\nExecuted at: ".data ++ c_str ts
    ++ "\n\nInstructions:\n".data ++ c_str instr ++ "\n\nParameters:\n".data ++ c_str params
    ++ "\n\nNotes:\nThis is a placeholder execution for the SkillsFS MVP.\n".data

/-- Source `run_skill`: the new state and the error string (NULL on success). -/
def run_skill (env : Env) (fs : State) : State × Option String :=
  match fs.last_params with
  | none => (fs, some "no execution payload")
  | some params =>
    if strlen params = 0 then (fs, some "no execution payload")
    else
      let fs1 := set_status env fs "running" false
      let fs2 := append_log env fs1 "INFO" "Executing skill payload"
      let now := env.now
      let ts := env.strftime now
      let skill := fs2.skill_name.getD "skillfs".data
      let instr := fs2.instructions.getD "No instructions provided.".data
      let needed := strlen skill + strlen instr + strlen params + 512
      let result := snprintf needed (result_text skill ts instr params)
      let fs3 := { fs2 with
        last_result := some result
        last_exec_ts := now
        last_duration_ms := env.clock_ticks
        pending := false }
      let fs4 := set_status env fs3 "completed" false
      (append_log env fs4 "INFO" "Skill execution completed", none)

/-- Source `ensure_result_current`: the new state, the error string (NULL on
success) and the value stored in `*out_cache_hit`.  `difftime` of two `time_t`
values is their exact difference. -/
def ensure_result_current (env : Env) (fs : State) : State × Option String × Bool :=
  match fs.last_params with
  | none => (fs, some "No execution payload yet. Write to /execute first.\n", false)
  | some params =>
    if strlen params = 0 then
      (fs, some "No execution payload yet. Write to /execute first.\n", false)
    else
      let use_cache0 : Bool := !fs.pending && fs.last_result.isSome
      let use_cache : Bool :=
        if use_cache0 ∧ fs.cache_ttl_seconds > 0 ∧ fs.last_exec_ts > 0 then
          let age := env.now - fs.last_exec_ts
          if age > fs.cache_ttl_seconds then false else use_cache0
        else use_cache0
      if use_cache then
        let fs1 := set_status env fs "completed" true
        (append_log env fs1 "DEBUG" "Cache hit for /result", none, true)
      else
        let r := run_skill env fs
        (r.1, r.2, false)

/-- The zeroed struct `calloc` returns. -/
def zeroed : State :=
  { skill_name := none, metadata := none, instructions := none, last_params := none,
    last_result := none, status_json := none, log_text := none, log_cap := 0,
    last_request_ts := 0, last_exec_ts := 0, last_duration_ms := 0,
    cache_ttl_seconds := 0, pending := false, initialized := false }

/-- Source `PluginNew`. -/
def PluginNew (env : Env) : State :=
  let fs := { zeroed with
    cache_ttl_seconds := 3600
    skill_name := dup_string (some "skillfs-mvp".data)
    instructions := dup_string (some "Describe how to process incoming payloads.".data)
    metadata := dup_string (some "owner=unknown".data) }
  let fs := set_status env fs "idle" false
  append_log env fs "INFO" "SkillsFS plugin created"

/-- One `if (v && yyjson_is_str(v)) { free_string(&f); f = dup_string(yyjson_get_str(v)); }`
block of `apply_config`: the new value of the field. -/
def config_str (v : Option JVal) (old : Option (List Char)) : Option (List Char) :=
  match v with
  | some j => if yyjson_is_str j then dup_string (yyjson_get_str j) else old
  | none => old

/-- The `cache_ttl_seconds` block of `apply_config`: the new value of the field. -/
def config_ttl (v : Option JVal) (old : Int) : Int :=
  match v with
  | some j =>
    if yyjson_is_int j then
      let ttl := yyjson_get_int j
      if ttl < 0 then 0 else ttl
    else old
  | none => old

/-- Source `apply_config`. -/
def apply_config (env : Env) (fs : State) (config_json : Option (List Char)) :
    State × Option String :=
  match config_json with
  | none => (fs, none)
  | some text =>
    if strlen text = 0 then (fs, none)
    else
      match env.yyjson_read (c_str text) with
      | none => (fs, some "invalid config json")
      | some root =>
        let name_val := yyjson_obj_get root "skill_name".data
        let meta_val := yyjson_obj_get root "metadata".data
        let instr_val := yyjson_obj_get root "instructions".data
        let ttl_val := yyjson_obj_get root "cache_ttl_seconds".data
        ({ fs with
            skill_name := config_str name_val fs.skill_name
            metadata := config_str meta_val fs.metadata
            instructions := config_str instr_val fs.instructions
            cache_ttl_seconds := config_ttl ttl_val fs.cache_ttl_seconds }, none)

/-- Source `PluginInitialize` (non-NULL plugin). -/
def PluginInitialize (env : Env) (fs : State) (config_json : Option (List Char)) :
    State × Option String :=
  let r := apply_config env fs config_json
  match r.2 with
  | some err => (r.1, some err)
  | none =>
    let fs1 := { r.1 with initialized := true }
    let fs2 := append_log env fs1 "INFO" "SkillsFS initialized"
    (set_status env fs2 "idle" false, none)

/-- Source `PluginShutdown` (non-NULL plugin). -/
def PluginShutdown (env : Env) (fs : State) : State × Option String :=
  let fs1 := { fs with initialized := false }
  (append_log env fs1 "INFO" "SkillsFS shutdown", none)

/-- Source `FileInfoC` struct (the same in the three plugins). -/
structure FileInfoC where
  Name : List Char
  Size : Int
  Mode : Nat
  ModTime : Int
  IsDir : Int
  MetaName : List Char
  MetaType : List Char
  MetaContent : List Char
  deriving DecidableEq, Repr

/-- Source `make_file_info`; modes 0755 and 0644 are 493 and 420. -/
def make_file_info (env : Env) (name : List Char) (is_dir : Bool) : FileInfoC :=
  { Name := c_str name
    Size := 0
    Mode := if is_dir then 493 else 420
    ModTime := env.now
    IsDir := if is_dir then 1 else 0
    MetaName := "skillsfs".data
    MetaType := if is_dir then "directory".data else "file".data
    MetaContent := "\x7b\x7d".data }

/-- Source table `file_names`. -/
def file_names : List String :=
  ["metadata", "instructions", "execute", "result", "status", "log"]

/-- Source `is_known_file`. -/
def is_known_file (name : List Char) : Bool :=
  file_names.any (fun f => decide (name = f.data))

/-- Source `FSStat`; `none` is the NULL result.  The plugin argument is unused. -/
def FSStat (env : Env) (fs : State) (path : String) : State × Option FileInfoC :=
  if path = "/" then (fs, some (make_file_info env [] true))
  else
    match path.data with
    | c :: rest =>
      if c = '/' ∧ is_known_file rest then (fs, some (make_file_info env rest false))
      else (fs, none)
    | [] => (fs, none)

/-- Source `FSReadDir`: the items and `*out_count`; `none` is the NULL result with
`*out_count = -1`.  The plugin argument is unused. -/
def FSReadDir (env : Env) (fs : State) (path : String) :
    State × Option (List FileInfoC × Int) :=
  if path ≠ "/" then (fs, none)
  else
    let items := file_names.map (fun f =>
      ({ Name := f.data, Size := 0, Mode := 420, ModTime := env.now, IsDir := 0,
         MetaName := "skillsfs".data, MetaType := "file".data,
         MetaContent := "\x7b\x7d".data } : FileInfoC))
    (fs, some (items, (file_names.length : Int)))

/-- Source `handle_execute_write`; `data` holds the `data_len` bytes written. -/
def handle_execute_write (env : Env) (fs : State) (data : List Char) :
    State × Option String :=
  let fs1 := { fs with
    last_params := some data
    pending := true
    last_request_ts := env.now }
  let fs2 := set_status env fs1 "pending" false
  (append_log env fs2 "INFO" "Received new execution payload", none)

/-- Source `FSWrite` (non-NULL plugin): the new state and the error string, NULL
on success. -/
def FSWrite (env : Env) (fs : State) (path : String) (data : List Char) :
    State × Option String :=
  if path = "/execute" then handle_execute_write env fs data
  else if path = "/instructions" then
    let fs1 := { fs with instructions := some data }
    (append_log env fs1 "INFO" "Updated instructions", none)
  else if path = "/metadata" then
    let fs1 := { fs with metadata := some data }
    (append_log env fs1 "INFO" "Updated metadata", none)
  else (fs, some "write not supported on this path")

/-- Source `make_read_response`. -/
def make_read_response (src : Option (List Char)) : List Char :=
  c_str (src.getD [])

/-- The first part of source `FSRead` (non-NULL plugin): the state after the call
and the buffer `dynamic`, or the error string for an unsupported path. -/
def read_dynamic (env : Env) (fs : State) (path : String) :
    State × Except String (List Char) :=
  if path = "/metadata" then
    (fs, Except.ok (make_read_response (some (fs.metadata.getD "No metadata set\n".data))))
  else if path = "/instructions" then
    (fs, Except.ok
      (make_read_response (some (fs.instructions.getD "No instructions set\n".data))))
  else if path = "/status" then
    (fs, Except.ok (make_read_response (some (fs.status_json.getD "\x7b\x7d".data))))
  else if path = "/log" then
    (fs, Except.ok (make_read_response
      (some (if fs.log_text.isSome ∧ fs.log_len > 0 then fs.log_text.getD []
             else "No log entries yet\n".data))))
  else if path = "/result" then
    let r := ensure_result_current env fs
    let fs1 := r.1
    match r.2.1, fs1.last_result with
    | some err, none => (fs1, Except.ok (make_read_response (some err.data)))
    | _, some res => (fs1, Except.ok (make_read_response (some res)))
    | none, none => (fs1, Except.ok (make_read_response (some "No result available\n".data)))
  else (fs, Except.error "unsupported path")

/-- Source `FSRead` (non-NULL plugin). -/
def FSRead (env : Env) (fs : State) (path : String) (offset size : Int) :
    State × ReadResult :=
  match read_dynamic env fs path with
  | (fs1, Except.error msg) => (fs1, ReadResult.error msg)
  | (fs1, Except.ok dynamic) => (fs1, read_slice dynamic offset size)

/-- A call of the plugin ABI that reaches the state. -/
inductive Op where
  | init (config_json : Option (List Char))
  | shutdown
  | write (path : String) (data : List Char)
  | read (path : String) (offset size : Int)
  | stat (path : String)
  | readdir (path : String)

/-- The state after one ABI call. -/
def step (env : Env) (fs : State) : Op → State
  | Op.init config_json => (PluginInitialize env fs config_json).1
  | Op.shutdown => (PluginShutdown env fs).1
  | Op.write path data => (FSWrite env fs path data).1
  | Op.read path offset size => (FSRead env fs path offset size).1
  | Op.stat path => (FSStat env fs path).1
  | Op.readdir path => (FSReadDir env fs path).1

/-- States reachable from `PluginNew` by ABI calls, each under its own `Env`. -/
inductive Reachable : State → Prop where
  | new (env : Env) : Reachable (PluginNew env)
  | step (env : Env) (op : Op) {fs : State} : Reachable fs → Reachable (step env fs op)

end SkillFS

/-! ## The collaborators of the eager plugins -/

/-- yyjson `yyjson_is_arr`. -/
def yyjson_is_arr : JVal → Bool
  | JVal.arr _ => true
  | _ => false

/-- The elements of a JSON array, in order (what `yyjson_arr_iter_next` yields);
none for a value that is not an array. -/
def yyjson_arr_items : JVal → List JVal
  | JVal.arr items => items
  | _ => []

/-- yyjson `yyjson_is_real`. -/
def yyjson_is_real : JVal → Bool
  | JVal.real _ => true
  | _ => false

/-- yyjson `yyjson_get_real`: the number, 0 for a value that is not a real. -/
def yyjson_get_real : JVal → Rat
  | JVal.real r => r
  | _ => 0

/-- The test `v && yyjson_is_str(v)` on the result of `yyjson_obj_get`. -/
def is_str_val (v : Option JVal) : Bool :=
  match v with
  | some j => yyjson_is_str j
  | none => false

/-- The test `v && yyjson_is_int(v)` on the result of `yyjson_obj_get`. -/
def is_int_val (v : Option JVal) : Bool :=
  match v with
  | some j => yyjson_is_int j
  | none => false

/-- The call `yyjson_get_str(v)` on the result of `yyjson_obj_get` (NULL for NULL). -/
def get_str_val (v : Option JVal) : Option (List Char) :=
  v.bind yyjson_get_str

/-- The options set on the curl handle before one `curl_easy_perform`. -/
structure HttpRequest where
  /-- Option `CURLOPT_URL`. -/
  url : List Char
  /-- Option `CURLOPT_HTTPHEADER`, in the order appended. -/
  headers : List (List Char)
  /-- Option `CURLOPT_POSTFIELDS`. -/
  postfields : List Char
  /-- Option `CURLOPT_TIMEOUT_MS`, when set. -/
  timeout_ms : Option Int
  deriving DecidableEq, Repr

/-- What one ABI call of summaryfs or simpcurlfs observes of the world outside
the plugin.  `curl_easy_init` succeeds, as `malloc` does. -/
structure NetEnv where
  /-- Value of `time(NULL)`. -/
  now : Int
  /-- C `getenv`: NULL (`none`) for an unset variable. -/
  getenv : List Char → Option (List Char)
  /-- Parser `yyjson_read` on the given bytes: NULL (`none`) when they are not valid
  JSON. -/
  yyjson_read : List Char → Option JVal
  /-- Serializer `yyjson_mut_write` of a built document. -/
  yyjson_mut_write : JVal → List Char
  /-- Call `curl_easy_perform`: the bytes handed to the write callback when the
  result is `CURLE_OK`, else the text `curl_easy_strerror` gives for the result. -/
  curl_easy_perform : HttpRequest → Except String (List Char)

/-- The text `%d` writes for a C `int`. -/
def fmt_d (i : Int) : List Char := (toString i).data

/-! ## simpcurlfs: configuration and the request write -/

namespace SimpCurlFS

/-- Source `append_text` of simpcurlfs (the same code as in skillsfs). -/
def append_text (buffer : Option (List Char)) (cap : Nat) (text : List Char) :
    Option (List Char) × Nat :=
  let len := (buffer.getD []).length
  let text_len := strlen text
  let need := len + text_len + 1
  let new_cap :=
    if need > cap then SkillFS.grow_cap need need (if cap = 0 then 1024 else cap * 2) else cap
  (some (buffer.getD [] ++ c_str text), new_cap)

/-- Source `ensure_api_key`: the new state and the error string (NULL on success). -/
def ensure_api_key (env : NetEnv) (fs : State) : State × Option String :=
  if strlen (fs.api_key.getD []) > 0 then (fs, none)
  else
    match env.getenv "PERPLEXITY_API_KEY".data with
    | some env_key =>
      if strlen env_key ≠ 0 then ({ fs with api_key := dup_string (some env_key) }, none)
      else (fs, some "PERPLEXITY_API_KEY is not set and no api_key provided")
    | none => (fs, some "PERPLEXITY_API_KEY is not set and no api_key provided")

/-- One `append_text(&buffer, &cur_len, &cap, text)` of `format_results` on the pair
(buffer, cap). -/
def put (b : Option (List Char) × Nat) (text : List Char) : Option (List Char) × Nat :=
  append_text b.1 b.2 text

/-- The labelled line `format_results` appends for one member of a result, when
`yyjson_get_str` gives a string for it. -/
def put_field (b : Option (List Char) × Nat) (label : String) (v : Option (List Char)) :
    Option (List Char) × Nat :=
  match v with
  | some text => put (put (put b label.data) text) "\n".data
  | none => b

/-- The `while` loop of `format_results` over the remaining array elements, with
`count` results written so far: the buffer and the final count. -/
def format_items (max_results : Int) :
    List JVal → Nat → Option (List Char) × Nat → (Option (List Char) × Nat) × Nat
  | [], count, b => (b, count)
  | item :: rest, count, b =>
    if max_results > 0 ∧ (count : Int) ≥ max_results then (b, count)
    else
      let title := get_str_val (yyjson_obj_get item "title".data)
      let url := get_str_val (yyjson_obj_get item "url".data)
      let snippet := get_str_val (yyjson_obj_get item "snippet".data)
      let line := snprintf 512 ("Result ".data ++ fmt_d ((count : Int) + 1) ++ "\n".data)
      let b1 := put b line
      let b2 := put_field b1 "  Title: " title
      let b3 := put_field b2 "  URL: " url
      let b4 := put_field b3 "  Snippet: " snippet
      let b5 := put b4 "\n".data
      format_items max_results rest (count + 1) b5

/-- Source `format_results` on the `len` bytes `json`: the summary text. -/
def format_results (env : NetEnv) (json : List Char) (max_results : Int) :
    Option (List Char) :=
  match env.yyjson_read json with
  | none => dup_string (some "Failed to parse JSON response\n".data)
  | some root =>
    match yyjson_obj_get root "results".data with
    | none => (put (none, 0) "No 'results' array in response\n".data).1
    | some results =>
      if ¬ yyjson_is_arr results then
        (put (none, 0) "No 'results' array in response\n".data).1
      else
        let b0 := put (none, 0)
          "Perplexity Search Results\n------------------------------\n".data
        let r := format_items max_results (yyjson_arr_items results) 0 b0
        if r.2 = 0 then (put r.1 "No results returned\n".data).1 else r.1.1

/-- The request `perform_search` sets up on the curl handle. -/
def search_request (fs : State) (query : List Char) (max_results : Int) : HttpRequest :=
  { url := c_str (fs.endpoint.getD "https://api.perplexity.ai/search".data)
    headers :=
      ["Content-Type: application/json".data,
       snprintf 1024 ("Authorization: Bearer ".data ++ c_str (fs.api_key.getD []))]
    postfields := c_str (snprintf 2048
      ("\x7b\"query\":\"".data ++ c_str query ++ "\",\"max_results\":".data
        ++ fmt_d max_results ++ "\x7d".data))
    timeout_ms := none }

/-- Source `perform_search`: the new state, the error string (NULL on success) and
the remote calls performed. -/
def perform_search (env : NetEnv) (fs : State) (query : List Char) (max_results : Int) :
    State × Option String × List HttpRequest :=
  let k := ensure_api_key env fs
  match k.2 with
  | some key_err => (k.1, some key_err, [])
  | none =>
    let fs1 := k.1
    let max_results1 := if max_results ≤ 0 then fs1.default_max_results else max_results
    let req := search_request fs1 query max_results1
    match env.curl_easy_perform req with
    | Except.error msg => (fs1, some msg, [req])
    | Except.ok body =>
      ({ fs1 with
          last_response := some body
          pretty_summary := format_results env body max_results1 }, none, [req])

/-- Source `apply_config` of simpcurlfs. -/
def apply_config (env : NetEnv) (fs : State) (config_json : Option (List Char)) :
    State × Option String :=
  match config_json with
  | none => (fs, none)
  | some text =>
    if strlen text = 0 then (fs, none)
    else
      match env.yyjson_read (c_str text) with
      | none => (fs, some "invalid config json")
      | some root =>
        let api_key_val := yyjson_obj_get root "api_key".data
        let api_env_val := yyjson_obj_get root "api_key_env".data
        let endpoint_val := yyjson_obj_get root "endpoint".data
        let max_val := yyjson_obj_get root "default_max_results".data
        let fs1 : State :=
          if is_str_val api_key_val then
            { fs with api_key := dup_string (get_str_val api_key_val) }
          else if is_str_val api_env_val then
            match get_str_val api_env_val with
            | some env_name =>
              if strlen env_name ≠ 0 then
                match env.getenv (c_str env_name) with
                | some env_val =>
                  if strlen env_val ≠ 0 then { fs with api_key := dup_string (some env_val) }
                  else fs
                | none => fs
              else fs
            | none => fs
          else fs
        let fs2 : State :=
          if is_str_val endpoint_val then
            { fs1 with endpoint := dup_string (get_str_val endpoint_val) }
          else fs1
        let fs3 : State :=
          if is_int_val max_val then
            { fs2 with default_max_results := yyjson_get_int (max_val.getD JVal.null) }
          else fs2
        (fs3, none)

/-- Source `PluginInitialize` of simpcurlfs (non-NULL plugin). -/
def PluginInitialize (env : NetEnv) (fs : State) (config_json : Option (List Char)) :
    State × Option String :=
  let r := apply_config env fs config_json
  match r.2 with
  | some cfg_err => (r.1, some cfg_err)
  | none => ({ r.1 with initialized := true }, none)

/-- Source `PluginShutdown` of simpcurlfs (non-NULL plugin). -/
def PluginShutdown (fs : State) : State × Option String :=
  ({ fs with initialized := false }, none)

/-- The first half of source `handle_request_write`: the query (NULL when the
payload is JSON without a string `query`) and `max_results`, read from the
`data_len` bytes `data`. -/
def parse_request (env : NetEnv) (fs : State) (data : List Char) :
    Option (List Char) × Int :=
  match env.yyjson_read data with
  | some root =>
    let query_val := yyjson_obj_get root "query".data
    let max_val := yyjson_obj_get root "max_results".data
    (if is_str_val query_val then dup_string (get_str_val query_val) else none,
     if is_int_val max_val then yyjson_get_int (max_val.getD JVal.null)
     else fs.default_max_results)
  | none => (dup_string (some data), fs.default_max_results)

/-- Source `handle_request_write`. -/
def handle_request_write (env : NetEnv) (fs : State) (data : List Char) :
    State × Option String × List HttpRequest :=
  let r := parse_request env fs data
  match r.1 with
  | none => (fs, some "request missing query", [])
  | some query =>
    if strlen query = 0 then (fs, some "request missing query", [])
    else perform_search env fs query r.2

/-- Source `FSWrite` of simpcurlfs (non-NULL plugin): the new state, the error
string (NULL on success) and the remote calls performed. -/
def FSWrite (env : NetEnv) (fs : State) (path : String) (data : List Char) :
    State × Option String × List HttpRequest :=
  if path ≠ "/request" then (fs, some "write supported only on /request", [])
  else handle_request_write env fs data

/-- Source `alloc_file_info` of simpcurlfs. -/
def alloc_file_info (env : NetEnv) (name : List Char) (is_dir : Bool) (size : Int)
    (mode : Nat) : SkillFS.FileInfoC :=
  { Name := c_str name
    Size := size
    Mode := mode
    ModTime := env.now
    IsDir := if is_dir then 1 else 0
    MetaName := "simpcurlfs".data
    MetaType := if is_dir then "directory".data else "file".data
    MetaContent := "\x7b\x7d".data }

/-- Source `FSStat` of simpcurlfs (non-NULL plugin); `none` is the NULL result. -/
def FSStat (env : NetEnv) (fs : State) (path : String) : State × Option SkillFS.FileInfoC :=
  if path = "/" then (fs, some (alloc_file_info env [] true 0 493))
  else if path = "/request" then (fs, some (alloc_file_info env "request".data false 0 420))
  else if path = "/response.json" then
    let sz : Nat := if fs.last_response.isSome then (fs.last_response.getD []).length else 0
    (fs, some (alloc_file_info env "response.json".data false sz 420))
  else if path = "/response.txt" then
    let sz : Nat := if fs.pretty_summary.isSome then strlen (fs.pretty_summary.getD []) else 0
    (fs, some (alloc_file_info env "response.txt".data false sz 420))
  else (fs, none)

/-- The array `names` of source `FSReadDir`. -/
def names : List String := ["request", "response.json", "response.txt"]

/-- Source `FSReadDir` of simpcurlfs: the items and `*out_count`; `none` is the NULL
result with `*out_count = -1`. -/
def FSReadDir (env : NetEnv) (fs : State) (path : String) :
    State × Option (List SkillFS.FileInfoC × Int) :=
  if path ≠ "/" then (fs, none)
  else
    let items := names.map (fun f =>
      ({ Name := c_str f.data, Size := 0, Mode := 420, ModTime := env.now, IsDir := 0,
         MetaName := "simpcurlfs".data, MetaType := "file".data,
         MetaContent := "\x7b\x7d".data } : SkillFS.FileInfoC))
    (fs, some (items, 3))

/-- Source `FSCreate` of simpcurlfs. -/
def FSCreate (fs : State) (_path : String) : State × String := (fs, "create not supported")

/-- Source `FSMkdir` of simpcurlfs. -/
def FSMkdir (fs : State) (_path : String) (_mode : Nat) : State × String :=
  (fs, "mkdir not supported")

/-- Source `FSRemove` of simpcurlfs. -/
def FSRemove (fs : State) (_path : String) : State × String := (fs, "remove not supported")

/-- Source `FSRemoveAll` of simpcurlfs. -/
def FSRemoveAll (fs : State) (_path : String) : State × String :=
  (fs, "removeall not supported")

/-- Source `FSRename` of simpcurlfs. -/
def FSRename (fs : State) (_old_path _new_path : String) : State × String :=
  (fs, "rename not supported")

/-- Source `FSChmod` of simpcurlfs. -/
def FSChmod (fs : State) (_path : String) (_mode : Nat) : State × String :=
  (fs, "chmod not supported")

end SimpCurlFS

/-! ## summaryfs: configuration and the request write -/

namespace SummaryFS

/-- Source `ensure_model`: the new state (the error needs a failed allocation). -/
def ensure_model (fs : State) : State :=
  match fs.model with
  | none => { fs with model := dup_string (some "gpt-4o-mini".data) }
  | some _ => fs

/-- Source `ensure_endpoint`: the new state (the error needs a failed allocation). -/
def ensure_endpoint (fs : State) : State :=
  match fs.endpoint with
  | none =>
    { fs with endpoint := dup_string (some "https://api.openai.com/v1/chat/completions".data) }
  | some _ => fs

/-- Source `ensure_api_key` of summaryfs: the new state and the error string (NULL
on success). -/
def ensure_api_key (env : NetEnv) (fs : State) : State × Option String :=
  if strlen (fs.api_key.getD []) ≠ 0 then (fs, none)
  else
    let candidate : Option (List Char) :=
      if strlen (fs.api_key_env.getD []) ≠ 0 then env.getenv (c_str (fs.api_key_env.getD []))
      else none
    let candidate1 : Option (List Char) :=
      if strlen (candidate.getD []) = 0 then env.getenv "OPENAI_API_KEY".data else candidate
    if strlen (candidate1.getD []) = 0 then
      (fs, some "OpenAI API key not set (set OPENAI_API_KEY or openai_api_key(_env))")
    else ({ fs with api_key := dup_string candidate1 }, none)

/-- Source `build_prompt`. -/
def build_prompt (fs : State) (text : List Char) (format : Option (List Char)) : List Char :=
  let default_prompt :=
    ("You are a helpful research assistant. Summarize the provided text in a clear,\n"
      ++ "concise way. Highlight key insights. If format is specified, follow it.").data
  let sys := fs.system_prompt.getD default_prompt
  let cap := strlen sys + strlen text + 256
  if strlen (format.getD []) ≠ 0 then
    snprintf cap (c_str sys ++ "\n\nFormat: ".data ++ c_str (format.getD [])
      ++ "\n\nText:\n".data ++ c_str text)
  else snprintf cap (c_str sys ++ "\n\nText:\n".data ++ c_str text)

/-- The JSON document `call_openai` builds for the request body. -/
def request_doc (fs : State) (prompt : List Char) : JVal :=
  let sys := fs.system_prompt.getD
    "You are a helpful research assistant. Summarize the user text in a concise manner.".data
  let sys_msg := JVal.obj
    [("role".data, JVal.str "system".data), ("content".data, JVal.str (c_str sys))]
  let user_msg := JVal.obj
    [("role".data, JVal.str "user".data), ("content".data, JVal.str (c_str prompt))]
  JVal.obj
    ([("model".data, JVal.str (c_str (fs.model.getD [])))]
      ++ (if fs.temperature > 0 then [("temperature".data, JVal.real fs.temperature)] else [])
      ++ [("messages".data, JVal.arr [sys_msg, user_msg])])

/-- The request `call_openai` sets up on the curl handle. -/
def chat_request (env : NetEnv) (fs : State) (prompt : List Char) : HttpRequest :=
  { url := c_str (fs.endpoint.getD [])
    headers :=
      ["Content-Type: application/json".data,
       snprintf 512 ("Authorization: Bearer ".data ++ c_str (fs.api_key.getD []))]
    postfields := c_str (env.yyjson_mut_write (request_doc fs prompt))
    timeout_ms := some (if fs.timeout_ms > 0 then fs.timeout_ms else 120000) }

/-- Source `call_openai`: the new state, the error string (NULL on success) and the
remote calls performed. -/
def call_openai (env : NetEnv) (fs : State) (prompt : List Char) :
    State × Option String × List HttpRequest :=
  let fs1 := ensure_endpoint (ensure_model fs)
  let k := ensure_api_key env fs1
  match k.2 with
  | some err => (k.1, some err, [])
  | none =>
    let fs2 := k.1
    let req := chat_request env fs2 prompt
    match env.curl_easy_perform req with
    | Except.error msg => (fs2, some msg, [req])
    | Except.ok body => ({ fs2 with last_raw := some body }, none, [req])

/-- The text `extract_summary` takes from a parsed response: the string at
`choices[0].message.content`, NULL when it is missing. -/
def response_content (root : JVal) : Option (List Char) :=
  match yyjson_obj_get root "choices".data with
  | some choices =>
    if yyjson_is_arr choices ∧ (yyjson_arr_items choices).length > 0 then
      match (yyjson_arr_items choices).head? with
      | some first =>
        match yyjson_obj_get first "message".data with
        | some message =>
          match yyjson_obj_get message "content".data with
          | some content => if yyjson_is_str content then yyjson_get_str content else none
          | none => none
        | none => none
      | none => none
    else none
  | none => none

/-- Source `extract_summary`: the new state and the error string (NULL on success). -/
def extract_summary (env : NetEnv) (fs : State) : State × Option String :=
  match fs.last_raw with
  | none => (fs, some "no raw response")
  | some raw =>
    match env.yyjson_read raw with
    | none => (fs, some "failed to parse LLM response")
    | some root =>
      let summary := (response_content root).getD "(no content field returned)".data
      ({ fs with last_summary := dup_string (some summary) }, none)

/-- Source `apply_config` of summaryfs. -/
def apply_config (env : NetEnv) (fs : State) (config_json : Option (List Char)) :
    State × Option String :=
  match config_json with
  | none => (fs, none)
  | some text =>
    if strlen text = 0 then (fs, none)
    else
      match env.yyjson_read (c_str text) with
      | none => (fs, some "invalid config json")
      | some root =>
        let model_val0 := yyjson_obj_get root "model".data
        let model_val :=
          if model_val0.isNone then yyjson_obj_get root "openai_model".data else model_val0
        let endpoint_val := yyjson_obj_get root "openai_endpoint".data
        let timeout_val := yyjson_obj_get root "timeout_ms".data
        let temp_val := yyjson_obj_get root "temperature".data
        let sys_val := yyjson_obj_get root "system_prompt".data
        let key_val := yyjson_obj_get root "openai_api_key".data
        let key_env_val := yyjson_obj_get root "openai_api_key_env".data
        let fs1 : State :=
          if is_str_val model_val then { fs with model := dup_string (get_str_val model_val) }
          else fs
        let fs2 : State :=
          if is_str_val endpoint_val then
            { fs1 with endpoint := dup_string (get_str_val endpoint_val) }
          else fs1
        let fs3 : State :=
          if is_int_val timeout_val then
            { fs2 with timeout_ms := yyjson_get_int (timeout_val.getD JVal.null) }
          else fs2
        let fs4 : State :=
          match temp_val with
          | some t =>
            if yyjson_is_real t ∨ yyjson_is_int t then
              { fs3 with temperature :=
                  if yyjson_is_real t then yyjson_get_real t else (yyjson_get_int t : Rat) }
            else fs3
          | none => fs3
        let fs5 : State :=
          if is_str_val sys_val then
            { fs4 with system_prompt := dup_string (get_str_val sys_val) }
          else fs4
        let fs6 : State :=
          if is_str_val key_val then { fs5 with api_key := dup_string (get_str_val key_val) }
          else fs5
        let fs7 : State :=
          if is_str_val key_env_val then
            { fs6 with api_key_env := dup_string (get_str_val key_env_val) }
          else fs6
        (fs7, none)

/-- Source `PluginInitialize` of summaryfs (non-NULL plugin). -/
def PluginInitialize (env : NetEnv) (fs : State) (config_json : Option (List Char)) :
    State × Option String :=
  let r := apply_config env fs config_json
  match r.2 with
  | some err => (r.1, some err)
  | none => ({ r.1 with initialized := true }, none)

/-- Source `PluginShutdown` of summaryfs (non-NULL plugin). -/
def PluginShutdown (fs : State) : State × Option String :=
  ({ fs with initialized := false }, none)

/-- The first half of source `handle_request`: the text (NULL or empty when
neither the JSON member `text` nor the raw payload gives one) and the format, read
from the `len` bytes `data`. -/
def parse_request (env : NetEnv) (data : List Char) :
    Option (List Char) × Option (List Char) :=
  let doc := env.yyjson_read data
  let text0 : Option (List Char) :=
    match doc with
    | some root =>
      if is_str_val (yyjson_obj_get root "text".data) then
        dup_string (get_str_val (yyjson_obj_get root "text".data))
      else none
    | none => none
  let format : Option (List Char) :=
    match doc with
    | some root =>
      if is_str_val (yyjson_obj_get root "format".data) then
        dup_string (get_str_val (yyjson_obj_get root "format".data))
      else none
    | none => none
  let text : Option (List Char) :=
    if strlen (text0.getD []) = 0 then dup_string (some data) else text0
  (text, format)

/-- Source `handle_request`. -/
def handle_request (env : NetEnv) (fs : State) (data : List Char) :
    State × Option String × List HttpRequest :=
  let r := parse_request env data
  if strlen (r.1.getD []) = 0 then (fs, some "request missing text", [])
  else
    let prompt := build_prompt fs (r.1.getD []) r.2
    let c := call_openai env fs prompt
    match c.2.1 with
    | some err => (c.1, some err, c.2.2)
    | none =>
      let e := extract_summary env c.1
      (e.1, e.2, c.2.2)

/-- Source `FSWrite` of summaryfs (non-NULL plugin): the new state, the error
string (NULL on success) and the remote calls performed. -/
def FSWrite (env : NetEnv) (fs : State) (path : String) (data : List Char) :
    State × Option String × List HttpRequest :=
  if path ≠ "/request" then (fs, some "write supported only on /request", [])
  else handle_request env fs data

/-- Source `alloc_file_info` of summaryfs. -/
def alloc_file_info (env : NetEnv) (name : List Char) (is_dir : Bool) (size : Int)
    (mode : Nat) : SkillFS.FileInfoC :=
  { Name := c_str name
    Size := size
    Mode := mode
    ModTime := env.now
    IsDir := if is_dir then 1 else 0
    MetaName := "summaryfs".data
    MetaType := if is_dir then "directory".data else "file".data
    MetaContent := "\x7b\x7d".data }

/-- Source `FSStat` of summaryfs; `none` is the NULL result. -/
def FSStat (env : NetEnv) (fs : State) (path : String) : State × Option SkillFS.FileInfoC :=
  if path = "/" then (fs, some (alloc_file_info env [] true 0 493))
  else if path = "/request" then (fs, some (alloc_file_info env "request".data false 0 420))
  else if path = "/response.json" then
    (fs, some (alloc_file_info env "response.json".data false 0 420))
  else if path = "/response.txt" then
    (fs, some (alloc_file_info env "response.txt".data false 0 420))
  else (fs, none)

/-- The array `names` of source `FSReadDir`. -/
def names : List String := ["request", "response.json", "response.txt"]

/-- Source `FSReadDir` of summaryfs: the items and `*out_count`; `none` is the NULL
result with `*out_count = -1`. -/
def FSReadDir (env : NetEnv) (fs : State) (path : String) :
    State × Option (List SkillFS.FileInfoC × Int) :=
  if path ≠ "/" then (fs, none)
  else
    let items := names.map (fun f =>
      ({ Name := c_str f.data, Size := 0, Mode := 420, ModTime := env.now, IsDir := 0,
         MetaName := "summaryfs".data, MetaType := "file".data,
         MetaContent := "\x7b\x7d".data } : SkillFS.FileInfoC))
    (fs, some (items, 3))

/-- Source `FSCreate` of summaryfs. -/
def FSCreate (fs : State) (_path : String) : State × String := (fs, "create not supported")

/-- Source `FSMkdir` of summaryfs. -/
def FSMkdir (fs : State) (_path : String) (_mode : Nat) : State × String :=
  (fs, "mkdir not supported")

/-- Source `FSRemove` of summaryfs. -/
def FSRemove (fs : State) (_path : String) : State × String := (fs, "remove not supported")

/-- Source `FSRemoveAll` of summaryfs. -/
def FSRemoveAll (fs : State) (_path : String) : State × String :=
  (fs, "removeall not supported")

/-- Source `FSRename` of summaryfs. -/
def FSRename (fs : State) (_old_path _new_path : String) : State × String :=
  (fs, "rename not supported")

/-- Source `FSChmod` of summaryfs. -/
def FSChmod (fs : State) (_path : String) (_mode : Nat) : State × String :=
  (fs, "chmod not supported")

end SummaryFS

namespace SkillFS

/-- Source `FSCreate` of skillsfs. -/
def FSCreate (fs : State) (_path : String) : State × String := (fs, "create not supported")

/-- Source `FSMkdir` of skillsfs. -/
def FSMkdir (fs : State) (_path : String) (_mode : Nat) : State × String :=
  (fs, "mkdir not supported")

/-- Source `FSRemove` of skillsfs. -/
def FSRemove (fs : State) (_path : String) : State × String := (fs, "remove not supported")

/-- Source `FSRemoveAll` of skillsfs. -/
def FSRemoveAll (fs : State) (_path : String) : State × String :=
  (fs, "removeall not supported")

/-- Source `FSRename` of skillsfs. -/
def FSRename (fs : State) (_old_path _new_path : String) : State × String :=
  (fs, "rename not supported")

/-- Source `FSChmod` of skillsfs. -/
def FSChmod (fs : State) (_path : String) (_mode : Nat) : State × String :=
  (fs, "chmod not supported")

end SkillFS

/-! ## Predicates on skillsfs states used in the statements -/

namespace SkillFS

/-- The state after a sequence of reads, each under its own environment. -/
def run_reads (fs : State) (reads : List (Env × String × Int × Int)) : State :=
  reads.foldl (fun s r => (FSRead r.1 s r.2.1 r.2.2.1 r.2.2.2).1) fs

/-- The cache-hit condition as the specification words it: not pending, a result
stored, and a TTL of 0 or an age within the TTL. -/
def claimed_cache_cond (env : Env) (fs : State) : Prop :=
  fs.pending = false ∧ fs.last_result.isSome = true
    ∧ (fs.cache_ttl_seconds = 0 ∨ env.now - fs.last_exec_ts ≤ fs.cache_ttl_seconds)

instance (env : Env) (fs : State) : Decidable (claimed_cache_cond env fs) := by
  unfold claimed_cache_cond
  infer_instance

/-- Whether a payload is stored that `strlen` sees as non-empty. -/
def has_payload (fs : State) : Prop :=
  ∃ params, fs.last_params = some params ∧ strlen params ≠ 0

instance (fs : State) : Decidable (has_payload fs) :=
  match h : fs.last_params with
  | none => isFalse (by rintro ⟨p, hp, _⟩; rw [h] at hp; cases hp)
  | some params =>
    if h0 : strlen params = 0 then
      isFalse (by rintro ⟨p, hp, hne⟩; rw [h] at hp; cases hp; exact hne h0)
    else isTrue ⟨params, h, h0⟩

/-- The condition under which `ensure_result_current` serves the stored result,
read off the code: not pending, a result stored, and not (a positive TTL, a
positive execution time and an age above the TTL). -/
def cache_usable (env : Env) (fs : State) : Prop :=
  fs.pending = false ∧ fs.last_result.isSome = true
    ∧ (fs.cache_ttl_seconds ≤ 0 ∨ fs.last_exec_ts ≤ 0
        ∨ env.now - fs.last_exec_ts ≤ fs.cache_ttl_seconds)

instance (env : Env) (fs : State) : Decidable (cache_usable env fs) := by
  unfold cache_usable
  infer_instance

/-- A non-empty payload has been executed and the TTL is 0. -/
def completed_zero_ttl (fs : State) : Prop :=
  has_payload fs ∧ fs.pending = false ∧ fs.last_result.isSome = true
    ∧ fs.cache_ttl_seconds = 0

/-- A non-empty payload has been executed and no newer one is pending. -/
def completed (fs : State) : Prop :=
  has_payload fs ∧ fs.pending = false ∧ fs.last_result.isSome = true

/-- At clock value `now` the stored result of `fs` has not expired: the TTL is
0, or the execution time is not positive, or the age is within the TTL. -/
def fresh_at (fs : State) (now : Int) : Prop :=
  fs.cache_ttl_seconds ≤ 0 ∨ fs.last_exec_ts ≤ 0 ∨ now - fs.last_exec_ts ≤ fs.cache_ttl_seconds

instance (fs : State) (now : Int) : Decidable (fresh_at fs now) := by
  unfold fresh_at
  infer_instance

/-- Every read of the list happens while the stored result of `fs` has not expired. -/
def all_fresh (fs : State) (reads : List (Env × String × Int × Int)) : Prop :=
  ∀ r ∈ reads, fresh_at fs r.1.now

/-- The bytes held in the log buffer. -/
def log_content (fs : State) : List Char := fs.log_text.getD []

/-- The log of `fs1` extends the log of `fs` by `ext`. -/
def log_extends (fs fs1 : State) (ext : List Char) : Prop :=
  log_content fs1 = log_content fs ++ ext

/-- The snapshot text `set_status` formats for the state `fs`, the state name
`completed` and the given cache-hit flag, before it is cut to the buffer. -/
def completed_status_text (env : Env) (fs : State) (cache_hit : Bool) : List Char :=
  status_text (json_escape (some (fs.skill_name.getD "skillfs".data))) "completed".data
    fs.pending cache_hit (if fs.last_exec_ts > 0 then env.strftime fs.last_exec_ts else [])
    (env.fmt_duration fs.last_duration_ms)

end SkillFS

/-! ## Concrete states used as inputs -/

namespace SkillFS

/-- A test environment: time `t`, timestamps rendered as the decimal number of
seconds, durations as `0.00`, and a parser that knows two documents, the empty
object and the object setting `cache_ttl_seconds` to 0. -/
def test_env (t : Int) : Env :=
  { now := t
    strftime := fun x => (toString x).data
    clock_ticks := 0
    fmt_duration := fun _ => "0.00".data
    yyjson_read := fun text =>
      if text = "\x7b\x7d".data then some (JVal.obj [])
      else if text = "\x7b\"cache_ttl_seconds\":0\x7d".data then
        some (JVal.obj [("cache_ttl_seconds".data, JVal.int 0)])
      else none }

/-- A plugin created, given the payload `x` and read at `/result`, all at clock
value 0. -/
def epoch_state : State :=
  (FSRead (test_env 0)
    (FSWrite (test_env 0) (PluginNew (test_env 0)) "/execute" "x".data).1 "/result" 0 (-1)).1

/-- A three-byte payload with a zero byte in the middle. -/
def payload_with_nul : List Char := ['a', NUL, 'b']

/-- A plugin created and given the empty payload. -/
def empty_payload_state : State :=
  (FSWrite (test_env 7) (PluginNew (test_env 5)) "/execute" []).1

/-- A plugin created, configured with the empty JSON object, given the payload `x`
and read at `/result`, all at clock value 1000. -/
def default_ttl_state : State :=
  (FSRead (test_env 1000)
    (FSWrite (test_env 1000)
      (PluginInitialize (test_env 1000) (PluginNew (test_env 1000)) (some "\x7b\x7d".data)).1
      "/execute" "x".data).1 "/result" 0 (-1)).1

/-- A plugin created, configured with `cache_ttl_seconds` 0 and given the payload
`x`, at clock value 1000. -/
def zero_ttl_state : State :=
  (FSWrite (test_env 1000)
    (PluginInitialize (test_env 1000) (PluginNew (test_env 1000))
      (some "\x7b\"cache_ttl_seconds\":0\x7d".data)).1
    "/execute" "x".data).1

/-- A plugin created and given the payload `x`, at clock value 1000, with the
default TTL of 3600 seconds. -/
def pending_x_state : State :=
  (FSWrite (test_env 1000) (PluginNew (test_env 1000)) "/execute" "x".data).1

/-- A skill name of 600 letters. -/
def long_name : List Char := List.replicate 600 'a'

/-- The configuration text `{"skill_name":"aaa...a"}` with the 600-letter name. -/
def long_name_config : List Char :=
  "\x7b\"skill_name\":\"".data ++ long_name ++ "\"\x7d".data

/-- The test environment at time `t` with a parser that knows `long_name_config`. -/
def long_name_env (t : Int) : Env :=
  { now := t
    strftime := fun x => (toString x).data
    clock_ticks := 0
    fmt_duration := fun _ => "0.00".data
    yyjson_read := fun text =>
      if text = long_name_config then
        some (JVal.obj [("skill_name".data, JVal.str long_name)])
      else none }

/-- A plugin created, configured with the 600-letter skill name and given the
payload `x`. -/
def long_name_state : State :=
  (FSWrite (test_env 7)
    (PluginInitialize (long_name_env 6) (PluginNew (test_env 5)) (some long_name_config)).1
    "/execute" "x".data).1

end SkillFS

/-- The state of summaryfs after a sequence of reads. -/
def SummaryFS.run_reads (fs : SummaryFS.State) (reads : List (String × Int × Int)) :
    SummaryFS.State :=
  reads.foldl (fun s r => (SummaryFS.FSRead s r.1 r.2.1 r.2.2).1) fs

/-- The state of simpcurlfs after a sequence of reads. -/
def SimpCurlFS.run_reads (fs : SimpCurlFS.State) (reads : List (String × Int × Int)) :
    SimpCurlFS.State :=
  reads.foldl (fun s r => (SimpCurlFS.FSRead s r.1 r.2.1 r.2.2).1) fs

/-- The paths the skill-exec permission table lists as readable. -/
def SkillFS.readable_paths : List String :=
  ["/metadata", "/instructions", "/status", "/log", "/result"]

/-- The paths the skill-exec permission table lists as writable. -/
def SkillFS.writable_paths : List String :=
  ["/metadata", "/instructions", "/execute"]

/-! ## Specification-side definitions -/

/-- Number of bytes a read of a value of length `L` at `offset` with `size` is to
return: 0 past the end, `min size (L - offset)` for a positive `size`, all the
remaining bytes otherwise. -/
def slice_len (L : Nat) (offset size : Int) : Nat :=
  if offset ≥ (L : Int) then 0
  else if size > 0 then min size.toNat (L - offset.toNat)
  else L - offset.toNat

/-- The read result the slicing rule prescribes for the value `v`: the bytes
`v[offset .. offset + k)` and `out_len = k`, with `k = slice_len |v| offset size`. -/
def slice_spec (v : List Char) (offset size : Int) : ReadResult :=
  ReadResult.data ((v.drop offset.toNat).take (slice_len v.length offset size))
    (slice_len v.length offset size)

/-- The value a readable path of summaryfs exposes: the stored field, or the
placeholder text when the field is NULL. -/
def SummaryFS.cached_value (fs : SummaryFS.State) (path : String) : Option (List Char) :=
  if path = "/response.json" then some (fs.last_raw.getD "No response yet\n".data)
  else if path = "/response.txt" then
    some (c_str (fs.last_summary.getD "No summary yet\n".data))
  else none

/-- The value a readable path of simpcurlfs exposes; `/response.json` has none
before the first stored response. -/
def SimpCurlFS.cached_value (fs : SimpCurlFS.State) (path : String) :
    Option (List Char) :=
  if path = "/response.json" then fs.last_response
  else if path = "/response.txt" then
    some (c_str (fs.pretty_summary.getD "No response yet\n".data))
  else none

/-- The value a readable path of skillsfs exposes in the state `fs`: the C string
in the field, or the placeholder text when the field is NULL. -/
def SkillFS.cached_value (fs : SkillFS.State) (path : String) : Option (List Char) :=
  if path = "/metadata" then some (c_str (fs.metadata.getD "No metadata set\n".data))
  else if path = "/instructions" then
    some (c_str (fs.instructions.getD "No instructions set\n".data))
  else if path = "/status" then some (c_str (fs.status_json.getD "\x7b\x7d".data))
  else if path = "/log" then
    some (c_str (if fs.log_len > 0 then fs.log_text.getD [] else "No log entries yet\n".data))
  else if path = "/result" then
    some (c_str (fs.last_result.getD
      (if fs.last_params.isNone ∨ strlen (fs.last_params.getD []) = 0 then
        "No execution payload yet. Write to /execute first.\n".data
       else "No result available\n".data)))
  else none

/-! ## Directory listings and stat results, specification side -/

/-- The names `FSReadDir("/")` of skillsfs lists, in order; empty when the call fails. -/
def SkillFS.listed_names (env : Env) (fs : SkillFS.State) : List (List Char) :=
  match (SkillFS.FSReadDir env fs "/").2 with
  | some r => r.1.map (fun it => it.Name)
  | none => []

/-- The names `FSReadDir("/")` of summaryfs lists, in order; empty when the call fails. -/
def SummaryFS.listed_names (env : NetEnv) (fs : SummaryFS.State) : List (List Char) :=
  match (SummaryFS.FSReadDir env fs "/").2 with
  | some r => r.1.map (fun it => it.Name)
  | none => []

/-- The names `FSReadDir("/")` of simpcurlfs lists, in order; empty when the call fails. -/
def SimpCurlFS.listed_names (env : NetEnv) (fs : SimpCurlFS.State) : List (List Char) :=
  match (SimpCurlFS.FSReadDir env fs "/").2 with
  | some r => r.1.map (fun it => it.Name)
  | none => []

/-- A listing entry is a plain file: directory flag clear, mode 0644 (420). -/
def is_plain_file (it : SkillFS.FileInfoC) : Prop := it.IsDir = 0 ∧ it.Mode = 420

/-- A stat result describes the root: empty name, directory flag set, mode 0755 (493). -/
def is_root_info (it : SkillFS.FileInfoC) : Prop := it.Name = [] ∧ it.IsDir = 1 ∧ it.Mode = 493

/-- A stat result describes the member file `name`: that name, directory flag
clear, mode 0644 (420). -/
def is_member_info (name : List Char) (it : SkillFS.FileInfoC) : Prop :=
  it.Name = name ∧ it.IsDir = 0 ∧ it.Mode = 420

/-- The path `p` is `/` followed by `name`. -/
def is_member_path (p : String) (name : List Char) : Prop := p.data = '/' :: name

/-! ## Concrete environments and states of the eager plugins -/

/-- An environment of the eager plugins at time 0: the variables `vars`, a parser
that knows the documents `docs`, a serializer that writes `{}` for every document,
and a remote end that answers every request with `reply`. -/
def net_env (vars : List (String × String)) (docs : List (List Char × JVal))
    (reply : Except String (List Char)) : NetEnv :=
  { now := 0
    getenv := fun name => (vars.find? (fun kv => decide (kv.1.data = name))).map (fun kv => kv.2.data)
    yyjson_read := fun text => (docs.find? (fun d => decide (d.1 = text))).map (fun d => d.2)
    yyjson_mut_write := fun _ => "\x7b\x7d".data
    curl_easy_perform := fun _ => reply }

/-- A chat-completion response body whose content is `S1`. -/
def chat_body : List Char :=
  "\x7b\"choices\":[\x7b\"message\":\x7b\"content\":\"S1\"\x7d\x7d]\x7d".data

/-- The document `chat_body` parses to. -/
def chat_doc : JVal :=
  JVal.obj [("choices".data,
    JVal.arr [JVal.obj [("message".data, JVal.obj [("content".data, JVal.str "S1".data)])]])]

/-- The environment with `OPENAI_API_KEY` set in which the remote end answers
`chat_body`. -/
def chat_env : NetEnv :=
  net_env [("OPENAI_API_KEY", "k")] [(chat_body, chat_doc)] (Except.ok chat_body)

/-- A fresh summaryfs plugin after the request `hello` answered by `chat_body`. -/
def SummaryFS.summarized_state : SummaryFS.State :=
  (SummaryFS.FSWrite chat_env SummaryFS.PluginNew "/request" "hello".data).1

/-- A fresh skillsfs plugin after `abc` was written to `/metadata`. -/
def SkillFS.metadata_abc_state : SkillFS.State :=
  (SkillFS.FSWrite (SkillFS.test_env 7) (SkillFS.PluginNew (SkillFS.test_env 5)) "/metadata"
    "abc".data).1

/-! ## Config merge of skillsfs, specification side -/

/-- The value a string setting is to have after a merge, in the words of the
specification: the supplied string when the member is present with a string
value, else the prior value. -/
def merged_string (v : Option JVal) (old : Option (List Char)) : Option (List Char) :=
  match v with
  | some (JVal.str s) => some s
  | _ => old

/-- The value `cache_ttl_seconds` is to have after a merge, in the words of the
specification: the supplied integer, a negative one replaced by 0, when the member
is present with an integer value, else the prior value. -/
def merged_ttl (v : Option JVal) (old : Int) : Int :=
  match v with
  | some (JVal.int i) => if i < 0 then 0 else i
  | _ => old

/-- The member is not a string with a zero byte. -/
def nul_free_value (v : Option JVal) : Prop :=
  ∀ s, v = some (JVal.str s) → NUL ∉ s

/-- The member is not an integer outside the range of a C `int`. -/
def int_range_value (v : Option JVal) : Prop :=
  ∀ i, v = some (JVal.int i) → -2147483648 ≤ i ∧ i < 2147483648

/-- The amended value of a string setting after a merge: the supplied string cut
at its first zero byte when the member is present with a string value, else the
prior value. -/
def merged_c_string (v : Option JVal) (old : Option (List Char)) : Option (List Char) :=
  match v with
  | some (JVal.str s) => some (c_str s)
  | _ => old

/-- The amended value of `cache_ttl_seconds` after a merge: the supplied integer
converted to a 32-bit `int`, a negative result replaced by 0, when the member is
present with an integer value, else the prior value. -/
def merged_int_ttl (v : Option JVal) (old : Int) : Int :=
  match v with
  | some (JVal.int i) => if to_int32 i < 0 then 0 else to_int32 i
  | _ => old

/-- The configuration text `{"metadata":"a\u0000b","cache_ttl_seconds":-4294967295}`. -/
def SkillFS.wide_config : List Char :=
  "\x7b\"metadata\":\"a\\u0000b\",\"cache_ttl_seconds\":-4294967295\x7d".data

/-- The document `wide_config` parses to. -/
def SkillFS.wide_config_doc : JVal :=
  JVal.obj [("metadata".data, JVal.str ['a', NUL, 'b']),
    ("cache_ttl_seconds".data, JVal.int (-4294967295))]

/-- An environment of skillsfs whose parser knows `wide_config`. -/
def SkillFS.wide_config_env : Env :=
  { now := 6
    strftime := fun x => (toString x).data
    clock_ticks := 0
    fmt_duration := fun _ => "0.00".data
    yyjson_read := fun text =>
      if text = SkillFS.wide_config then some SkillFS.wide_config_doc else none }

/-- A configuration document of skillsfs with a metadata string and a negative TTL. -/
def SkillFS.sample_config_doc : JVal :=
  JVal.obj [("metadata".data, JVal.str "team=a".data), ("cache_ttl_seconds".data, JVal.int (-5)),
    ("skill_name".data, JVal.int 7), ("color".data, JVal.str "red".data)]

/-- An environment of skillsfs whose parser reads the text `cfg` as
`sample_config_doc`. -/
def SkillFS.sample_config_env : Env :=
  { now := 6
    strftime := fun x => (toString x).data
    clock_ticks := 0
    fmt_duration := fun _ => "0.00".data
    yyjson_read := fun text => if text = "cfg".data then some SkillFS.sample_config_doc else none }

/-! ## Secrets and requests of the eager plugins, specification side -/

/-- The value of a string that is present and non-empty (as a C string). -/
def nonempty_value (v : Option (List Char)) : Option (List Char) :=
  match v with
  | some s => if strlen s ≠ 0 then some (c_str s) else none
  | none => none

/-- The secret the resolution order prescribes: the explicit secret when one is
given; otherwise the value of the environment variable named by `env_name` when
that variable is set and non-empty; otherwise the value of the builtin default
variable `default_name`; none when all three are absent or empty. -/
def resolve_secret (getenv : List Char → Option (List Char)) (explicit env_name : Option (List Char))
    (default_name : List Char) : Option (List Char) :=
  match nonempty_value explicit with
  | some k => some k
  | none =>
    match nonempty_value ((nonempty_value env_name).bind getenv) with
    | some k => some k
    | none => nonempty_value (getenv default_name)

/-- The write to simpcurlfs carries a non-empty query. -/
def SimpCurlFS.has_query (env : NetEnv) (fs : SimpCurlFS.State) (data : List Char) : Prop :=
  ∃ q, (SimpCurlFS.parse_request env fs data).1 = some q ∧ strlen q ≠ 0

/-- The write to summaryfs carries a non-empty text. -/
def SummaryFS.has_text (env : NetEnv) (data : List Char) : Prop :=
  strlen ((SummaryFS.parse_request env data).1.getD []) ≠ 0

/-- The text of the not-configured error of simpcurlfs. -/
def SimpCurlFS.not_configured : String :=
  "PERPLEXITY_API_KEY is not set and no api_key provided"

/-- The text of the not-configured error of summaryfs. -/
def SummaryFS.not_configured : String :=
  "OpenAI API key not set (set OPENAI_API_KEY or openai_api_key(_env))"

/-- The header line carrying the secret `k`, cut to a buffer of `n` bytes. -/
def auth_header (n : Nat) (k : List Char) : List Char :=
  snprintf n ("Authorization: Bearer ".data ++ k)

/-- The summary summaryfs derives from a stored response: the content string of
the parsed body, or the placeholder when it has none; none when the body is not
valid JSON. -/
def SummaryFS.derived_summary (env : NetEnv) (body : List Char) : Option (List Char) :=
  match env.yyjson_read body with
  | some root =>
    some (c_str ((SummaryFS.response_content root).getD "(no content field returned)".data))
  | none => none

/-! ## A config with an empty key and a named variable -/

/-- The simpcurlfs config text `{"api_key":"","api_key_env":"MY_KEY"}`. -/
def SimpCurlFS.empty_key_config : List Char :=
  "\x7b\"api_key\":\"\",\"api_key_env\":\"MY_KEY\"\x7d".data

/-- The document `empty_key_config` parses to. -/
def SimpCurlFS.empty_key_doc : JVal :=
  JVal.obj [("api_key".data, JVal.str []), ("api_key_env".data, JVal.str "MY_KEY".data)]

/-- The summaryfs config text `{"openai_api_key":"","openai_api_key_env":"MY_KEY"}`. -/
def SummaryFS.empty_key_config : List Char :=
  "\x7b\"openai_api_key\":\"\",\"openai_api_key_env\":\"MY_KEY\"\x7d".data

/-- The document the summaryfs `empty_key_config` parses to. -/
def SummaryFS.empty_key_doc : JVal :=
  JVal.obj [("openai_api_key".data, JVal.str []),
    ("openai_api_key_env".data, JVal.str "MY_KEY".data)]

/-- An environment with the variables `vars` whose parser knows the two configs
above and whose remote end answers `chat_body`. -/
def named_key_env (vars : List (String × String)) : NetEnv :=
  net_env vars
    [(SimpCurlFS.empty_key_config, SimpCurlFS.empty_key_doc),
     (SummaryFS.empty_key_config, SummaryFS.empty_key_doc)]
    (Except.ok chat_body)

/-- A fresh simpcurlfs plugin initialized with `empty_key_config` under `vars`. -/
def SimpCurlFS.empty_key_state (vars : List (String × String)) : SimpCurlFS.State :=
  (SimpCurlFS.PluginInitialize (named_key_env vars) SimpCurlFS.PluginNew
    (some SimpCurlFS.empty_key_config)).1

/-- A fresh summaryfs plugin initialized with its `empty_key_config` under `vars`. -/
def SummaryFS.empty_key_state (vars : List (String × String)) : SummaryFS.State :=
  (SummaryFS.PluginInitialize (named_key_env vars) SummaryFS.PluginNew
    (some SummaryFS.empty_key_config)).1

/-! ## A remote end of summaryfs that answers with text that is not JSON -/

/-- The environment of `chat_env` in which the remote end answers `oops`, which
the parser rejects. -/
def garbled_env : NetEnv :=
  net_env [("OPENAI_API_KEY", "k")] [(chat_body, chat_doc)] (Except.ok "oops".data)

/-! ## Response bodies of simpcurlfs, specification side -/

/-- The parsed body has a member `results` that is an array. -/
def has_results_array (root : JVal) : Bool :=
  match yyjson_obj_get root "results".data with
  | some r => yyjson_is_arr r
  | none => false

/-- An environment with `PERPLEXITY_API_KEY` set to `k` whose parser knows the
body `{}` only and whose remote end answers `reply`. -/
def search_env (reply : List Char) : NetEnv :=
  net_env [("PERPLEXITY_API_KEY", "k")] [("\x7b\x7d".data, JVal.obj [])] (Except.ok reply)

/-- The request a fresh simpcurlfs plugin sends for the query `q` with the key `k`. -/
def SimpCurlFS.sample_request : HttpRequest :=
  SimpCurlFS.search_request { SimpCurlFS.PluginNew with api_key := some "k".data } "q".data 3

/-! ## Blank payloads, specification side -/

/-- The payload consists only of spaces, tabs and newlines. -/
def is_blank (data : List Char) : Bool :=
  data.all (fun c => c = ' ' ∨ c = '\t' ∨ c = '\n')

/-! ## Configuration texts, specification side -/

/-- The config text is absent (NULL) or empty as a C string. -/
def config_absent (config_json : Option (List Char)) : Prop :=
  strlen (config_json.getD []) = 0

/-! ## JSON string literals, specification side -/

/-- Where the reader of a JSON string literal stands: between characters, after a
backslash, or inside a `\u` escape with `remaining` hex digits to read and the
value `value` read so far. -/
inductive DecodeState where
  | normal
  | escaped
  | hex (remaining value : Nat)

/-- The value of a hexadecimal digit. -/
def hex_digit (c : Char) : Option Nat :=
  if 48 ≤ c.toNat ∧ c.toNat ≤ 57 then some (c.toNat - 48)
  else if 97 ≤ c.toNat ∧ c.toNat ≤ 102 then some (c.toNat - 87)
  else if 65 ≤ c.toNat ∧ c.toNat ≤ 70 then some (c.toNat - 55)
  else none

/-- The character a two-character escape of RFC 8259 stands for, by the character
after the backslash. -/
def unescape (c : Char) : Option Char :=
  if c = '\"' then some '\"'
  else if c = '\\' then some '\\'
  else if c = '/' then some '/'
  else if c = 'b' then some (Char.ofNat 8)
  else if c = 'f' then some (Char.ofNat 12)
  else if c = 'n' then some '\n'
  else if c = 'r' then some '\r'
  else if c = 't' then some '\t'
  else none

/-- Reader of the part of a JSON string literal after the opening quote, by the
grammar of RFC 8259: the decoded value when the text is well-formed up to and
including the closing quote, which must end it. An unescaped character below 0x20
is refused. A `\u` escape naming a surrogate is not decoded. -/
def decode_body : DecodeState → List Char → Option (List Char)
  | _, [] => none
  | DecodeState.normal, c :: rest =>
    if c = '\"' then (if rest.isEmpty then some [] else none)
    else if c = '\\' then decode_body DecodeState.escaped rest
    else if c.toNat < 32 then none
    else (decode_body DecodeState.normal rest).map (fun t => c :: t)
  | DecodeState.escaped, c :: rest =>
    if c = 'u' then decode_body (DecodeState.hex 4 0) rest
    else
      match unescape c with
      | some x => (decode_body DecodeState.normal rest).map (fun t => x :: t)
      | none => none
  | DecodeState.hex remaining value, c :: rest =>
    match hex_digit c with
    | none => none
    | some d =>
      if remaining ≤ 1 then
        if 55296 ≤ value * 16 + d ∧ value * 16 + d ≤ 57343 then none
        else (decode_body DecodeState.normal rest).map (fun t => Char.ofNat (value * 16 + d) :: t)
      else decode_body (DecodeState.hex (remaining - 1) (value * 16 + d)) rest

/-- The value a JSON string literal denotes; none when the text is not a
well-formed string literal. -/
def json_string_decode (lit : List Char) : Option (List Char) :=
  match lit with
  | c :: rest => if c = '\"' then decode_body DecodeState.normal rest else none
  | [] => none

/-- The text `body` enclosed in double quotes. -/
def quoted (body : List Char) : List Char := '\"' :: (body ++ ['\"'])

/-- The characters `json_escape` treats correctly: those from 0x20 up, which need
no escape or get their two-character escape, and newline, carriage return and
tab. -/
def escape_covers (c : Char) : Bool :=
  decide (32 ≤ c.toNat) || c == '\n' || c == '\r' || c == '\t'

/-- A skill name with the control character U+0001 in the middle. -/
def SkillFS.control_name : List Char := ['a', Char.ofNat 1, 'b']

/-- The configuration text `{"skill_name":"a\u0001b"}`. -/
def SkillFS.control_name_config : List Char :=
  "\x7b\"skill_name\":\"a\\u0001b\"\x7d".data

/-- The test environment at time `t` with a parser that knows
`control_name_config`. -/
def SkillFS.control_name_env (t : Int) : Env :=
  { now := t
    strftime := fun x => (toString x).data
    clock_ticks := 0
    fmt_duration := fun _ => "0.00".data
    yyjson_read := fun text =>
      if text = SkillFS.control_name_config then
        some (JVal.obj [("skill_name".data, JVal.str SkillFS.control_name)])
      else none }

/-! ## Executions and histories of skillsfs, specification side -/

/-- What one execution of the skill worked on: the skill name, the timestamp
text, the instructions and the payload it found stored. -/
structure SkillFS.Execution where
  skill : List Char
  ts : List Char
  instr : List Char
  params : List Char
  deriving DecidableEq, Repr

/-- The transcript of an execution: the five parts in their fixed frame, each as
a C string, cut to the size of the result buffer less the terminating NUL. -/
def SkillFS.transcript (e : SkillFS.Execution) : List Char :=
  ("Skill: ".data ++ c_str e.skill ++ "\nExecuted at: ".data ++ c_str e.ts
    ++ "\n\nInstructions:\n".data ++ c_str e.instr ++ "\n\nParameters:\n".data
    ++ c_str e.params
    ++ "\n\nNotes:\nThis is a placeholder execution for the SkillsFS MVP.\n".data).take
    (strlen e.skill + strlen e.instr + strlen e.params + 511)

/-- What a caller knows from the calls made so far: the most recent execution of
the skill and the payload most recently written to `/execute`. -/
structure SkillFS.History where
  last_exec : Option SkillFS.Execution
  last_written : Option (List Char)
  deriving DecidableEq, Repr

/-- The execution a read of `/result` performs in the state `fs` under `env`. -/
def SkillFS.execution_of (env : Env) (fs : SkillFS.State) : SkillFS.Execution :=
  { skill := fs.skill_name.getD "skillfs".data
    ts := env.strftime env.now
    instr := fs.instructions.getD "No instructions provided.".data
    params := fs.last_params.getD [] }

/-- The history after the call `op` made in the state `fs`: a write to `/execute`
is the most recent write; a read of `/result` made with a non-empty payload stored
and no usable cached result is the most recent execution; no other call adds to
the history. -/
def SkillFS.record (env : Env) (fs : SkillFS.State) (op : SkillFS.Op)
    (h : SkillFS.History) : SkillFS.History :=
  match op with
  | SkillFS.Op.write path data =>
    if path = "/execute" then { h with last_written := some data } else h
  | SkillFS.Op.read path _ _ =>
    if path = "/result" ∧ SkillFS.has_payload fs ∧ ¬ SkillFS.cache_usable env fs then
      { h with last_exec := some (SkillFS.execution_of env fs) }
    else h
  | _ => h

/-- The state and the history after `PluginNew` under `env0` followed by the calls
of `trace`, each under its own environment. -/
def SkillFS.run_trace (env0 : Env) (trace : List (Env × SkillFS.Op)) :
    SkillFS.State × SkillFS.History :=
  trace.foldl
    (fun sh eo => (SkillFS.step eo.1 sh.1 eo.2, SkillFS.record eo.1 sh.1 eo.2 sh.2))
    (SkillFS.PluginNew env0, { last_exec := none, last_written := none })

/-- What the state and the history have in common after any calls: the stored
payload is the one most recently written; a stored result is the transcript of
the most recent execution, which worked on a non-empty payload; and while nothing
is pending, the stored payload is the one that execution worked on. -/
def SkillFS.agrees (sh : SkillFS.State × SkillFS.History) : Prop :=
  SkillFS.Reachable sh.1
  ∧ sh.1.last_params = sh.2.last_written
  ∧ (∀ res, sh.1.last_result = some res →
      ∃ e, sh.2.last_exec = some e ∧ res = SkillFS.transcript e ∧ strlen e.params ≠ 0)
  ∧ (sh.1.pending = false → ∀ e, sh.2.last_exec = some e → sh.1.last_params = some e.params)

/-- The state `epoch_state` (payload `x` executed at clock value 0) after the empty
payload was written to `/execute` at clock value 2. -/
def SkillFS.stale_state : SkillFS.State :=
  (SkillFS.FSWrite (SkillFS.test_env 2) SkillFS.epoch_state "/execute" []).1

/-- The calls that lead to `stale_state`: the payload `x` written and executed at
clock value 0, then the empty payload written at clock value 2. -/
def SkillFS.stale_trace : List (Env × SkillFS.Op) :=
  [(SkillFS.test_env 0, SkillFS.Op.write "/execute" "x".data),
   (SkillFS.test_env 0, SkillFS.Op.read "/result" 0 (-1)),
   (SkillFS.test_env 2, SkillFS.Op.write "/execute" [])]

/-- The execution of the payload `x` by a fresh plugin at clock value 0. -/
def SkillFS.x_execution : SkillFS.Execution :=
  { skill := "skillfs-mvp".data
    ts := "0".data
    instr := "Describe how to process incoming payloads.".data
    params := "x".data }

/-! ## Lemmas on the slicing tail -/

/-- For a length that fits `int64_t`, `remaining_bytes` is the 64-bit difference at
every offset below the length. -/
theorem remaining_bytes_eq_wrapped (len : Nat) (offset : Int)
    (hlen : (len : Int) < 9223372036854775808) (h : offset < (len : Int)) :
    remaining_bytes len offset = to_int64 ((len : Int) - offset) := by
  unfold remaining_bytes to_int64
  by_cases h0 : 0 ≤ offset
  · rw [if_pos h0]
    omega
  · rw [if_neg h0]

theorem read_len_of_nonneg (len : Nat) (offset size : Int) (h : 0 ≤ offset) :
    read_len_of len offset size
      = if size > 0 ∧ size < (len : Int) - offset then size else (len : Int) - offset := by
  unfold read_len_of remaining_bytes
  simp only [h, if_true]

/-- At an offset that is not negative the request `read_len + 1` is positive and
the allocation succeeds, so the two tails agree. -/
theorem read_slice_unchecked_eq (v : List Char) (offset size : Int) (h : 0 ≤ offset) :
    read_slice_unchecked v offset size = read_slice v offset size := by
  unfold read_slice_unchecked read_slice
  by_cases h1 : offset ≥ (v.length : Int)
  · simp only [h1, if_true]
  · have hm : ¬ malloc_fails (read_len_of v.length offset size) := by
      rw [read_len_of_nonneg v.length offset size h]
      unfold malloc_fails
      by_cases h3 : size > 0 ∧ size < (v.length : Int) - offset
      · rw [if_pos h3]
        omega
      · rw [if_neg h3]
        omega
    simp only [h1, if_false, hm]

theorem read_slice_eq_spec (v : List Char) (offset size : Int) (h : 0 ≤ offset) :
    read_slice v offset size = slice_spec v offset size := by
  unfold read_slice slice_spec slice_len memcpy_from
  by_cases h1 : offset ≥ (v.length : Int)
  · simp [h1]
  · have h2 : offset < (v.length : Int) := by omega
    simp only [h1, if_false]
    rw [read_len_of_nonneg v.length offset size h]
    unfold malloc_fails
    by_cases h3 : size > 0 ∧ size < (v.length : Int) - offset
    · have h4 : (0 : Int) ≤ offset ∧ 0 ≤ size ∧ offset + size ≤ (v.length : Int) := by omega
      have h5 : min size.toNat (v.length - offset.toNat) = size.toNat := by omega
      have h6 : ((size.toNat : Nat) : Int) = size := by omega
      have hm : ¬ (size + 1 < 0) := by omega
      rw [if_pos h3, if_neg hm, if_pos h4, if_pos h3.1, h5, h6]
    · have h4 : (0 : Int) ≤ offset ∧ 0 ≤ (v.length : Int) - offset
          ∧ offset + ((v.length : Int) - offset) ≤ (v.length : Int) := by omega
      have h6 : (((v.length - offset.toNat : Nat)) : Int) = (v.length : Int) - offset := by
        omega
      have h8 : ((v.length : Int) - offset).toNat = v.length - offset.toNat := by omega
      have hm : ¬ ((v.length : Int) - offset + 1 < 0) := by omega
      rw [if_neg h3, if_neg hm, if_pos h4, h8]
      by_cases h7 : size > 0
      · have h5 : min size.toNat (v.length - offset.toNat) = v.length - offset.toNat := by
          omega
        rw [if_pos h7, h5, h6]
      · rw [if_neg h7, h6]

/-- At a negative offset the slicing tail never returns bytes of the value: when
the request `read_len + 1` is negative as an `int64_t` (the difference `len - offset`
wrapped) the allocation fails, otherwise `memcpy` copies from before the start of
the value. -/
theorem read_slice_negative (v : List Char) (offset size : Int) (h : offset < 0) :
    read_slice v offset size
      = if malloc_fails (read_len_of v.length offset size) then
          ReadResult.error "allocation failure"
        else ReadResult.out_of_bounds (read_len_of v.length offset size) := by
  have h1 : ¬ offset ≥ (v.length : Int) := by omega
  unfold read_slice memcpy_from
  have h2 : ∀ n : Int, ¬ (0 ≤ offset ∧ 0 ≤ n ∧ offset + n ≤ (v.length : Int)) := by
    intro n hn
    omega
  simp only [h1, if_false, h2]

/-! ## Frame lemmas for the status and log writers -/

namespace SkillFS

@[simp] theorem set_status_fields (env : Env) (fs : State) (st : String) (hit : Bool) :
    (set_status env fs st hit).skill_name = fs.skill_name
    ∧ (set_status env fs st hit).metadata = fs.metadata
    ∧ (set_status env fs st hit).instructions = fs.instructions
    ∧ (set_status env fs st hit).last_params = fs.last_params
    ∧ (set_status env fs st hit).last_result = fs.last_result
    ∧ (set_status env fs st hit).log_text = fs.log_text
    ∧ (set_status env fs st hit).log_cap = fs.log_cap
    ∧ (set_status env fs st hit).last_request_ts = fs.last_request_ts
    ∧ (set_status env fs st hit).last_exec_ts = fs.last_exec_ts
    ∧ (set_status env fs st hit).last_duration_ms = fs.last_duration_ms
    ∧ (set_status env fs st hit).cache_ttl_seconds = fs.cache_ttl_seconds
    ∧ (set_status env fs st hit).pending = fs.pending
    ∧ (set_status env fs st hit).initialized = fs.initialized := by
  simp [set_status]

@[simp] theorem append_log_fields (env : Env) (fs : State) (level msg : String) :
    (append_log env fs level msg).skill_name = fs.skill_name
    ∧ (append_log env fs level msg).metadata = fs.metadata
    ∧ (append_log env fs level msg).instructions = fs.instructions
    ∧ (append_log env fs level msg).last_params = fs.last_params
    ∧ (append_log env fs level msg).last_result = fs.last_result
    ∧ (append_log env fs level msg).status_json = fs.status_json
    ∧ (append_log env fs level msg).last_request_ts = fs.last_request_ts
    ∧ (append_log env fs level msg).last_exec_ts = fs.last_exec_ts
    ∧ (append_log env fs level msg).last_duration_ms = fs.last_duration_ms
    ∧ (append_log env fs level msg).cache_ttl_seconds = fs.cache_ttl_seconds
    ∧ (append_log env fs level msg).pending = fs.pending
    ∧ (append_log env fs level msg).initialized = fs.initialized := by
  simp [append_log]

theorem c_str_idem (b : List Char) : c_str (c_str b) = c_str b := by
  unfold c_str
  induction b with
  | nil => rfl
  | cons c t ih =>
    by_cases hc : (c != NUL) = true
    · simp [List.takeWhile_cons, hc, ih]
    · simp [List.takeWhile_cons, hc]

theorem ensure_without_payload (env : Env) (fs : State) (h : ¬ has_payload fs) :
    ensure_result_current env fs
      = (fs, some "No execution payload yet. Write to /execute first.\n", false) := by
  unfold ensure_result_current
  cases hp : fs.last_params with
  | none => rfl
  | some params =>
    by_cases h0 : strlen params = 0
    · simp [h0]
    · exact absurd ⟨params, hp, h0⟩ h

theorem run_skill_with_payload (env : Env) (fs : State) (h : has_payload fs) :
    (run_skill env fs).2 = none
    ∧ (run_skill env fs).1.last_result.isSome = true
    ∧ (run_skill env fs).1.last_params = fs.last_params
    ∧ (run_skill env fs).1.pending = false
    ∧ (run_skill env fs).1.last_exec_ts = env.now := by
  obtain ⟨params, hp, h0⟩ := h
  unfold run_skill
  simp [hp, h0]

theorem ensure_hit (env : Env) (fs : State) (h : has_payload fs)
    (hc : cache_usable env fs) :
    ensure_result_current env fs
      = (append_log env (set_status env fs "completed" true) "DEBUG" "Cache hit for /result",
          none, true) := by
  obtain ⟨params, hp, h0⟩ := h
  obtain ⟨hpend, hres, httl⟩ := hc
  unfold ensure_result_current
  simp only [hp, h0, if_false, hpend, hres]
  by_cases hg : fs.cache_ttl_seconds > 0 ∧ fs.last_exec_ts > 0
  · have hage : ¬ (env.now - fs.last_exec_ts > fs.cache_ttl_seconds) := by omega
    simp [hg, hage]
  · have hg2 : ¬ (fs.cache_ttl_seconds > 0 ∧ fs.last_exec_ts > 0) := hg
    simp [hg2]

theorem ensure_miss (env : Env) (fs : State) (h : has_payload fs)
    (hc : ¬ cache_usable env fs) :
    ensure_result_current env fs = ((run_skill env fs).1, (run_skill env fs).2, false) := by
  obtain ⟨params, hp, h0⟩ := h
  unfold cache_usable at hc
  unfold ensure_result_current
  simp only [hp, h0, if_false]
  by_cases hu : (!fs.pending && fs.last_result.isSome) = true
  · have hpend : fs.pending = false := by
      cases hq : fs.pending <;> simp [hq] at hu ⊢
    have hres : fs.last_result.isSome = true := by
      cases hq : fs.last_result <;> simp [hq] at hu ⊢
    have hg : fs.cache_ttl_seconds > 0 ∧ fs.last_exec_ts > 0
        ∧ env.now - fs.last_exec_ts > fs.cache_ttl_seconds := by
      by_contra hcon
      apply hc
      refine ⟨hpend, hres, ?_⟩
      omega
    simp [hu, hg.1, hg.2.1, hg.2.2]
  · have hu2 : (!fs.pending && fs.last_result.isSome) = false := by
      cases hq : (!fs.pending && fs.last_result.isSome)
      · rfl
      · exact absurd hq hu
    simp [hu2]

theorem ensure_with_payload (env : Env) (fs : State) (h : has_payload fs) :
    (ensure_result_current env fs).2.1 = none
    ∧ (ensure_result_current env fs).1.last_result.isSome = true
    ∧ (ensure_result_current env fs).1.last_params = fs.last_params := by
  by_cases hc : cache_usable env fs
  · rw [ensure_hit env fs h hc]
    simp [hc.2.1]
  · rw [ensure_miss env fs h hc]
    have hr := run_skill_with_payload env fs h
    exact ⟨hr.1, hr.2.1, hr.2.2.1⟩

/-- The buffer `dynamic` of a read is the C string of the value the path exposes
in the state the read leaves. -/
theorem read_dynamic_cached (env : Env) (fs : State) (path : String) (v : List Char)
    (hv : cached_value (read_dynamic env fs path).1 path = some v) :
    (read_dynamic env fs path).2 = Except.ok v := by
  unfold read_dynamic cached_value at *
  by_cases h1 : path = "/metadata"
  · subst h1
    simp [make_read_response] at hv ⊢
    exact hv
  by_cases h2 : path = "/instructions"
  · subst h2
    simp [make_read_response] at hv ⊢
    exact hv
  by_cases h3 : path = "/status"
  · subst h3
    simp [make_read_response] at hv ⊢
    exact hv
  by_cases h4 : path = "/log"
  · subst h4
    simp [make_read_response] at hv ⊢
    rw [← hv]
    cases hl : fs.log_text with
    | none => simp [State.log_len, hl]
    | some b => simp [State.log_len, hl]
  by_cases h5 : path = "/result"
  · subst h5
    simp only [h1, h2, h3, h4, if_false, if_true] at hv ⊢
    by_cases hpay : has_payload fs
    · obtain ⟨he, hres, hpar⟩ := ensure_with_payload env fs hpay
      obtain ⟨res, hres2⟩ := Option.isSome_iff_exists.mp hres
      have hfst : ∀ (x : Option String) (y : Option (List Char)),
          (match x, y with
            | some err, none =>
              ((ensure_result_current env fs).1, (Except.ok (make_read_response (some err.data)) :
                Except String (List Char)))
            | _, some res =>
              ((ensure_result_current env fs).1, Except.ok (make_read_response (some res)))
            | none, none =>
              ((ensure_result_current env fs).1,
                Except.ok (make_read_response (some "No result available\n".data)))).1
            = (ensure_result_current env fs).1 := by
        intro x y
        cases x <;> cases y <;> rfl
      rw [hfst, hres2] at hv
      rw [he, hres2]
      simp [make_read_response] at hv ⊢
      exact hv
    · rw [ensure_without_payload env fs hpay] at hv ⊢
      have hemp : fs.last_params.isNone ∨ strlen (fs.last_params.getD []) = 0 := by
        cases hp : fs.last_params with
        | none => simp
        | some params =>
          right
          by_contra h0
          exact hpay ⟨params, hp, h0⟩
      cases hres : fs.last_result with
      | none =>
        simp only [hres, Option.getD_none, if_pos hemp] at hv
        simp [make_read_response] at hv ⊢
        exact hv
      | some res =>
        simp only [hres, Option.getD_some] at hv
        simp [make_read_response] at hv ⊢
        exact hv
  · simp [h1, h2, h3, h4, h5] at hv

end SkillFS

/-! ## The state effect of the skillsfs operations -/

namespace SkillFS

theorem read_dynamic_state (env : Env) (fs : State) (path : String) :
    (read_dynamic env fs path).1
      = if path = "/result" then (ensure_result_current env fs).1 else fs := by
  unfold read_dynamic
  by_cases h5 : path = "/result"
  · subst h5
    simp only [if_true]
    have hne : ("/result" = "/metadata") = False := by decide
    have hne2 : ("/result" = "/instructions") = False := by decide
    have hne3 : ("/result" = "/status") = False := by decide
    have hne4 : ("/result" = "/log") = False := by decide
    simp only [hne, hne2, hne3, hne4, if_false, if_true]
    cases (ensure_result_current env fs).2.1 <;>
      cases (ensure_result_current env fs).1.last_result <;> rfl
  · simp only [h5, if_false]
    split
    · rfl
    · split
      · rfl
      · split
        · rfl
        · split <;> rfl

/-- A read changes the state only through `ensure_result_current` on `/result`. -/
theorem FSRead_state (env : Env) (fs : State) (path : String) (offset size : Int) :
    (FSRead env fs path offset size).1
      = if path = "/result" then (ensure_result_current env fs).1 else fs := by
  rw [← read_dynamic_state]
  unfold FSRead
  split <;> simp_all

theorem run_skill_ttl (env : Env) (fs : State) :
    (run_skill env fs).1.cache_ttl_seconds = fs.cache_ttl_seconds := by
  unfold run_skill
  cases fs.last_params with
  | none => rfl
  | some params =>
    by_cases h0 : strlen params = 0
    · simp [h0]
    · simp [h0]

theorem ensure_ttl (env : Env) (fs : State) :
    (ensure_result_current env fs).1.cache_ttl_seconds = fs.cache_ttl_seconds := by
  by_cases hp : has_payload fs
  · by_cases hc : cache_usable env fs
    · rw [ensure_hit env fs hp hc]
      simp
    · rw [ensure_miss env fs hp hc]
      exact run_skill_ttl env fs
  · rw [ensure_without_payload env fs hp]

theorem config_ttl_nonneg (v : Option JVal) (old : Int) (h : 0 ≤ old) :
    0 ≤ config_ttl v old := by
  unfold config_ttl
  cases v with
  | none => exact h
  | some j =>
    by_cases hi : yyjson_is_int j = true
    · by_cases hneg : yyjson_get_int j < 0
      · simp [hi, hneg]
      · simp [hi, hneg]
        omega
    · simp [hi, h]

theorem step_ttl_nonneg (env : Env) (fs : State) (op : Op) (h : 0 ≤ fs.cache_ttl_seconds) :
    0 ≤ (step env fs op).cache_ttl_seconds := by
  cases op with
  | init config_json =>
    simp only [step, PluginInitialize, apply_config]
    cases config_json with
    | none => simpa using h
    | some text =>
      by_cases h0 : strlen text = 0
      · simpa [h0] using h
      · cases hj : env.yyjson_read (c_str text) with
        | none => simpa [h0, hj] using h
        | some root =>
          simp only [h0, hj, if_false]
          simpa using config_ttl_nonneg _ _ h
  | shutdown => simpa [step, PluginShutdown] using h
  | write path data =>
    simp only [step, FSWrite, handle_execute_write]
    split
    · simpa using h
    · split
      · simpa using h
      · split
        · simpa using h
        · exact h
  | read path offset size =>
    simp only [step, FSRead_state]
    split
    · rw [ensure_ttl]; exact h
    · exact h
  | stat path =>
    simp only [step, FSStat]
    split
    · exact h
    · split
      · split <;> exact h
      · exact h
  | readdir path =>
    simp only [step, FSReadDir]
    split <;> exact h

/-- In every reachable state the TTL is not negative. -/
theorem reachable_ttl_nonneg {fs : State} (h : Reachable fs) : 0 ≤ fs.cache_ttl_seconds := by
  induction h with
  | new env => simp [PluginNew, zeroed]
  | step env op _ ih => exact step_ttl_nonneg env _ op ih

end SkillFS

/-! ## Completed states under a zero TTL -/

namespace SkillFS

theorem has_payload_congr {fs fs1 : State} (h : fs1.last_params = fs.last_params)
    (hp : has_payload fs) : has_payload fs1 := by
  obtain ⟨params, hpar, h0⟩ := hp
  exact ⟨params, h.trans hpar, h0⟩

theorem completed_zero_ttl_usable (env : Env) {fs : State} (h : completed_zero_ttl fs) :
    cache_usable env fs :=
  ⟨h.2.1, h.2.2.1, Or.inl (le_of_eq h.2.2.2)⟩

theorem first_read_completes (env : Env) (fs : State) (offset size : Int)
    (h0 : fs.cache_ttl_seconds = 0) (hp : has_payload fs) :
    completed_zero_ttl (FSRead env fs "/result" offset size).1 := by
  rw [FSRead_state]
  simp only [if_true]
  have hw := ensure_with_payload env fs hp
  refine ⟨has_payload_congr hw.2.2 hp, ?_, hw.2.1, (ensure_ttl env fs).trans h0⟩
  by_cases hc : cache_usable env fs
  · rw [ensure_hit env fs hp hc]
    simpa using hc.1
  · rw [ensure_miss env fs hp hc]
    exact (run_skill_with_payload env fs hp).2.2.2.1

theorem read_keeps_completed (env : Env) (fs : State) (path : String) (offset size : Int)
    (h : completed_zero_ttl fs) :
    completed_zero_ttl (FSRead env fs path offset size).1
    ∧ (FSRead env fs path offset size).1.last_result = fs.last_result := by
  rw [FSRead_state]
  by_cases hpath : path = "/result"
  · simp only [hpath, if_true]
    rw [ensure_hit env fs h.1 (completed_zero_ttl_usable env h)]
    refine ⟨⟨?_, ?_, ?_, ?_⟩, ?_⟩
    · exact has_payload_congr (by simp) h.1
    · simpa using h.2.1
    · simpa using h.2.2.1
    · simpa using h.2.2.2
    · simp
  · simp only [hpath, if_false]
    exact ⟨h, trivial⟩

theorem run_reads_keeps_completed (reads : List (Env × String × Int × Int)) (fs : State)
    (h : completed_zero_ttl fs) :
    completed_zero_ttl (run_reads fs reads) ∧ (run_reads fs reads).last_result = fs.last_result := by
  induction reads generalizing fs with
  | nil => exact ⟨h, rfl⟩
  | cons r rest ih =>
    have h1 := read_keeps_completed r.1 fs r.2.1 r.2.2.1 r.2.2.2 h
    have h2 := ih _ h1.1
    exact ⟨h2.1, h2.2.trans h1.2⟩

end SkillFS

/-! ## Completed states and reads within the TTL -/

namespace SkillFS

theorem read_result_completes (env : Env) (fs : State) (offset size : Int)
    (hp : has_payload fs) : completed (FSRead env fs "/result" offset size).1 := by
  rw [FSRead_state]
  simp only [if_true]
  have hw := ensure_with_payload env fs hp
  refine ⟨has_payload_congr hw.2.2 hp, ?_, hw.2.1⟩
  by_cases hc : cache_usable env fs
  · rw [ensure_hit env fs hp hc]
    simpa using hc.1
  · rw [ensure_miss env fs hp hc]
    exact (run_skill_with_payload env fs hp).2.2.2.1

theorem fresh_read_keeps (env : Env) (fs : State) (path : String) (offset size : Int)
    (h : completed fs) (hf : fresh_at fs env.now) :
    completed (FSRead env fs path offset size).1
    ∧ (FSRead env fs path offset size).1.last_result = fs.last_result
    ∧ (FSRead env fs path offset size).1.cache_ttl_seconds = fs.cache_ttl_seconds
    ∧ (FSRead env fs path offset size).1.last_exec_ts = fs.last_exec_ts := by
  rw [FSRead_state]
  by_cases hpath : path = "/result"
  · simp only [hpath, if_true]
    rw [ensure_hit env fs h.1 ⟨h.2.1, h.2.2, hf⟩]
    refine ⟨⟨?_, ?_, ?_⟩, ?_, ?_, ?_⟩
    · exact has_payload_congr (by simp) h.1
    · simpa using h.2.1
    · simpa using h.2.2
    · simp
    · simp
    · simp
  · simp only [hpath, if_false]
    exact ⟨h, trivial, trivial, trivial⟩

theorem fresh_reads_keep (reads : List (Env × String × Int × Int)) (fs : State)
    (h : completed fs) (hf : all_fresh fs reads) :
    completed (run_reads fs reads)
    ∧ (run_reads fs reads).last_result = fs.last_result
    ∧ (run_reads fs reads).cache_ttl_seconds = fs.cache_ttl_seconds
    ∧ (run_reads fs reads).last_exec_ts = fs.last_exec_ts := by
  induction reads generalizing fs with
  | nil => exact ⟨h, rfl, rfl, rfl⟩
  | cons r rest ih =>
    have h1 := fresh_read_keeps r.1 fs r.2.1 r.2.2.1 r.2.2.2 h (hf r (List.mem_cons_self r rest))
    have hf2 : all_fresh (FSRead r.1 fs r.2.1 r.2.2.1 r.2.2.2).1 rest := by
      intro q hq
      have := hf q (List.mem_cons_of_mem r hq)
      unfold fresh_at at this ⊢
      rw [h1.2.2.1, h1.2.2.2]
      exact this
    have h2 := ih _ h1.1 hf2
    exact ⟨h2.1, h2.2.1.trans h1.2.1, h2.2.2.1.trans h1.2.2.1, h2.2.2.2.trans h1.2.2.2⟩

/-- The bytes a read of `/result` returns are cut from the result stored in the
state the read leaves. -/
theorem FSRead_result_bytes (env : Env) (fs : State) (offset size : Int) (res : List Char)
    (h : (FSRead env fs "/result" offset size).1.last_result = some res) :
    (FSRead env fs "/result" offset size).2 = read_slice (c_str res) offset size := by
  have hfst : (FSRead env fs "/result" offset size).1 = (read_dynamic env fs "/result").1 := by
    rw [FSRead_state, read_dynamic_state]
  rw [hfst] at h
  have hv : cached_value (read_dynamic env fs "/result").1 "/result" = some (c_str res) := by
    unfold cached_value
    have hne : ("/result" = "/metadata") = False := by decide
    have hne2 : ("/result" = "/instructions") = False := by decide
    have hne3 : ("/result" = "/status") = False := by decide
    have hne4 : ("/result" = "/log") = False := by decide
    simp only [hne, hne2, hne3, hne4, if_false, if_true, h, Option.getD_some]
  have hd := read_dynamic_cached env fs "/result" (c_str res) hv
  unfold FSRead
  split
  · rename_i fs1 msg heq
    rw [heq] at hd
    cases hd
  · rename_i fs1 dynamic heq
    rw [heq] at hd
    cases hd
    rfl

end SkillFS

/-! ## The audit log only grows -/

namespace SkillFS

theorem c_str_append_left (a b : List Char) : c_str a <+: c_str (a ++ b) := by
  unfold c_str
  induction a with
  | nil => simp
  | cons c t ih =>
    by_cases hc : (c != NUL) = true
    · simpa [List.takeWhile_cons, hc] using ih
    · simp [List.takeWhile_cons, hc]

/-- The line `append_log` formats is not empty as a C string: it starts with `[`. -/
theorem log_line_nonempty (n : Nat) (rest : List Char) :
    0 < strlen (snprintf (n + 2) ("[".data ++ rest)) := by
  have hb : ('[' != NUL) = true := by decide
  simp [strlen, c_str, snprintf, List.take_succ_cons, List.takeWhile_cons, hb]

theorem append_log_content (env : Env) (fs : State) (level msg : String) :
    ∃ line, 0 < line.length
      ∧ log_content (append_log env fs level msg) = log_content fs ++ line := by
  refine ⟨c_str (snprintf 1024
    ("[".data ++ c_str (env.strftime env.now) ++ "] [".data ++ c_str level.data ++ "] ".data
      ++ c_str msg.data ++ "\n".data)), ?_, ?_⟩
  · have h := log_line_nonempty 1022 (c_str (env.strftime env.now) ++ "] [".data
      ++ c_str level.data ++ "] ".data ++ c_str msg.data ++ "\n".data)
    simpa [strlen, List.append_assoc] using h
  · simp [log_content, append_log, append_text]

theorem set_status_content (env : Env) (fs : State) (st : String) (hit : Bool) :
    log_content (set_status env fs st hit) = log_content fs := by
  simp [log_content]

theorem log_extends_of_eq {fs fs1 : State} (h : log_content fs1 = log_content fs) :
    ∃ ext, log_extends fs fs1 ext :=
  ⟨[], by simp [log_extends, h]⟩

theorem append_log_extends (env : Env) (fs0 fs : State) (level msg : String)
    (h : ∃ ext, log_extends fs0 fs ext) :
    ∃ ext, 0 < ext.length ∧ log_extends fs0 (append_log env fs level msg) ext := by
  obtain ⟨e, he⟩ := h
  obtain ⟨l, hl, h2⟩ := append_log_content env fs level msg
  refine ⟨e ++ l, by simp; omega, ?_⟩
  unfold log_extends at he ⊢
  rw [h2, he, List.append_assoc]

theorem set_status_extends (env : Env) (fs0 fs : State) (st : String) (hit : Bool)
    (h : ∃ ext, log_extends fs0 fs ext) :
    ∃ ext, log_extends fs0 (set_status env fs st hit) ext := by
  obtain ⟨e, he⟩ := h
  exact ⟨e, by unfold log_extends at he ⊢; rw [set_status_content, he]⟩

theorem weaken_extends {fs fs1 : State}
    (h : ∃ ext, 0 < ext.length ∧ log_extends fs fs1 ext) : ∃ ext, log_extends fs fs1 ext := by
  obtain ⟨e, _, he⟩ := h
  exact ⟨e, he⟩

theorem run_skill_log (env : Env) (fs : State) (hp : has_payload fs) :
    ∃ ext, 0 < ext.length ∧ log_extends fs (run_skill env fs).1 ext := by
  obtain ⟨params, hpar, h0⟩ := hp
  unfold run_skill
  simp only [hpar, h0, if_false]
  apply append_log_extends
  apply set_status_extends
  have h1 := weaken_extends (append_log_extends env fs (set_status env fs "running" false)
    "INFO" "Executing skill payload" (set_status_extends env fs fs _ _ (log_extends_of_eq rfl)))
  obtain ⟨e, he⟩ := h1
  exact ⟨e, he⟩

theorem ensure_log_with_payload (env : Env) (fs : State) (hp : has_payload fs) :
    ∃ ext, 0 < ext.length ∧ log_extends fs (ensure_result_current env fs).1 ext := by
  by_cases hc : cache_usable env fs
  · rw [ensure_hit env fs hp hc]
    exact append_log_extends env fs _ _ _ (set_status_extends env fs fs _ _ (log_extends_of_eq rfl))
  · rw [ensure_miss env fs hp hc]
    exact run_skill_log env fs hp

theorem ensure_log (env : Env) (fs : State) :
    ∃ ext, log_extends fs (ensure_result_current env fs).1 ext := by
  by_cases hp : has_payload fs
  · exact weaken_extends (ensure_log_with_payload env fs hp)
  · rw [ensure_without_payload env fs hp]
    exact log_extends_of_eq rfl

theorem apply_config_log (env : Env) (fs : State) (config_json : Option (List Char)) :
    log_content (apply_config env fs config_json).1 = log_content fs := by
  unfold apply_config
  cases config_json with
  | none => rfl
  | some text =>
    by_cases h0 : strlen text = 0
    · simp [h0]
    · cases hj : env.yyjson_read (c_str text) with
      | none => simp [h0, hj]
      | some root => simp [h0, hj, log_content]

/-- Every ABI call extends the log buffer (possibly by nothing). -/
theorem step_log (env : Env) (fs : State) (op : Op) :
    ∃ ext, log_extends fs (step env fs op) ext := by
  cases op with
  | init config_json =>
    simp only [step, PluginInitialize]
    cases herr : (apply_config env fs config_json).2 with
    | some err => exact log_extends_of_eq (apply_config_log env fs config_json)
    | none =>
      apply set_status_extends
      apply weaken_extends
      apply append_log_extends
      exact log_extends_of_eq (apply_config_log env fs config_json)
  | shutdown =>
    simp only [step, PluginShutdown]
    exact weaken_extends (append_log_extends env fs _ _ _ (log_extends_of_eq rfl))
  | write path data =>
    simp only [step, FSWrite, handle_execute_write]
    split
    · apply weaken_extends
      apply append_log_extends
      apply set_status_extends
      exact log_extends_of_eq rfl
    · split
      · exact weaken_extends (append_log_extends env fs _ _ _ (log_extends_of_eq rfl))
      · split
        · exact weaken_extends (append_log_extends env fs _ _ _ (log_extends_of_eq rfl))
        · exact log_extends_of_eq rfl
  | read path offset size =>
    simp only [step, FSRead_state]
    split
    · exact ensure_log env fs
    · exact log_extends_of_eq rfl
  | stat path =>
    apply log_extends_of_eq
    simp only [step, FSStat]
    split
    · rfl
    · split
      · split <;> rfl
      · rfl
  | readdir path =>
    apply log_extends_of_eq
    simp only [step, FSReadDir]
    split <;> rfl

end SkillFS

/-! ## Reads of the eager plugins leave the state alone -/

theorem SummaryFS.summary_read_state (fs : SummaryFS.State) (path : String) (offset size : Int) :
    (SummaryFS.FSRead fs path offset size).1 = fs := by
  unfold SummaryFS.FSRead
  split
  · split <;> rfl
  · split
    · split <;> rfl
    · rfl

theorem SimpCurlFS.search_read_state (fs : SimpCurlFS.State) (path : String) (offset size : Int) :
    (SimpCurlFS.FSRead fs path offset size).1 = fs := by
  unfold SimpCurlFS.FSRead
  split
  · split <;> rfl
  · split
    · split <;> rfl
    · rfl

theorem SummaryFS.summary_reads_state (reads : List (String × Int × Int)) (fs : SummaryFS.State) :
    SummaryFS.run_reads fs reads = fs := by
  induction reads generalizing fs with
  | nil => rfl
  | cons r rest ih =>
    show SummaryFS.run_reads (SummaryFS.FSRead fs r.1 r.2.1 r.2.2).1 rest = fs
    rw [SummaryFS.summary_read_state, ih]

theorem SimpCurlFS.search_reads_state (reads : List (String × Int × Int))
    (fs : SimpCurlFS.State) : SimpCurlFS.run_reads fs reads = fs := by
  induction reads generalizing fs with
  | nil => rfl
  | cons r rest ih =>
    show SimpCurlFS.run_reads (SimpCurlFS.FSRead fs r.1 r.2.1 r.2.2).1 rest = fs
    rw [SimpCurlFS.search_read_state, ih]

/-! ## Which paths a skillsfs read or write accepts -/

theorem read_slice_not_error (v : List Char) (offset size : Int) (msg : String)
    (h : 0 ≤ offset) : read_slice v offset size ≠ ReadResult.error msg := by
  rw [read_slice_eq_spec v offset size h]
  unfold slice_spec
  simp

theorem SkillFS.read_dynamic_ok_iff (env : Env) (fs : SkillFS.State) (path : String) :
    (∃ msg, (SkillFS.read_dynamic env fs path).2 = Except.error msg)
      ↔ path ∉ SkillFS.readable_paths := by
  unfold SkillFS.read_dynamic SkillFS.readable_paths
  by_cases h1 : path = "/metadata"
  · simp [h1]
  by_cases h2 : path = "/instructions"
  · simp [h2]
  by_cases h3 : path = "/status"
  · simp [h3]
  by_cases h4 : path = "/log"
  · simp [h4]
  by_cases h5 : path = "/result"
  · subst h5
    simp only [h1, h2, h3, h4, if_false, if_true]
    constructor
    · rintro ⟨msg, hmsg⟩
      cases hx : (SkillFS.ensure_result_current env fs).2.1 <;>
        cases hy : (SkillFS.ensure_result_current env fs).1.last_result <;>
        simp [hx, hy] at hmsg
    · intro hn
      simp at hn
  · simp [h1, h2, h3, h4, h5]

/-! ## What a read of the result leaves in the log and the status snapshot -/

namespace SkillFS

/-- For a non-empty stored payload, a read of `/result` makes the log strictly
longer, clears `pending`, and stores as status snapshot the text for state
`completed` with the cache-hit flag of the read, cut to the 511 bytes the buffer
`status_buf` holds. -/
theorem result_read_log_and_status (env : Env) (fs : State) (offset size : Int)
    (hp : has_payload fs) :
    (∃ ext, 0 < ext.length ∧ log_extends fs (FSRead env fs "/result" offset size).1 ext)
    ∧ (FSRead env fs "/result" offset size).1.pending = false
    ∧ (FSRead env fs "/result" offset size).1.status_json
        = some (c_str (snprintf 512
            (completed_status_text env (FSRead env fs "/result" offset size).1
              (ensure_result_current env fs).2.2))) := by
  rw [FSRead_state]
  simp only [if_true]
  refine ⟨ensure_log_with_payload env fs hp, ?_⟩
  by_cases hc : cache_usable env fs
  · rw [ensure_hit env fs hp hc]
    simp [set_status, completed_status_text, dup_string, hc.1]
  · rw [ensure_miss env fs hp hc]
    obtain ⟨params, hpar, h0⟩ := hp
    unfold run_skill
    simp [hpar, h0, set_status, completed_status_text, dup_string]

end SkillFS

/-! ## Lemmas on C strings and whole-value reads -/

theorem c_str_of_no_nul (b : List Char) (h : NUL ∉ b) : c_str b = b := by
  unfold c_str
  apply List.takeWhile_eq_self_iff.mpr
  intro c hc
  have hne : c ≠ NUL := fun he => h (he ▸ hc)
  simpa using hne

theorem read_slice_whole (v : List Char) : read_slice v 0 (-1) = ReadResult.data v v.length := by
  rw [read_slice_eq_spec v 0 (-1) (le_refl 0)]
  unfold slice_spec slice_len
  by_cases h : (0 : Int) ≥ (v.length : Int)
  · have h0 : v.length = 0 := by omega
    have hv : v = [] := List.length_eq_zero.mp h0
    subst hv
    simp
  · simp [h]

/-! ## C1: read slicing -/

/-- C1. Read slicing in the three plugins: for every readable path exposing the
value `v` of length `L`, every `offset ≥ 0` and every `size`, `FSRead` returns no
error and exactly the bytes `v[offset .. offset + k)` with `out_len = k`, where `k`
is 0 for `offset ≥ L`, `min size (L - offset)` for `size > 0` and `L - offset`
otherwise.  (For skillsfs the value is the one exposed in the state the read
leaves, `/result` being computed by the read; simpcurlfs `/response.json` exposes a
value once a response is stored.) -/
theorem C1_read_slicing :
    (∀ (env : Env) (fs : SkillFS.State) (path : String) (offset size : Int) (v : List Char),
      0 ≤ offset →
      SkillFS.cached_value (SkillFS.FSRead env fs path offset size).1 path = some v →
      (SkillFS.FSRead env fs path offset size).2 = slice_spec v offset size)
    ∧ (∀ (fs : SummaryFS.State) (path : String) (offset size : Int) (v : List Char),
      0 ≤ offset → SummaryFS.cached_value fs path = some v →
      (SummaryFS.FSRead fs path offset size).2 = slice_spec v offset size)
    ∧ (∀ (fs : SimpCurlFS.State) (path : String) (offset size : Int) (v : List Char),
      0 ≤ offset → SimpCurlFS.cached_value fs path = some v →
      (SimpCurlFS.FSRead fs path offset size).2 = slice_spec v offset size) := by
  refine ⟨?_, ?_, ?_⟩
  · intro env fs path offset size v hoff hv
    have hfst : (SkillFS.FSRead env fs path offset size).1 = (SkillFS.read_dynamic env fs path).1 := by
      unfold SkillFS.FSRead
      split <;> simp_all
    rw [hfst] at hv
    have hd := SkillFS.read_dynamic_cached env fs path v hv
    unfold SkillFS.FSRead
    split
    · rename_i fs1 msg heq
      rw [heq] at hd
      cases hd
    · rename_i fs1 dynamic heq
      rw [heq] at hd
      cases hd
      exact read_slice_eq_spec v offset size hoff
  · intro fs path offset size v hoff hv
    unfold SummaryFS.cached_value at hv
    unfold SummaryFS.FSRead
    by_cases h1 : path = "/response.json"
    · subst h1
      cases hr : fs.last_raw with
      | none =>
        simp [hr] at hv
        subst hv
        simpa using read_slice_eq_spec _ offset size hoff
      | some raw =>
        simp [hr] at hv
        subst hv
        simpa using read_slice_eq_spec _ offset size hoff
    · by_cases h2 : path = "/response.txt"
      · subst h2
        cases hr : fs.last_summary with
        | none =>
          simp [hr] at hv
          subst hv
          simpa using read_slice_eq_spec _ offset size hoff
        | some raw =>
          simp [hr] at hv
          subst hv
          simpa using read_slice_eq_spec _ offset size hoff
      · simp [h1, h2] at hv
  · intro fs path offset size v hoff hv
    unfold SimpCurlFS.cached_value at hv
    unfold SimpCurlFS.FSRead
    by_cases h1 : path = "/response.json"
    · subst h1
      simp at hv
      simp [hv]
      rw [read_slice_unchecked_eq _ offset size hoff]
      exact read_slice_eq_spec _ offset size hoff
    · by_cases h2 : path = "/response.txt"
      · subst h2
        cases hr : fs.pretty_summary with
        | none =>
          simp [hr] at hv
          subst hv
          simpa [read_slice_unchecked_eq _ offset size hoff]
            using read_slice_eq_spec _ offset size hoff
        | some raw =>
          simp [hr] at hv
          subst hv
          simpa [read_slice_unchecked_eq _ offset size hoff]
            using read_slice_eq_spec _ offset size hoff
      · simp [h1, h2] at hv

/-- C1 at a concrete input: a fresh skillsfs plugin read at `/metadata` with
offset 6 and size 3 returns `unk`, three bytes of `owner=unknown`. -/
theorem C1_read_slicing_witness :
    (0 : Int) ≤ 6
    ∧ SkillFS.cached_value
        (SkillFS.FSRead (SkillFS.test_env 9) (SkillFS.PluginNew (SkillFS.test_env 5))
          "/metadata" 6 3).1 "/metadata" = some "owner=unknown".data
    ∧ (SkillFS.FSRead (SkillFS.test_env 9) (SkillFS.PluginNew (SkillFS.test_env 5))
          "/metadata" 6 3).2 = ReadResult.data "unk".data 3 :=
  ⟨by decide, by decide,
    (C1_read_slicing.1 (SkillFS.test_env 9) (SkillFS.PluginNew (SkillFS.test_env 5))
      "/metadata" 6 3 "owner=unknown".data (by decide) (by decide)).trans (by decide)⟩

/-! ## C2: write-then-read round trip -/

namespace SkillFS

/-- A read of `/result` made after the stored result has expired runs the skill
again. -/
theorem expired_read_runs (env : Env) (fs : State) (offset size : Int) (hp : has_payload fs)
    (hexp : ¬ fresh_at fs env.now) :
    (ensure_result_current env fs).2.2 = false
    ∧ (ensure_result_current env fs).2.1 = none
    ∧ (FSRead env fs "/result" offset size).1 = (run_skill env fs).1
    ∧ (FSRead env fs "/result" offset size).1.last_exec_ts = env.now := by
  have hc : ¬ cache_usable env fs := fun h => hexp h.2.2
  have hrun := run_skill_with_payload env fs hp
  rw [FSRead_state]
  simp only [if_true]
  rw [ensure_miss env fs hp hc]
  exact ⟨rfl, hrun.1, rfl, hrun.2.2.2.2⟩

/-- Without a payload a read of `/result` leaves the state alone and returns the
stored result when there is one, else the no-payload message. -/
theorem read_without_payload (env : Env) (fs : State) (offset size : Int)
    (hp : ¬ has_payload fs) :
    (FSRead env fs "/result" offset size).1 = fs
    ∧ (FSRead env fs "/result" offset size).2
        = read_slice (c_str (fs.last_result.getD
            "No execution payload yet. Write to /execute first.\n".data)) offset size := by
  have hst : (FSRead env fs "/result" offset size).1 = fs := by
    rw [FSRead_state]
    simp only [if_true]
    rw [ensure_without_payload env fs hp]
  refine ⟨hst, ?_⟩
  have hemp : fs.last_params.isNone ∨ strlen (fs.last_params.getD []) = 0 := by
    cases hpar : fs.last_params with
    | none => simp
    | some params =>
      right
      by_contra h0
      exact hp ⟨params, hpar, h0⟩
  have hfst : (read_dynamic env fs "/result").1 = fs := by
    rw [read_dynamic_state]
    simp only [if_true]
    rw [ensure_without_payload env fs hp]
  have hv : cached_value (read_dynamic env fs "/result").1 "/result"
      = some (c_str (fs.last_result.getD
          "No execution payload yet. Write to /execute first.\n".data)) := by
    rw [hfst]
    unfold cached_value
    have hne : ("/result" = "/metadata") = False := by decide
    have hne2 : ("/result" = "/instructions") = False := by decide
    have hne3 : ("/result" = "/status") = False := by decide
    have hne4 : ("/result" = "/log") = False := by decide
    simp only [hne, hne2, hne3, hne4, if_false, if_true, if_pos hemp]
  have hd := read_dynamic_cached env fs "/result" _ hv
  unfold FSRead
  split
  · rename_i fs1 msg heq
    rw [heq] at hd
    cases hd
  · rename_i fs1 dynamic heq
    rw [heq] at hd
    cases hd
    rfl

end SkillFS

/-! ## C3: cache-hit policy -/

set_option maxRecDepth 8000 in
/-- C3 fails as stated, in three ways.  (1) In the reachable state `epoch_state`
(payload `x`, executed at clock value 0, TTL 3600) a read at clock value 5000 is
served from the cache although the stated condition is false (the TTL is not 0
and the age 5000 exceeds it): the code skips the age test when `last_exec_ts` is
not positive.  (2) In the reachable state `empty_payload_state` (the empty payload
stored, pending, no result) the stated condition is false, yet the skill is not
run: the read leaves the state as it was.  (3) In the reachable state
`stale_state` (payload `x` executed, then the empty payload written, so `pending`
is true) the stated condition is false, yet the read does not run the skill: it
leaves the state as it was and returns the stored result of `x`, the bytes of the
first read. -/
theorem C3_counterexample :
    (SkillFS.Reachable SkillFS.epoch_state
      ∧ SkillFS.epoch_state.last_params = some "x".data
      ∧ ¬ SkillFS.claimed_cache_cond (SkillFS.test_env 5000) SkillFS.epoch_state
      ∧ (SkillFS.ensure_result_current (SkillFS.test_env 5000) SkillFS.epoch_state).2.2 = true
      ∧ (SkillFS.FSRead (SkillFS.test_env 5000) SkillFS.epoch_state "/result" 0 (-1)).1.last_result
          = SkillFS.epoch_state.last_result
      ∧ (SkillFS.FSRead (SkillFS.test_env 5000) SkillFS.epoch_state "/result" 0 (-1)).1.last_exec_ts
          = 0)
    ∧ (SkillFS.Reachable SkillFS.empty_payload_state
      ∧ SkillFS.empty_payload_state.last_params = some []
      ∧ ¬ SkillFS.claimed_cache_cond (SkillFS.test_env 9) SkillFS.empty_payload_state
      ∧ (SkillFS.ensure_result_current (SkillFS.test_env 9) SkillFS.empty_payload_state).2.2
          = false
      ∧ (SkillFS.FSRead (SkillFS.test_env 9) SkillFS.empty_payload_state "/result" 0 (-1)).1
          = SkillFS.empty_payload_state
      ∧ SkillFS.empty_payload_state.last_result = none)
    ∧ (SkillFS.Reachable SkillFS.stale_state
      ∧ SkillFS.stale_state.last_params = some []
      ∧ SkillFS.stale_state.pending = true
      ∧ SkillFS.stale_state.last_result.isSome = true
      ∧ ¬ SkillFS.claimed_cache_cond (SkillFS.test_env 3) SkillFS.stale_state
      ∧ (SkillFS.FSRead (SkillFS.test_env 3) SkillFS.stale_state "/result" 0 (-1)).1
          = SkillFS.stale_state
      ∧ (SkillFS.FSRead (SkillFS.test_env 3) SkillFS.stale_state "/result" 0 (-1)).2
          = (SkillFS.FSRead (SkillFS.test_env 0)
              (SkillFS.FSWrite (SkillFS.test_env 0) (SkillFS.PluginNew (SkillFS.test_env 0))
                "/execute" "x".data).1 "/result" 0 (-1)).2) := by
  refine ⟨⟨?_, by decide, by decide, by decide, by decide, by decide⟩,
    ⟨?_, by decide, by decide, by decide, by decide, by decide⟩,
    ⟨?_, by decide, by decide, by decide, by decide, by decide, by decide⟩⟩
  · exact SkillFS.Reachable.step (SkillFS.test_env 0) (SkillFS.Op.read "/result" 0 (-1))
      (SkillFS.Reachable.step (SkillFS.test_env 0) (SkillFS.Op.write "/execute" "x".data)
        (SkillFS.Reachable.new (SkillFS.test_env 0)))
  · exact SkillFS.Reachable.step (SkillFS.test_env 7) (SkillFS.Op.write "/execute" [])
      (SkillFS.Reachable.new (SkillFS.test_env 5))
  · exact SkillFS.Reachable.step (SkillFS.test_env 2) (SkillFS.Op.write "/execute" [])
      (SkillFS.Reachable.step (SkillFS.test_env 0) (SkillFS.Op.read "/result" 0 (-1))
        (SkillFS.Reachable.step (SkillFS.test_env 0) (SkillFS.Op.write "/execute" "x".data)
          (SkillFS.Reachable.new (SkillFS.test_env 0))))

/-- C3, amended. For every reachable state and every clock value, a read of
`/result` changes the state as `ensure_result_current` does.  When the stored payload
is non-empty as a C string, that call reuses the stored `last_result` without
running the skill (`last_result` and `last_exec_ts` unchanged, no error) if and only
if `pending` is false AND `last_result` exists AND (`cache_ttl_seconds == 0` OR
`last_exec_ts <= 0` OR `now - last_exec_ts <= cache_ttl_seconds`); in every other such
case the skill is run again (the state is that of `run_skill`, which succeeds,
stores a result, stamps `last_exec_ts` with the clock and clears `pending`).  When
the stored payload is absent or empty, the skill is never run, whatever `pending`
and the TTL are: `ensure_result_current` returns the no-payload message with the
cache-hit flag clear, and the read leaves the whole state as it was and returns
the stored `last_result` when one exists (the result of an earlier payload), else
the no-payload message, cut by offset and size. -/
theorem C3_cache_hit_policy (env : Env) (fs : SkillFS.State) (offset size : Int)
    (hr : SkillFS.Reachable fs) :
    (SkillFS.FSRead env fs "/result" offset size).1 = (SkillFS.ensure_result_current env fs).1
    ∧ (SkillFS.has_payload fs →
        ((SkillFS.ensure_result_current env fs).2.2 = true ↔
          (fs.pending = false ∧ fs.last_result.isSome = true
            ∧ (fs.cache_ttl_seconds = 0 ∨ fs.last_exec_ts ≤ 0
                ∨ env.now - fs.last_exec_ts ≤ fs.cache_ttl_seconds)))
        ∧ ((SkillFS.ensure_result_current env fs).2.2 = true →
            (SkillFS.ensure_result_current env fs).2.1 = none
            ∧ (SkillFS.ensure_result_current env fs).1.last_result = fs.last_result
            ∧ (SkillFS.ensure_result_current env fs).1.last_exec_ts = fs.last_exec_ts)
        ∧ ((SkillFS.ensure_result_current env fs).2.2 = false →
            (SkillFS.ensure_result_current env fs).1 = (SkillFS.run_skill env fs).1
            ∧ (SkillFS.ensure_result_current env fs).2.1 = none
            ∧ (SkillFS.ensure_result_current env fs).1.last_result.isSome = true
            ∧ (SkillFS.ensure_result_current env fs).1.last_exec_ts = env.now
            ∧ (SkillFS.ensure_result_current env fs).1.pending = false))
    ∧ (¬ SkillFS.has_payload fs →
        SkillFS.ensure_result_current env fs
          = (fs, some "No execution payload yet. Write to /execute first.\n", false)
        ∧ (SkillFS.FSRead env fs "/result" offset size).1 = fs
        ∧ (SkillFS.FSRead env fs "/result" offset size).2
            = read_slice (c_str (fs.last_result.getD
                "No execution payload yet. Write to /execute first.\n".data)) offset size) := by
  have httl := SkillFS.reachable_ttl_nonneg hr
  refine ⟨by rw [SkillFS.FSRead_state]; simp, ?_,
    fun hp => ⟨SkillFS.ensure_without_payload env fs hp,
      SkillFS.read_without_payload env fs offset size hp⟩⟩
  intro hp
  have hrun := SkillFS.run_skill_with_payload env fs hp
  by_cases hc : SkillFS.cache_usable env fs
  · rw [SkillFS.ensure_hit env fs hp hc]
    obtain ⟨h1, h2, h3⟩ := hc
    refine ⟨⟨fun _ => ⟨h1, h2, ?_⟩, fun _ => rfl⟩, fun _ => by simp, fun h => by simp at h⟩
    rcases h3 with h3 | h3 | h3
    · left; omega
    · right; left; exact h3
    · right; right; exact h3
  · rw [SkillFS.ensure_miss env fs hp hc]
    refine ⟨⟨fun h => by simp at h, fun h => ?_⟩, fun h => by simp at h,
      fun _ => ⟨rfl, hrun.1, hrun.2.1, hrun.2.2.2.2, hrun.2.2.2.1⟩⟩
    exfalso
    apply hc
    obtain ⟨h1, h2, h3⟩ := h
    refine ⟨h1, h2, ?_⟩
    rcases h3 with h3 | h3 | h3
    · left; omega
    · right; left; exact h3
    · right; right; exact h3

set_option maxRecDepth 8000 in
/-- C3 (amended) at two concrete inputs: the state `epoch_state` read at clock
value 5000 is a cache hit that returns no error; the state `stale_state`, whose
payload is empty, is left as it was by a read. -/
theorem C3_cache_hit_policy_witness :
    SkillFS.Reachable SkillFS.epoch_state ∧ SkillFS.has_payload SkillFS.epoch_state
    ∧ (SkillFS.ensure_result_current (SkillFS.test_env 5000) SkillFS.epoch_state).2.2 = true
    ∧ (SkillFS.ensure_result_current (SkillFS.test_env 5000) SkillFS.epoch_state).2.1 = none
    ∧ ¬ SkillFS.has_payload SkillFS.stale_state
    ∧ (SkillFS.FSRead (SkillFS.test_env 3) SkillFS.stale_state "/result" 0 (-1)).1
        = SkillFS.stale_state :=
  have hr : SkillFS.Reachable SkillFS.epoch_state :=
    SkillFS.Reachable.step (SkillFS.test_env 0) (SkillFS.Op.read "/result" 0 (-1))
      (SkillFS.Reachable.step (SkillFS.test_env 0) (SkillFS.Op.write "/execute" "x".data)
        (SkillFS.Reachable.new (SkillFS.test_env 0)))
  ⟨hr, by decide, by decide,
    (((C3_cache_hit_policy (SkillFS.test_env 5000) SkillFS.epoch_state 0 (-1) hr).2.1
      (by decide)).2.1 (by decide)).1,
    by decide,
    ((C3_cache_hit_policy (SkillFS.test_env 3) SkillFS.stale_state 0 (-1)
      (SkillFS.Reachable.step (SkillFS.test_env 2) (SkillFS.Op.write "/execute" []) hr)).2.2
      (by decide)).2.1⟩

/-! ## C4: a TTL of 0 never expires; an unset TTL is 3600 -/

/-- C5. For every byte string `B`, `FSWrite("/execute", B)` returns success, stores
`B` verbatim as `last_params`, sets `pending`, and executes nothing: `last_result`,
`last_exec_ts`, `last_duration_ms`, `skill_name`, `metadata`, `instructions` and
`cache_ttl_seconds` keep their values. -/
theorem C5_execute_write_is_lazy (env : Env) (fs : SkillFS.State) (B : List Char) :
    (SkillFS.FSWrite env fs "/execute" B).2 = none
    ∧ (SkillFS.FSWrite env fs "/execute" B).1.last_params = some B
    ∧ (SkillFS.FSWrite env fs "/execute" B).1.pending = true
    ∧ (SkillFS.FSWrite env fs "/execute" B).1.last_result = fs.last_result
    ∧ (SkillFS.FSWrite env fs "/execute" B).1.last_exec_ts = fs.last_exec_ts
    ∧ (SkillFS.FSWrite env fs "/execute" B).1.last_duration_ms = fs.last_duration_ms
    ∧ (SkillFS.FSWrite env fs "/execute" B).1.skill_name = fs.skill_name
    ∧ (SkillFS.FSWrite env fs "/execute" B).1.metadata = fs.metadata
    ∧ (SkillFS.FSWrite env fs "/execute" B).1.instructions = fs.instructions
    ∧ (SkillFS.FSWrite env fs "/execute" B).1.cache_ttl_seconds = fs.cache_ttl_seconds := by
  simp [SkillFS.FSWrite, SkillFS.handle_execute_write]

/-! ## C6: repeated reads of the result -/

/-- C7. In the summarizer and search plugins `FSRead`, on any path with any offset
and size, leaves every field of the state unchanged; so a read returns the same
bytes and the same `out_len` (or the same error) after any sequence of reads as it
does before them. -/
theorem C7_eager_reads_are_pure :
    (∀ (fs : SummaryFS.State) (path : String) (offset size : Int),
      (SummaryFS.FSRead fs path offset size).1 = fs)
    ∧ (∀ (fs : SimpCurlFS.State) (path : String) (offset size : Int),
      (SimpCurlFS.FSRead fs path offset size).1 = fs)
    ∧ (∀ (fs : SummaryFS.State) (reads : List (String × Int × Int)) (path : String)
        (offset size : Int),
      (SummaryFS.FSRead (SummaryFS.run_reads fs reads) path offset size).2
        = (SummaryFS.FSRead fs path offset size).2)
    ∧ (∀ (fs : SimpCurlFS.State) (reads : List (String × Int × Int)) (path : String)
        (offset size : Int),
      (SimpCurlFS.FSRead (SimpCurlFS.run_reads fs reads) path offset size).2
        = (SimpCurlFS.FSRead fs path offset size).2) := by
  refine ⟨SummaryFS.summary_read_state, SimpCurlFS.search_read_state, ?_, ?_⟩
  · intro fs reads path offset size
    rw [SummaryFS.summary_reads_state]
  · intro fs reads path offset size
    rw [SimpCurlFS.search_reads_state]

/-! ## C8: the audit log is append-only -/

/-- C8. For every ABI call of skillsfs (`PluginInitialize`, `PluginShutdown`, `FSWrite`
and `FSRead` on any path, `FSStat`, `FSReadDir`) and every state, the bytes of the log
buffer before the call are a prefix of the bytes after it, the log text seen as a
C string before the call is a prefix of the one after it, and `log_len` does not
decrease. -/
theorem C8_log_is_append_only (env : Env) (fs : SkillFS.State) (op : SkillFS.Op) :
    SkillFS.log_content fs <+: SkillFS.log_content (SkillFS.step env fs op)
    ∧ c_str (SkillFS.log_content fs) <+: c_str (SkillFS.log_content (SkillFS.step env fs op))
    ∧ fs.log_len ≤ (SkillFS.step env fs op).log_len := by
  obtain ⟨ext, hext⟩ := SkillFS.step_log env fs op
  unfold SkillFS.log_extends at hext
  refine ⟨⟨ext, hext.symm⟩, ?_, ?_⟩
  · rw [hext]
    exact SkillFS.c_str_append_left _ _
  · have : (SkillFS.step env fs op).log_len = fs.log_len + ext.length := by
      show (SkillFS.log_content (SkillFS.step env fs op)).length = _
      rw [hext, List.length_append]
      rfl
    omega

/-! ## C9: log entry and status snapshot of a result read -/

set_option maxRecDepth 100000 in
/-- C9 at the failing input: with a skill name of 600 letters, a read of `/result`
runs the skill, and the status snapshot it leaves is the 511-byte cut
`{"skill":"aaa...` of the snapshot text, with no `state`, `pending` or `cache_hit`
member; a second read, served from the cache, leaves the same cut text. -/
theorem C9_status_snapshot_truncated :
    SkillFS.has_payload SkillFS.long_name_state
    ∧ (SkillFS.ensure_result_current (SkillFS.test_env 9) SkillFS.long_name_state).2.2 = false
    ∧ (SkillFS.FSRead (SkillFS.test_env 9) SkillFS.long_name_state "/result" 0 (-1)).1.status_json
        = some ("\x7b\"skill\":\"".data ++ List.replicate 501 'a')
    ∧ (SkillFS.ensure_result_current (SkillFS.test_env 10)
        (SkillFS.FSRead (SkillFS.test_env 9) SkillFS.long_name_state "/result" 0 (-1)).1).2.2
        = true
    ∧ (SkillFS.FSRead (SkillFS.test_env 10)
        (SkillFS.FSRead (SkillFS.test_env 9) SkillFS.long_name_state "/result" 0 (-1)).1
        "/result" 0 (-1)).1.status_json
        = some ("\x7b\"skill\":\"".data ++ List.replicate 501 'a') := by
  decide

/-! ## C10: path permission table -/

theorem SkillFS.FSRead_unreadable (env : Env) (fs : SkillFS.State) (p : String)
    (offset size : Int) (h : p ∉ SkillFS.readable_paths) :
    (SkillFS.FSRead env fs p offset size).2 = ReadResult.error "unsupported path" := by
  unfold SkillFS.readable_paths at h
  simp only [List.mem_cons, List.mem_singleton, List.not_mem_nil, or_false, not_or] at h
  obtain ⟨h1, h2, h3, h4, h5⟩ := h
  unfold SkillFS.FSRead SkillFS.read_dynamic
  simp only [h1, h2, h3, h4, h5, if_false]

theorem SkillFS.FSRead_readable (env : Env) (fs : SkillFS.State) (p : String)
    (offset size : Int) (h : p ∈ SkillFS.readable_paths) :
    ∃ dynamic, (SkillFS.FSRead env fs p offset size).2 = read_slice dynamic offset size := by
  have hok := (SkillFS.read_dynamic_ok_iff env fs p).not.mpr (not_not.mpr h)
  unfold SkillFS.FSRead
  split
  · rename_i fs1 msg heq
    exact absurd ⟨msg, by rw [heq]⟩ hok
  · rename_i fs1 dynamic heq
    exact ⟨dynamic, rfl⟩

/-- The permission table of skillsfs.  For every path `p` and every state: at
every offset that is not negative, `FSRead` fails (an error string, `out_len = -1`)
if and only if `p` is not one of `/metadata`, `/instructions`, `/status`, `/log`,
`/result`; for such a `p` it fails with `unsupported path` at every offset; at a
negative offset a read of one of the five paths returns no bytes of the content:
it fails with `allocation failure` or copies from outside the buffer.  `FSWrite`
fails if and only if `p` is not one of `/metadata`, `/instructions`, `/execute`, and
a failing `FSWrite` leaves the whole state unchanged. -/
theorem SkillFS.path_permissions (env : Env) (fs : SkillFS.State) (p : String)
    (size : Int) (data : List Char) :
    (∀ offset : Int, 0 ≤ offset →
      ((∃ msg, (SkillFS.FSRead env fs p offset size).2 = ReadResult.error msg)
        ↔ p ∉ SkillFS.readable_paths))
    ∧ (p ∉ SkillFS.readable_paths → ∀ offset : Int,
        (SkillFS.FSRead env fs p offset size).2 = ReadResult.error "unsupported path")
    ∧ (p ∈ SkillFS.readable_paths → ∀ offset : Int, offset < 0 →
        (SkillFS.FSRead env fs p offset size).2 = ReadResult.error "allocation failure"
        ∨ ∃ n, (SkillFS.FSRead env fs p offset size).2 = ReadResult.out_of_bounds n)
    ∧ ((∃ msg, (SkillFS.FSWrite env fs p data).2 = some msg) ↔ p ∉ SkillFS.writable_paths)
    ∧ (∀ msg, (SkillFS.FSWrite env fs p data).2 = some msg →
        (SkillFS.FSWrite env fs p data).1 = fs) := by
  refine ⟨?_, ?_, ?_, ?_, ?_⟩
  · intro offset hoff
    constructor
    · rintro ⟨msg, hmsg⟩ hmem
      obtain ⟨dynamic, hd⟩ := SkillFS.FSRead_readable env fs p offset size hmem
      rw [hd] at hmsg
      exact read_slice_not_error dynamic offset size msg hoff hmsg
    · intro hn
      exact ⟨_, SkillFS.FSRead_unreadable env fs p offset size hn⟩
  · intro hn offset
    exact SkillFS.FSRead_unreadable env fs p offset size hn
  · intro hmem offset hneg
    obtain ⟨dynamic, hd⟩ := SkillFS.FSRead_readable env fs p offset size hmem
    rw [hd, read_slice_negative dynamic offset size hneg]
    by_cases hm : malloc_fails (read_len_of dynamic.length offset size)
    · left
      rw [if_pos hm]
    · right
      rw [if_neg hm]
      exact ⟨_, rfl⟩
  · unfold SkillFS.FSWrite SkillFS.handle_execute_write SkillFS.writable_paths
    by_cases h1 : p = "/execute"
    · simp [h1]
    by_cases h2 : p = "/instructions"
    · simp [h2]
    by_cases h3 : p = "/metadata"
    · simp [h3]
    · simp [h1, h2, h3]
  · intro msg
    unfold SkillFS.FSWrite SkillFS.handle_execute_write
    by_cases h1 : p = "/execute"
    · simp [h1]
    by_cases h2 : p = "/instructions"
    · simp [h2]
    by_cases h3 : p = "/metadata"
    · simp [h3]
    · simp [h1, h2, h3]

set_option maxRecDepth 8000 in
/-- C10 at the failing input: `/metadata` is one of the five readable paths and a
fresh plugin serves the 13 bytes `owner=unknown` there, yet
`FSRead("/metadata", INT64_MIN, -1)` fails with the error string
`allocation failure`: the offset passes the test `offset >= len`, the difference
`len - offset` wraps below zero in 64 bits, and `malloc(read_len + 1)` is asked for
more than the address space.  The same path read at offset 0 does not fail. -/
theorem C10_read_fails_on_readable_path :
    "/metadata" ∈ SkillFS.readable_paths
    ∧ read_len_of 13 (-9223372036854775808) (-1) = -9223372036854775795
    ∧ (SkillFS.FSRead (SkillFS.test_env 9) (SkillFS.PluginNew (SkillFS.test_env 5))
        "/metadata" (-9223372036854775808) (-1)).2 = ReadResult.error "allocation failure"
    ∧ (SkillFS.FSRead (SkillFS.test_env 9) (SkillFS.PluginNew (SkillFS.test_env 5))
        "/metadata" 0 (-1)).2 = ReadResult.data "owner=unknown".data 13 := by
  decide

/-! ## C16: directory listing -/

/-- C16. In each of the three plugins and in every state, `FSReadDir("/")` returns
exactly the fixed names in declaration order (skillsfs: metadata, instructions,
execute, result, status, log; simpcurlfs and summaryfs: request, response.json,
response.txt) with the matching count, every entry a non-directory with mode 0644,
and leaves the state unchanged; `FSReadDir` on every other path returns the NULL
result (`out_count = -1`). -/
theorem C16_directory_listing :
    (∀ (env : Env) (fs : SkillFS.State),
      (∃ items, (SkillFS.FSReadDir env fs "/").2 = some (items, 6)
        ∧ items.map (fun it => it.Name)
            = ["metadata".data, "instructions".data, "execute".data, "result".data,
               "status".data, "log".data]
        ∧ ∀ it ∈ items, is_plain_file it)
      ∧ (SkillFS.FSReadDir env fs "/").1 = fs
      ∧ ∀ path : String, path ≠ "/" → (SkillFS.FSReadDir env fs path).2 = none)
    ∧ (∀ (env : NetEnv) (fs : SimpCurlFS.State),
      (∃ items, (SimpCurlFS.FSReadDir env fs "/").2 = some (items, 3)
        ∧ items.map (fun it => it.Name)
            = ["request".data, "response.json".data, "response.txt".data]
        ∧ ∀ it ∈ items, is_plain_file it)
      ∧ (SimpCurlFS.FSReadDir env fs "/").1 = fs
      ∧ ∀ path : String, path ≠ "/" → (SimpCurlFS.FSReadDir env fs path).2 = none)
    ∧ (∀ (env : NetEnv) (fs : SummaryFS.State),
      (∃ items, (SummaryFS.FSReadDir env fs "/").2 = some (items, 3)
        ∧ items.map (fun it => it.Name)
            = ["request".data, "response.json".data, "response.txt".data]
        ∧ ∀ it ∈ items, is_plain_file it)
      ∧ (SummaryFS.FSReadDir env fs "/").1 = fs
      ∧ ∀ path : String, path ≠ "/" → (SummaryFS.FSReadDir env fs path).2 = none) := by
  refine ⟨?_, ?_, ?_⟩
  · intro env fs
    refine ⟨⟨_, rfl, rfl, ?_⟩, rfl, ?_⟩
    · intro it hit
      simp only [SkillFS.file_names, List.map_cons, List.map_nil, List.mem_cons,
        List.mem_singleton, List.not_mem_nil, or_false] at hit
      rcases hit with h | h | h | h | h | h <;> subst h <;> exact ⟨rfl, rfl⟩
    · intro path hp
      simp [SkillFS.FSReadDir, hp]
  · intro env fs
    refine ⟨⟨_, rfl, ?_, ?_⟩, rfl, ?_⟩
    · simp only [SimpCurlFS.names, List.map_cons, List.map_nil]
      decide
    · intro it hit
      simp only [SimpCurlFS.names, List.map_cons, List.map_nil, List.mem_cons,
        List.mem_singleton, List.not_mem_nil, or_false] at hit
      rcases hit with h | h | h <;> subst h <;> exact ⟨rfl, rfl⟩
    · intro path hp
      simp [SimpCurlFS.FSReadDir, hp]
  · intro env fs
    refine ⟨⟨_, rfl, ?_, ?_⟩, rfl, ?_⟩
    · simp only [SummaryFS.names, List.map_cons, List.map_nil]
      decide
    · intro it hit
      simp only [SummaryFS.names, List.map_cons, List.map_nil, List.mem_cons,
        List.mem_singleton, List.not_mem_nil, or_false] at hit
      rcases hit with h | h | h <;> subst h <;> exact ⟨rfl, rfl⟩
    · intro path hp
      simp [SummaryFS.FSReadDir, hp]

/-- C16 at a concrete input: listing `/log` of a fresh skillsfs plugin fails. -/
theorem C16_directory_listing_witness :
    ("/log" : String) ≠ "/"
    ∧ (SkillFS.FSReadDir (SkillFS.test_env 9) (SkillFS.PluginNew (SkillFS.test_env 5))
        "/log").2 = none :=
  ⟨by decide,
    (C16_directory_listing.1 (SkillFS.test_env 9) (SkillFS.PluginNew (SkillFS.test_env 5))).2.2
      "/log" (by decide)⟩

/-! ## C19: unsupported operations -/

/-- C19. In all three plugins, for every state and every path (and mode or new
path) argument, `FSCreate`, `FSMkdir`, `FSRemove`, `FSRemoveAll`, `FSRename` and `FSChmod`
each return their fixed `<op> not supported` error string and leave the state
unchanged. -/
theorem C19_unsupported_operations :
    (∀ (fs : SkillFS.State) (path new_path : String) (mode : Nat),
      SkillFS.FSCreate fs path = (fs, "create not supported")
      ∧ SkillFS.FSMkdir fs path mode = (fs, "mkdir not supported")
      ∧ SkillFS.FSRemove fs path = (fs, "remove not supported")
      ∧ SkillFS.FSRemoveAll fs path = (fs, "removeall not supported")
      ∧ SkillFS.FSRename fs path new_path = (fs, "rename not supported")
      ∧ SkillFS.FSChmod fs path mode = (fs, "chmod not supported"))
    ∧ (∀ (fs : SimpCurlFS.State) (path new_path : String) (mode : Nat),
      SimpCurlFS.FSCreate fs path = (fs, "create not supported")
      ∧ SimpCurlFS.FSMkdir fs path mode = (fs, "mkdir not supported")
      ∧ SimpCurlFS.FSRemove fs path = (fs, "remove not supported")
      ∧ SimpCurlFS.FSRemoveAll fs path = (fs, "removeall not supported")
      ∧ SimpCurlFS.FSRename fs path new_path = (fs, "rename not supported")
      ∧ SimpCurlFS.FSChmod fs path mode = (fs, "chmod not supported"))
    ∧ (∀ (fs : SummaryFS.State) (path new_path : String) (mode : Nat),
      SummaryFS.FSCreate fs path = (fs, "create not supported")
      ∧ SummaryFS.FSMkdir fs path mode = (fs, "mkdir not supported")
      ∧ SummaryFS.FSRemove fs path = (fs, "remove not supported")
      ∧ SummaryFS.FSRemoveAll fs path = (fs, "removeall not supported")
      ∧ SummaryFS.FSRename fs path new_path = (fs, "rename not supported")
      ∧ SummaryFS.FSChmod fs path mode = (fs, "chmod not supported")) :=
  ⟨fun _ _ _ _ => ⟨rfl, rfl, rfl, rfl, rfl, rfl⟩,
    fun _ _ _ _ => ⟨rfl, rfl, rfl, rfl, rfl, rfl⟩,
    fun _ _ _ _ => ⟨rfl, rfl, rfl, rfl, rfl, rfl⟩⟩

/-! ## C17: static tree membership -/

theorem SkillFS.listed_names_eq (env : Env) (fs : SkillFS.State) :
    SkillFS.listed_names env fs
      = ["metadata".data, "instructions".data, "execute".data, "result".data,
         "status".data, "log".data] := rfl

theorem SkillFS.is_known_file_iff (name : List Char) :
    SkillFS.is_known_file name = true
      ↔ name ∈ ["metadata".data, "instructions".data, "execute".data, "result".data,
          "status".data, "log".data] := by
  simp [SkillFS.is_known_file, SkillFS.file_names]

theorem SkillFS.c_str_known_file (name : List Char)
    (h : name ∈ ["metadata".data, "instructions".data, "execute".data, "result".data,
          "status".data, "log".data]) : c_str name = name := by
  simp only [List.mem_cons, List.mem_singleton, List.not_mem_nil, or_false] at h
  rcases h with h | h | h | h | h | h <;> subst h <;> decide

theorem c_str_eager_names :
    c_str "request".data = "request".data
    ∧ c_str "response.json".data = "response.json".data
    ∧ c_str "response.txt".data = "response.txt".data := by
  decide

theorem eager_listed_names :
    (∀ (env : NetEnv) (fs : SummaryFS.State), SummaryFS.listed_names env fs
      = ["request".data, "response.json".data, "response.txt".data])
    ∧ (∀ (env : NetEnv) (fs : SimpCurlFS.State), SimpCurlFS.listed_names env fs
      = ["request".data, "response.json".data, "response.txt".data]) := by
  obtain ⟨h1, h2, h3⟩ := c_str_eager_names
  constructor
  · intro env fs
    simp [SummaryFS.listed_names, SummaryFS.FSReadDir, SummaryFS.names, h1, h2, h3]
  · intro env fs
    simp [SimpCurlFS.listed_names, SimpCurlFS.FSReadDir, SimpCurlFS.names, h1, h2, h3]

/-- The result of skillsfs `FSStat`, case by case. -/
theorem SkillFS.stat_cases (env : Env) (fs : SkillFS.State) (p : String) :
    (SkillFS.FSStat env fs p).1 = fs
    ∧ (p = "/" → (SkillFS.FSStat env fs p).2 = some (SkillFS.make_file_info env [] true))
    ∧ (∀ rest, p ≠ "/" → p.data = '/' :: rest → SkillFS.is_known_file rest = true →
        (SkillFS.FSStat env fs p).2 = some (SkillFS.make_file_info env rest false))
    ∧ (p ≠ "/" → (∀ rest, p.data = '/' :: rest → SkillFS.is_known_file rest = false) →
        (SkillFS.FSStat env fs p).2 = none) := by
  unfold SkillFS.FSStat
  by_cases h0 : p = "/"
  · simp [h0]
  · simp only [h0, if_false]
    cases hd : p.data with
    | nil => simp
    | cons c rest =>
      by_cases hk : c = '/' ∧ SkillFS.is_known_file rest = true
      · simp only [hk, and_self, if_true]
        refine ⟨trivial, fun h => h.elim, ?_, ?_⟩
        · intro r _ hr _
          have := (List.cons.inj hr).2
          rw [this]
        · intro _ hall
          have := hall rest rfl
          rw [hk.2] at this
          cases this
      · simp only [hk, if_false]
        refine ⟨trivial, fun h => h.elim, ?_, fun _ _ => trivial⟩
        intro r _ hr hkn
        have h2 := List.cons.inj hr
        exact absurd ⟨h2.1, h2.2 ▸ hkn⟩ hk

/-- Stat of skillsfs: which paths exist and what is reported for them. -/
theorem SkillFS.stat_membership (env : Env) (fs : SkillFS.State) (p : String) :
    ((SkillFS.FSStat env fs p).2.isSome = true
        ↔ (p = "/" ∨ ∃ n ∈ SkillFS.listed_names env fs, is_member_path p n))
    ∧ (p = "/" → ∃ it, (SkillFS.FSStat env fs p).2 = some it ∧ is_root_info it)
    ∧ (∀ n ∈ SkillFS.listed_names env fs, is_member_path p n →
        ∃ it, (SkillFS.FSStat env fs p).2 = some it ∧ is_member_info n it)
    ∧ (SkillFS.FSStat env fs p).1 = fs := by
  rw [SkillFS.listed_names_eq]
  obtain ⟨hst, hroot, hmem, hnone⟩ := SkillFS.stat_cases env fs p
  have hrootpath : ∀ n, is_member_path "/" n → n = [] := by
    intro n hn
    unfold is_member_path at hn
    have h1 : ("/" : String).data = ['/'] := rfl
    rw [h1] at hn
    exact ((List.cons.inj hn).2).symm
  have hmember : ∀ n ∈ ["metadata".data, "instructions".data, "execute".data, "result".data,
        "status".data, "log".data], is_member_path p n →
        (SkillFS.FSStat env fs p).2 = some (SkillFS.make_file_info env n false) := by
    intro n hn hp
    have hne : p ≠ "/" := by
      intro h0
      subst h0
      have := hrootpath n hp
      subst this
      simp at hn
    exact hmem n hne hp ((SkillFS.is_known_file_iff n).mpr hn)
  refine ⟨⟨?_, ?_⟩, ?_, ?_, hst⟩
  · intro hsome
    by_cases h0 : p = "/"
    · exact Or.inl h0
    · right
      by_contra hno
      have hn := hnone h0 (by
        intro rest hrest
        cases hk : SkillFS.is_known_file rest with
        | false => rfl
        | true =>
          exact absurd ⟨rest, (SkillFS.is_known_file_iff rest).mp hk, hrest⟩ hno)
      rw [hn] at hsome
      cases hsome
  · rintro (h0 | ⟨n, hn, hp⟩)
    · rw [hroot h0]; rfl
    · rw [hmember n hn hp]; rfl
  · intro h0
    exact ⟨_, hroot h0, by simp [is_root_info, SkillFS.make_file_info, c_str]⟩
  · intro n hn hp
    refine ⟨_, hmember n hn hp, ?_⟩
    simp [is_member_info, SkillFS.make_file_info, SkillFS.c_str_known_file n hn]

theorem eager_member_path_iff (p : String) (n : List Char) :
    is_member_path p n ↔ p = String.mk ('/' :: n) := by
  unfold is_member_path
  constructor
  · intro h
    exact String.ext h
  · intro h
    rw [h]

theorem eager_member_paths (p : String) :
    (∃ n ∈ ["request".data, "response.json".data, "response.txt".data], is_member_path p n)
      ↔ (p = "/request" ∨ p = "/response.json" ∨ p = "/response.txt") := by
  constructor
  · rintro ⟨n, hn, hp⟩
    have h := (eager_member_path_iff p n).mp hp
    simp only [List.mem_cons, List.mem_singleton, List.not_mem_nil, or_false] at hn
    rcases hn with h1 | h1 | h1 <;> subst h1
    · exact Or.inl h
    · exact Or.inr (Or.inl h)
    · exact Or.inr (Or.inr h)
  · rintro (h | h | h) <;> subst h
    · exact ⟨"request".data, by simp, rfl⟩
    · exact ⟨"response.json".data, by simp, rfl⟩
    · exact ⟨"response.txt".data, by simp, rfl⟩

/-- Stat of summaryfs: which paths exist and what is reported for them. -/
theorem SummaryFS.summary_stat_membership (env : NetEnv) (fs : SummaryFS.State) (p : String) :
    ((SummaryFS.FSStat env fs p).2.isSome = true
        ↔ (p = "/" ∨ ∃ n ∈ SummaryFS.listed_names env fs, is_member_path p n))
    ∧ (p = "/" → ∃ it, (SummaryFS.FSStat env fs p).2 = some it ∧ is_root_info it)
    ∧ (∀ n ∈ SummaryFS.listed_names env fs, is_member_path p n →
        ∃ it, (SummaryFS.FSStat env fs p).2 = some it ∧ is_member_info n it)
    ∧ (SummaryFS.FSStat env fs p).1 = fs := by
  rw [eager_listed_names.1 env fs, eager_member_paths]
  obtain ⟨c1, c2, c3⟩ := c_str_eager_names
  have hmem : ∀ n ∈ ["request".data, "response.json".data, "response.txt".data],
      is_member_path p n →
      ∃ it, (SummaryFS.FSStat env fs p).2 = some it ∧ is_member_info n it := by
    intro n hn hp
    have h := (eager_member_path_iff p n).mp hp
    simp only [List.mem_cons, List.mem_singleton, List.not_mem_nil, or_false] at hn
    rcases hn with h1 | h1 | h1 <;> subst h1 <;> subst h
    · exact ⟨_, rfl, by simp [is_member_info, SummaryFS.alloc_file_info, c1]⟩
    · exact ⟨_, rfl, by simp [is_member_info, SummaryFS.alloc_file_info, c2]⟩
    · exact ⟨_, rfl, by simp [is_member_info, SummaryFS.alloc_file_info, c3]⟩
  refine ⟨?_, ?_, hmem, ?_⟩
  · unfold SummaryFS.FSStat
    by_cases h0 : p = "/"
    · simp [h0]
    by_cases h1 : p = "/request"
    · simp [h1]
    by_cases h2 : p = "/response.json"
    · simp [h2]
    by_cases h3 : p = "/response.txt"
    · simp [h3]
    · simp [h0, h1, h2, h3]
  · intro h0
    subst h0
    exact ⟨_, rfl, by simp [is_root_info, SummaryFS.alloc_file_info, c_str]⟩
  · unfold SummaryFS.FSStat
    split
    · rfl
    · split
      · rfl
      · split
        · rfl
        · split <;> rfl

/-- Stat of simpcurlfs: which paths exist and what is reported for them. -/
theorem SimpCurlFS.search_stat_membership (env : NetEnv) (fs : SimpCurlFS.State)
    (p : String) :
    ((SimpCurlFS.FSStat env fs p).2.isSome = true
        ↔ (p = "/" ∨ ∃ n ∈ SimpCurlFS.listed_names env fs, is_member_path p n))
    ∧ (p = "/" → ∃ it, (SimpCurlFS.FSStat env fs p).2 = some it ∧ is_root_info it)
    ∧ (∀ n ∈ SimpCurlFS.listed_names env fs, is_member_path p n →
        ∃ it, (SimpCurlFS.FSStat env fs p).2 = some it ∧ is_member_info n it)
    ∧ (SimpCurlFS.FSStat env fs p).1 = fs := by
  rw [eager_listed_names.2 env fs, eager_member_paths]
  obtain ⟨c1, c2, c3⟩ := c_str_eager_names
  have hmem : ∀ n ∈ ["request".data, "response.json".data, "response.txt".data],
      is_member_path p n →
      ∃ it, (SimpCurlFS.FSStat env fs p).2 = some it ∧ is_member_info n it := by
    intro n hn hp
    have h := (eager_member_path_iff p n).mp hp
    simp only [List.mem_cons, List.mem_singleton, List.not_mem_nil, or_false] at hn
    rcases hn with h1 | h1 | h1 <;> subst h1 <;> subst h
    · exact ⟨_, rfl, by simp [is_member_info, SimpCurlFS.alloc_file_info, c1]⟩
    · exact ⟨_, rfl, by simp [is_member_info, SimpCurlFS.alloc_file_info, c2]⟩
    · exact ⟨_, rfl, by simp [is_member_info, SimpCurlFS.alloc_file_info, c3]⟩
  refine ⟨?_, ?_, hmem, ?_⟩
  · unfold SimpCurlFS.FSStat
    by_cases h0 : p = "/"
    · simp [h0]
    by_cases h1 : p = "/request"
    · simp [h1]
    by_cases h2 : p = "/response.json"
    · simp [h2]
    by_cases h3 : p = "/response.txt"
    · simp [h3]
    · simp [h0, h1, h2, h3]
  · intro h0
    subst h0
    exact ⟨_, rfl, by simp [is_root_info, SimpCurlFS.alloc_file_info, c_str]⟩
  · unfold SimpCurlFS.FSStat
    split
    · rfl
    · split
      · rfl
      · split
        · rfl
        · split <;> rfl

/-- C17. In each of the three plugins, in every state and for every path `p`,
`FSStat(p)` is non-null if and only if `p` is `/` or `p` is `/` followed by one of the
names `FSReadDir("/")` lists; for `/` the result has an empty name, the directory flag
set and mode 0755; for a member file it has that member's name, the directory flag
clear and mode 0644; every other path gives the NULL result; the state is left
unchanged. -/
theorem C17_static_tree_membership :
    (∀ (env : Env) (fs : SkillFS.State) (p : String),
      ((SkillFS.FSStat env fs p).2.isSome = true
          ↔ (p = "/" ∨ ∃ n ∈ SkillFS.listed_names env fs, is_member_path p n))
      ∧ (p = "/" → ∃ it, (SkillFS.FSStat env fs p).2 = some it ∧ is_root_info it)
      ∧ (∀ n ∈ SkillFS.listed_names env fs, is_member_path p n →
          ∃ it, (SkillFS.FSStat env fs p).2 = some it ∧ is_member_info n it)
      ∧ (SkillFS.FSStat env fs p).1 = fs)
    ∧ (∀ (env : NetEnv) (fs : SimpCurlFS.State) (p : String),
      ((SimpCurlFS.FSStat env fs p).2.isSome = true
          ↔ (p = "/" ∨ ∃ n ∈ SimpCurlFS.listed_names env fs, is_member_path p n))
      ∧ (p = "/" → ∃ it, (SimpCurlFS.FSStat env fs p).2 = some it ∧ is_root_info it)
      ∧ (∀ n ∈ SimpCurlFS.listed_names env fs, is_member_path p n →
          ∃ it, (SimpCurlFS.FSStat env fs p).2 = some it ∧ is_member_info n it)
      ∧ (SimpCurlFS.FSStat env fs p).1 = fs)
    ∧ (∀ (env : NetEnv) (fs : SummaryFS.State) (p : String),
      ((SummaryFS.FSStat env fs p).2.isSome = true
          ↔ (p = "/" ∨ ∃ n ∈ SummaryFS.listed_names env fs, is_member_path p n))
      ∧ (p = "/" → ∃ it, (SummaryFS.FSStat env fs p).2 = some it ∧ is_root_info it)
      ∧ (∀ n ∈ SummaryFS.listed_names env fs, is_member_path p n →
          ∃ it, (SummaryFS.FSStat env fs p).2 = some it ∧ is_member_info n it)
      ∧ (SummaryFS.FSStat env fs p).1 = fs) :=
  ⟨SkillFS.stat_membership, SimpCurlFS.search_stat_membership,
    SummaryFS.summary_stat_membership⟩

/-- C17 at a concrete input: `/status` of a fresh skillsfs plugin is a member path
and its stat result carries the name `status`; `/nope` is not a member path. -/
theorem C17_static_tree_membership_witness :
    "status".data ∈ SkillFS.listed_names (SkillFS.test_env 9)
        (SkillFS.PluginNew (SkillFS.test_env 5))
    ∧ is_member_path "/status" "status".data
    ∧ (∃ it, (SkillFS.FSStat (SkillFS.test_env 9) (SkillFS.PluginNew (SkillFS.test_env 5))
          "/status").2 = some it ∧ is_member_info "status".data it)
    ∧ (SkillFS.FSStat (SkillFS.test_env 9) (SkillFS.PluginNew (SkillFS.test_env 5))
          "/nope").2 = none :=
  ⟨by decide, rfl,
    (C17_static_tree_membership.1 (SkillFS.test_env 9) (SkillFS.PluginNew (SkillFS.test_env 5))
      "/status").2.2.1 "status".data (by decide) rfl,
    by decide⟩

/-! ## C18: stat size -/

/-- C18 fails as stated: after `FSWrite("/metadata", "abc")` the live value of
`/metadata` has 3 bytes but skillsfs `FSStat` reports Size 0; after a successful
summarizer request the stored response has 42 bytes but summaryfs `FSStat` reports
Size 0 for `/response.json`. -/
theorem C18_counterexample :
    (SkillFS.cached_value SkillFS.metadata_abc_state "/metadata" = some "abc".data
      ∧ (SkillFS.FSStat (SkillFS.test_env 9) SkillFS.metadata_abc_state "/metadata").2.map
          (fun it => it.Size) = some 0)
    ∧ ((SummaryFS.FSWrite chat_env SummaryFS.PluginNew "/request" "hello".data).2.1 = none
      ∧ SummaryFS.summarized_state.last_raw = some chat_body
      ∧ chat_body.length = 42
      ∧ (SummaryFS.FSStat chat_env SummaryFS.summarized_state "/response.json").2.map
          (fun it => it.Size) = some 0) := by
  decide

/-- C18, amended. In the skill-exec and summarizer plugins `FSStat` reports Size 0
for every path it knows, in every state, whatever the length of the live value.
It is the search plugin whose `FSStat` reports a live length: for `/response.json`
the length of the stored response, for `/response.txt` the length of the stored
summary, and 0 when the value is absent (and 0 for `/` and `/request`). -/
theorem C18_stat_size :
    (∀ (env : Env) (fs : SkillFS.State) (p : String) (it : SkillFS.FileInfoC),
      (SkillFS.FSStat env fs p).2 = some it → it.Size = 0)
    ∧ (∀ (env : NetEnv) (fs : SummaryFS.State) (p : String) (it : SkillFS.FileInfoC),
      (SummaryFS.FSStat env fs p).2 = some it → it.Size = 0)
    ∧ (∀ (env : NetEnv) (fs : SimpCurlFS.State),
      (SimpCurlFS.FSStat env fs "/response.json").2.map (fun it => it.Size)
          = some (match fs.last_response with
                  | some resp => (resp.length : Int)
                  | none => 0)
      ∧ (SimpCurlFS.FSStat env fs "/response.txt").2.map (fun it => it.Size)
          = some (match fs.pretty_summary with
                  | some s => (strlen s : Int)
                  | none => 0)
      ∧ (SimpCurlFS.FSStat env fs "/request").2.map (fun it => it.Size) = some 0
      ∧ (SimpCurlFS.FSStat env fs "/").2.map (fun it => it.Size) = some 0) := by
  refine ⟨?_, ?_, ?_⟩
  · intro env fs p it h
    obtain ⟨_, hroot, hmem, hnone⟩ := SkillFS.stat_cases env fs p
    by_cases h0 : p = "/"
    · rw [hroot h0] at h
      cases h
      rfl
    · cases hd : p.data with
      | nil =>
        rw [hnone h0 (by intro rest hr; rw [hd] at hr; cases hr)] at h
        cases h
      | cons c rest =>
        by_cases hk : c = '/' ∧ SkillFS.is_known_file rest = true
        · rw [hmem rest h0 (by rw [hd, hk.1]) hk.2] at h
          cases h
          rfl
        · rw [hnone h0 (by
            intro r hr
            rw [hd] at hr
            have h2 := List.cons.inj hr
            cases hq : SkillFS.is_known_file r with
            | false => rfl
            | true => exact absurd ⟨h2.1, h2.2 ▸ hq⟩ hk)] at h
          cases h
  · intro env fs p it h
    unfold SummaryFS.FSStat at h
    split at h
    · cases h; rfl
    · split at h
      · cases h; rfl
      · split at h
        · cases h; rfl
        · split at h
          · cases h; rfl
          · cases h
  · intro env fs
    refine ⟨?_, ?_, ?_, ?_⟩
    · cases hr : fs.last_response <;> simp [SimpCurlFS.FSStat, SimpCurlFS.alloc_file_info, hr]
    · cases hr : fs.pretty_summary <;> simp [SimpCurlFS.FSStat, SimpCurlFS.alloc_file_info, hr]
    · simp [SimpCurlFS.FSStat, SimpCurlFS.alloc_file_info]
    · simp [SimpCurlFS.FSStat, SimpCurlFS.alloc_file_info]

/-- C18 (amended) at a concrete input: `/metadata` holding `abc` is reported with
Size 0. -/
theorem C18_stat_size_witness :
    (∃ it, (SkillFS.FSStat (SkillFS.test_env 9) SkillFS.metadata_abc_state "/metadata").2
        = some it ∧ it.Size = 0) :=
  ⟨SkillFS.make_file_info (SkillFS.test_env 9) "metadata".data false, by decide,
    C18_stat_size.1 (SkillFS.test_env 9) SkillFS.metadata_abc_state "/metadata" _ (by decide)⟩

/-! ## C20: config merge of skillsfs -/

theorem SkillFS.config_str_eq (v : Option JVal) (old : Option (List Char)) :
    SkillFS.config_str v old = merged_c_string v old := by
  unfold SkillFS.config_str merged_c_string
  cases v with
  | none => rfl
  | some j => cases j <;> simp [yyjson_is_str, yyjson_get_str, dup_string]

theorem SkillFS.config_ttl_eq (v : Option JVal) (old : Int) :
    SkillFS.config_ttl v old = merged_int_ttl v old := by
  unfold SkillFS.config_ttl merged_int_ttl
  cases v with
  | none => rfl
  | some j => cases j <;> simp [yyjson_is_int, yyjson_get_int]

theorem to_int32_of_int_range (i : Int) (h1 : -2147483648 ≤ i) (h2 : i < 2147483648) :
    to_int32 i = i := by
  unfold to_int32
  omega

theorem merged_c_string_eq (v : Option JVal) (old : Option (List Char))
    (h : nul_free_value v) : merged_c_string v old = merged_string v old := by
  unfold merged_c_string merged_string
  cases v with
  | none => rfl
  | some j =>
    cases j with
    | str s => simp only [c_str_of_no_nul s (h s rfl)]
    | null => rfl
    | bool b => rfl
    | int i => rfl
    | real r => rfl
    | arr items => rfl
    | obj members => rfl

theorem merged_int_ttl_eq (v : Option JVal) (old : Int) (h : int_range_value v) :
    merged_int_ttl v old = merged_ttl v old := by
  unfold merged_int_ttl merged_ttl
  cases v with
  | none => rfl
  | some j =>
    cases j with
    | int i =>
      obtain ⟨h1, h2⟩ := h i rfl
      simp only [to_int32_of_int_range i h1 h2]
    | null => rfl
    | bool b => rfl
    | str s => rfl
    | real r => rfl
    | arr items => rfl
    | obj members => rfl

theorem merged_int_ttl_nonneg (v : Option JVal) (old : Int) (h : 0 ≤ old) :
    0 ≤ merged_int_ttl v old := by
  rw [← SkillFS.config_ttl_eq]
  exact SkillFS.config_ttl_nonneg v old h

set_option maxRecDepth 8000 in
/-- C20 fails as stated: the well-formed config
`{"metadata":"a\u0000b","cache_ttl_seconds":-4294967295}` supplies a negative
integer, which the claim has stored as 0, and a metadata string of three bytes.
`apply_config` converts the integer to a 32-bit `int`, which is 1, and stores the
TTL 1; it copies the string as a C string and stores the metadata `a`. -/
theorem C20_counterexample :
    strlen SkillFS.wide_config ≠ 0
    ∧ (SkillFS.apply_config SkillFS.wide_config_env (SkillFS.PluginNew (SkillFS.test_env 5))
        (some SkillFS.wide_config)).2 = none
    ∧ merged_ttl (yyjson_obj_get SkillFS.wide_config_doc "cache_ttl_seconds".data) 3600 = 0
    ∧ (SkillFS.apply_config SkillFS.wide_config_env (SkillFS.PluginNew (SkillFS.test_env 5))
        (some SkillFS.wide_config)).1.cache_ttl_seconds = 1
    ∧ merged_string (yyjson_obj_get SkillFS.wide_config_doc "metadata".data)
        (some "owner=unknown".data) = some ['a', NUL, 'b']
    ∧ (SkillFS.apply_config SkillFS.wide_config_env (SkillFS.PluginNew (SkillFS.test_env 5))
        (some SkillFS.wide_config)).1.metadata = some "a".data := by
  decide

/-- C20, amended. For every prior state of skillsfs and every well-formed
(non-empty, parsed) JSON config, `apply_config` returns no error.  `skill_name`,
`metadata` and `instructions` are each replaced exactly when the member is present
with a string value, by the supplied string cut at its first zero byte, and
otherwise keep their prior value; for a string without a zero byte this is the
merge the specification words: replaced by the supplied string.
`cache_ttl_seconds` is replaced exactly when the member is present with an integer
value, by that integer converted to a 32-bit `int` with a negative result stored
as 0, and otherwise keeps its prior value; for an integer within the range of
`int` this is the merge the specification words: the supplied integer, a negative
one stored as 0.  A TTL that was not negative is not negative afterwards.  No
other field of the state changes, so other members and values of the wrong type
change nothing. -/
theorem C20_config_merge (env : Env) (fs : SkillFS.State) (text : List Char) (root : JVal)
    (hne : strlen text ≠ 0) (hparse : env.yyjson_read (c_str text) = some root) :
    (SkillFS.apply_config env fs (some text)).2 = none
    ∧ (SkillFS.apply_config env fs (some text)).1.skill_name
        = merged_c_string (yyjson_obj_get root "skill_name".data) fs.skill_name
    ∧ (SkillFS.apply_config env fs (some text)).1.metadata
        = merged_c_string (yyjson_obj_get root "metadata".data) fs.metadata
    ∧ (SkillFS.apply_config env fs (some text)).1.instructions
        = merged_c_string (yyjson_obj_get root "instructions".data) fs.instructions
    ∧ (SkillFS.apply_config env fs (some text)).1.cache_ttl_seconds
        = merged_int_ttl (yyjson_obj_get root "cache_ttl_seconds".data) fs.cache_ttl_seconds
    ∧ (nul_free_value (yyjson_obj_get root "skill_name".data) →
        (SkillFS.apply_config env fs (some text)).1.skill_name
          = merged_string (yyjson_obj_get root "skill_name".data) fs.skill_name)
    ∧ (nul_free_value (yyjson_obj_get root "metadata".data) →
        (SkillFS.apply_config env fs (some text)).1.metadata
          = merged_string (yyjson_obj_get root "metadata".data) fs.metadata)
    ∧ (nul_free_value (yyjson_obj_get root "instructions".data) →
        (SkillFS.apply_config env fs (some text)).1.instructions
          = merged_string (yyjson_obj_get root "instructions".data) fs.instructions)
    ∧ (int_range_value (yyjson_obj_get root "cache_ttl_seconds".data) →
        (SkillFS.apply_config env fs (some text)).1.cache_ttl_seconds
          = merged_ttl (yyjson_obj_get root "cache_ttl_seconds".data) fs.cache_ttl_seconds)
    ∧ (0 ≤ fs.cache_ttl_seconds →
        0 ≤ (SkillFS.apply_config env fs (some text)).1.cache_ttl_seconds)
    ∧ (SkillFS.apply_config env fs (some text)).1.last_params = fs.last_params
    ∧ (SkillFS.apply_config env fs (some text)).1.last_result = fs.last_result
    ∧ (SkillFS.apply_config env fs (some text)).1.status_json = fs.status_json
    ∧ (SkillFS.apply_config env fs (some text)).1.log_text = fs.log_text
    ∧ (SkillFS.apply_config env fs (some text)).1.log_cap = fs.log_cap
    ∧ (SkillFS.apply_config env fs (some text)).1.last_request_ts = fs.last_request_ts
    ∧ (SkillFS.apply_config env fs (some text)).1.last_exec_ts = fs.last_exec_ts
    ∧ (SkillFS.apply_config env fs (some text)).1.last_duration_ms = fs.last_duration_ms
    ∧ (SkillFS.apply_config env fs (some text)).1.pending = fs.pending
    ∧ (SkillFS.apply_config env fs (some text)).1.initialized = fs.initialized := by
  have happ : SkillFS.apply_config env fs (some text)
      = ({ fs with
            skill_name := merged_c_string (yyjson_obj_get root "skill_name".data) fs.skill_name
            metadata := merged_c_string (yyjson_obj_get root "metadata".data) fs.metadata
            instructions :=
              merged_c_string (yyjson_obj_get root "instructions".data) fs.instructions
            cache_ttl_seconds :=
              merged_int_ttl (yyjson_obj_get root "cache_ttl_seconds".data)
                fs.cache_ttl_seconds },
          none) := by
    unfold SkillFS.apply_config
    simp only [hne, if_false, hparse, SkillFS.config_str_eq, SkillFS.config_ttl_eq]
  rw [happ]
  exact ⟨rfl, rfl, rfl, rfl, rfl, fun h => merged_c_string_eq _ _ h,
    fun h => merged_c_string_eq _ _ h, fun h => merged_c_string_eq _ _ h,
    fun h => merged_int_ttl_eq _ _ h, fun h => merged_int_ttl_nonneg _ _ h,
    rfl, rfl, rfl, rfl, rfl, rfl, rfl, rfl, rfl, rfl⟩

set_option maxRecDepth 8000 in
/-- C20 (amended) at a concrete input: a config with a metadata string, a TTL of
-5, an integer `skill_name` and an unknown member sets the metadata, stores the
TTL 0 and keeps the skill name. -/
theorem C20_config_merge_witness :
    strlen "cfg".data ≠ 0
    ∧ SkillFS.sample_config_env.yyjson_read (c_str "cfg".data) = some SkillFS.sample_config_doc
    ∧ (SkillFS.apply_config SkillFS.sample_config_env (SkillFS.PluginNew (SkillFS.test_env 5))
        (some "cfg".data)).1.metadata = some "team=a".data
    ∧ (SkillFS.apply_config SkillFS.sample_config_env (SkillFS.PluginNew (SkillFS.test_env 5))
        (some "cfg".data)).1.cache_ttl_seconds = 0
    ∧ (SkillFS.apply_config SkillFS.sample_config_env (SkillFS.PluginNew (SkillFS.test_env 5))
        (some "cfg".data)).1.skill_name = some "skillfs-mvp".data :=
  have h := C20_config_merge SkillFS.sample_config_env (SkillFS.PluginNew (SkillFS.test_env 5))
    "cfg".data SkillFS.sample_config_doc (by decide) rfl
  ⟨by decide, rfl,
    (h.2.2.2.2.2.2.1 (by intro s hs; cases hs; decide)).trans (by decide),
    (h.2.2.2.2.2.2.2.2.1 (by intro i hi; cases hi; decide)).trans (by decide),
    (h.2.2.2.2.2.1 (by intro s hs; cases hs)).trans (by decide)⟩

/-! ## The request write of simpcurlfs, case by case -/

theorem strlen_nil : strlen [] = 0 := rfl

theorem c_str_nil : c_str [] = [] := rfl

namespace SimpCurlFS

/-- The three outcomes of `ensure_api_key`: a stored non-empty key is kept; else a
non-empty `PERPLEXITY_API_KEY` is copied into the state; else the call fails and
leaves the state alone. -/
theorem ensure_api_key_cases (env : NetEnv) (fs : State) :
    (strlen (fs.api_key.getD []) ≠ 0 → ensure_api_key env fs = (fs, none))
    ∧ (strlen (fs.api_key.getD []) = 0 → ∀ v, env.getenv "PERPLEXITY_API_KEY".data = some v →
        strlen v ≠ 0 → ensure_api_key env fs = ({ fs with api_key := some (c_str v) }, none))
    ∧ (strlen (fs.api_key.getD []) = 0 →
        strlen ((env.getenv "PERPLEXITY_API_KEY".data).getD []) = 0 →
        ensure_api_key env fs = (fs, some not_configured)) := by
  unfold ensure_api_key not_configured
  refine ⟨?_, ?_, ?_⟩
  · intro h
    have hpos : strlen (fs.api_key.getD []) > 0 := Nat.pos_of_ne_zero h
    simp only [hpos, if_true]
  · intro h v hv hne
    simp only [h, gt_iff_lt, lt_self_iff_false, if_false, hv, hne, ne_eq, not_false_eq_true,
      if_true, dup_string]
  · intro h hz
    simp only [h, gt_iff_lt, lt_self_iff_false, if_false]
    cases hg : env.getenv "PERPLEXITY_API_KEY".data with
    | none => rfl
    | some v =>
      have hv : strlen v = 0 := by simpa [hg] using hz
      simp only [hv, ne_eq, not_true_eq_false, if_false]

/-- A request write that finds no key fails with the not-configured error (or, for a
missing query, with the missing-query error), performs no remote call and
leaves the whole state unchanged. -/
theorem write_without_key (env : NetEnv) (fs : State) (data : List Char)
    (hk : strlen (fs.api_key.getD []) = 0)
    (hd : strlen ((env.getenv "PERPLEXITY_API_KEY".data).getD []) = 0) :
    (FSWrite env fs "/request" data).1 = fs
    ∧ (FSWrite env fs "/request" data).2.2 = []
    ∧ (has_query env fs data → (FSWrite env fs "/request" data).2.1 = some not_configured) := by
  have he := (ensure_api_key_cases env fs).2.2 hk hd
  unfold FSWrite handle_request_write perform_search has_query
  simp only [ne_eq, not_true_eq_false, if_false]
  cases hq : (parse_request env fs data).1 with
  | none =>
    refine ⟨rfl, rfl, ?_⟩
    rintro ⟨q, hq2, _⟩
    cases hq2
  | some query =>
    by_cases h0 : strlen query = 0
    · simp only [h0, if_true]
      refine ⟨trivial, trivial, ?_⟩
      rintro ⟨q, hq2, hne⟩
      cases hq2
      exact absurd h0 hne
    · simp only [h0, if_false, he]
      exact ⟨trivial, trivial, fun _ => trivial⟩

end SimpCurlFS

/-! ## Secret resolution -/

theorem nonempty_value_eq (v : Option (List Char)) :
    nonempty_value v = if strlen (v.getD []) ≠ 0 then some (c_str (v.getD [])) else none := by
  cases v with
  | none => simp [nonempty_value, strlen_nil]
  | some s => simp [nonempty_value]

theorem strlen_c_str (b : List Char) : strlen (c_str b) = strlen b := by
  unfold strlen
  rw [SkillFS.c_str_idem]

namespace SummaryFS

/-- The outcome of summaryfs `ensure_api_key` follows the resolution order: when a
secret resolves, the call succeeds, the state holds that secret as its key and
nothing else changes; when none resolves, the call fails with the not-configured
error and leaves the state alone. -/
theorem ensure_api_key_resolves (env : NetEnv) (fs : State) :
    match resolve_secret env.getenv fs.api_key fs.api_key_env "OPENAI_API_KEY".data with
    | some k =>
      (ensure_api_key env fs).2 = none
      ∧ c_str ((ensure_api_key env fs).1.api_key.getD []) = k
      ∧ (ensure_api_key env fs).1
          = { fs with api_key := (ensure_api_key env fs).1.api_key }
    | none => ensure_api_key env fs = (fs, some not_configured) := by
  unfold resolve_secret
  rw [nonempty_value_eq fs.api_key, nonempty_value_eq fs.api_key_env,
    nonempty_value_eq (env.getenv "OPENAI_API_KEY".data)]
  unfold ensure_api_key not_configured
  by_cases hk : strlen (fs.api_key.getD []) = 0
  · by_cases hn : strlen (fs.api_key_env.getD []) = 0
    · by_cases hd : strlen ((env.getenv "OPENAI_API_KEY".data).getD []) = 0
      · simp [hk, hn, hd, nonempty_value, strlen_nil]
      · cases hg : env.getenv "OPENAI_API_KEY".data with
        | none => simp [hg, strlen_nil] at hd
        | some v =>
          have hv : strlen v ≠ 0 := by simpa [hg] using hd
          simp [hk, hn, hv, nonempty_value, strlen_nil, dup_string, SkillFS.c_str_idem]
    · rw [nonempty_value_eq]
      by_cases he : strlen ((env.getenv (c_str (fs.api_key_env.getD []))).getD []) = 0
      · by_cases hd : strlen ((env.getenv "OPENAI_API_KEY".data).getD []) = 0
        · simp [hk, hn, hd, he]
        · cases hg : env.getenv "OPENAI_API_KEY".data with
          | none => simp [hg, strlen_nil] at hd
          | some v =>
            have hv : strlen v ≠ 0 := by simpa [hg] using hd
            simp [hk, hn, hv, he, dup_string, SkillFS.c_str_idem]
      · cases hg : env.getenv (c_str (fs.api_key_env.getD [])) with
        | none => simp [hg, strlen_nil] at he
        | some v =>
          have hv : strlen v ≠ 0 := by simpa [hg] using he
          simp [hk, hn, hv, hg, dup_string, SkillFS.c_str_idem]
  · simp [hk]

end SummaryFS

/-! ## The request write of summaryfs, case by case -/

namespace SummaryFS

theorem ensure_defaults_fields (fs : State) :
    (ensure_endpoint (ensure_model fs)).api_key = fs.api_key
    ∧ (ensure_endpoint (ensure_model fs)).api_key_env = fs.api_key_env
    ∧ (ensure_endpoint (ensure_model fs)).last_raw = fs.last_raw
    ∧ (ensure_endpoint (ensure_model fs)).last_summary = fs.last_summary := by
  unfold ensure_endpoint ensure_model
  cases fs.model <;> cases fs.endpoint <;> simp

/-- What `call_openai` does, following the resolution order of the secret. -/
theorem call_openai_cases (env : NetEnv) (fs : State) (prompt : List Char) :
    match resolve_secret env.getenv fs.api_key fs.api_key_env "OPENAI_API_KEY".data with
    | none =>
      (call_openai env fs prompt).2.1 = some not_configured
      ∧ (call_openai env fs prompt).2.2 = []
      ∧ (call_openai env fs prompt).1.last_raw = fs.last_raw
      ∧ (call_openai env fs prompt).1.last_summary = fs.last_summary
    | some k =>
      ∃ req, (call_openai env fs prompt).2.2 = [req]
        ∧ req.headers = ["Content-Type: application/json".data, auth_header 512 k]
        ∧ (call_openai env fs prompt).1.last_summary = fs.last_summary
        ∧ match env.curl_easy_perform req with
          | Except.error msg =>
            (call_openai env fs prompt).2.1 = some msg
            ∧ (call_openai env fs prompt).1.last_raw = fs.last_raw
          | Except.ok body =>
            (call_openai env fs prompt).2.1 = none
            ∧ (call_openai env fs prompt).1.last_raw = some body := by
  obtain ⟨f1, f2, f3, f4⟩ := ensure_defaults_fields fs
  have h := ensure_api_key_resolves env (ensure_endpoint (ensure_model fs))
  rw [f1, f2] at h
  cases hres : resolve_secret env.getenv fs.api_key fs.api_key_env "OPENAI_API_KEY".data with
  | none =>
    rw [hres] at h
    simp only at h ⊢
    unfold call_openai
    simp only [h]
    exact ⟨trivial, trivial, f3, f4⟩
  | some k =>
    rw [hres] at h
    simp only at h ⊢
    obtain ⟨h1, h2, h3⟩ := h
    have hraw : (ensure_api_key env (ensure_endpoint (ensure_model fs))).1.last_raw
        = fs.last_raw := by rw [h3]; exact f3
    have hsum : (ensure_api_key env (ensure_endpoint (ensure_model fs))).1.last_summary
        = fs.last_summary := by rw [h3]; exact f4
    refine ⟨chat_request env (ensure_api_key env (ensure_endpoint (ensure_model fs))).1 prompt,
      ?_, ?_, ?_, ?_⟩
    · unfold call_openai
      simp only [h1]
      split <;> rfl
    · simp only [chat_request, auth_header, h2]
    · unfold call_openai
      simp only [h1]
      split
      · exact hsum
      · exact hsum
    · unfold call_openai
      simp only [h1]
      split
      · rename_i msg hmsg
        simp only [hmsg]
        exact ⟨trivial, hraw⟩
      · rename_i body hbody
        simp only [hbody]
        exact ⟨trivial, trivial⟩

theorem extract_summary_cases (env : NetEnv) (fs : State) (body : List Char)
    (hraw : fs.last_raw = some body) :
    (extract_summary env fs).1.last_raw = some body
    ∧ match derived_summary env body with
      | some s => (extract_summary env fs).2 = none ∧ (extract_summary env fs).1.last_summary = some s
      | none =>
        (extract_summary env fs).2 = some "failed to parse LLM response"
        ∧ (extract_summary env fs).1.last_summary = fs.last_summary := by
  unfold extract_summary derived_summary
  simp only [hraw]
  cases hp : env.yyjson_read body with
  | none => exact ⟨hraw, rfl, rfl⟩
  | some root => exact ⟨rfl, rfl, by simp [dup_string]⟩

/-- Every outcome of a write to `/request` of summaryfs. -/
theorem summary_write_cases (env : NetEnv) (fs : State) (data : List Char) :
    (¬ has_text env data →
      FSWrite env fs "/request" data = (fs, some "request missing text", []))
    ∧ (has_text env data →
      match resolve_secret env.getenv fs.api_key fs.api_key_env "OPENAI_API_KEY".data with
      | none =>
        (FSWrite env fs "/request" data).2.1 = some not_configured
        ∧ (FSWrite env fs "/request" data).2.2 = []
        ∧ (FSWrite env fs "/request" data).1.last_raw = fs.last_raw
        ∧ (FSWrite env fs "/request" data).1.last_summary = fs.last_summary
      | some k =>
        ∃ req, (FSWrite env fs "/request" data).2.2 = [req]
          ∧ req.headers = ["Content-Type: application/json".data, auth_header 512 k]
          ∧ match env.curl_easy_perform req with
            | Except.error msg =>
              (FSWrite env fs "/request" data).2.1 = some msg
              ∧ (FSWrite env fs "/request" data).1.last_raw = fs.last_raw
              ∧ (FSWrite env fs "/request" data).1.last_summary = fs.last_summary
            | Except.ok body =>
              (FSWrite env fs "/request" data).1.last_raw = some body
              ∧ match derived_summary env body with
                | some s =>
                  (FSWrite env fs "/request" data).2.1 = none
                  ∧ (FSWrite env fs "/request" data).1.last_summary = some s
                | none =>
                  (FSWrite env fs "/request" data).2.1 = some "failed to parse LLM response"
                  ∧ (FSWrite env fs "/request" data).1.last_summary = fs.last_summary) := by
  have hw : FSWrite env fs "/request" data = handle_request env fs data := by
    unfold FSWrite
    simp
  rw [hw]
  unfold has_text
  constructor
  · intro h
    have h0 : strlen ((parse_request env data).1.getD []) = 0 := by omega
    unfold handle_request
    simp only [h0, if_true]
  · intro h
    have hc := call_openai_cases env fs
      (build_prompt fs ((parse_request env data).1.getD []) (parse_request env data).2)
    have hh : handle_request env fs data
        = match (call_openai env fs
            (build_prompt fs ((parse_request env data).1.getD []) (parse_request env data).2)).2.1 with
          | some err =>
            ((call_openai env fs (build_prompt fs ((parse_request env data).1.getD [])
                (parse_request env data).2)).1, some err,
              (call_openai env fs (build_prompt fs ((parse_request env data).1.getD [])
                (parse_request env data).2)).2.2)
          | none =>
            ((extract_summary env (call_openai env fs (build_prompt fs
                ((parse_request env data).1.getD []) (parse_request env data).2)).1).1,
              (extract_summary env (call_openai env fs (build_prompt fs
                ((parse_request env data).1.getD []) (parse_request env data).2)).1).2,
              (call_openai env fs (build_prompt fs ((parse_request env data).1.getD [])
                (parse_request env data).2)).2.2) := by
      unfold handle_request
      simp only [h, if_false]
    rw [hh]
    generalize call_openai env fs
      (build_prompt fs ((parse_request env data).1.getD []) (parse_request env data).2) = c at hc ⊢
    cases hres : resolve_secret env.getenv fs.api_key fs.api_key_env "OPENAI_API_KEY".data with
    | none =>
      rw [hres] at hc
      simp only at hc ⊢
      obtain ⟨h1, h2, h3, h4⟩ := hc
      simp only [h1]
      exact ⟨trivial, h2, h3, h4⟩
    | some k =>
      rw [hres] at hc
      simp only at hc ⊢
      obtain ⟨req, hcalls, hhead, hsum, hperf⟩ := hc
      refine ⟨req, ?_, hhead, ?_⟩
      · cases c.2.1 <;> exact hcalls
      · cases hp : env.curl_easy_perform req with
        | error msg =>
          rw [hp] at hperf
          simp only at hperf ⊢
          simp only [hperf.1]
          exact ⟨trivial, hperf.2, hsum⟩
        | ok body =>
          rw [hp] at hperf
          simp only at hperf ⊢
          simp only [hperf.1]
          have he := extract_summary_cases env c.1 body hperf.2
          refine ⟨he.1, ?_⟩
          cases hd : derived_summary env body with
          | none =>
            rw [hd] at he
            exact ⟨he.2.1, he.2.2.trans hsum⟩
          | some s =>
            rw [hd] at he
            exact he.2

end SummaryFS

/-! ## C11: missing secret -/

theorem resolve_secret_eq_none (getenv : List Char → Option (List Char))
    (explicit env_name : Option (List Char)) (d : List Char)
    (h : resolve_secret getenv explicit env_name d = none) :
    strlen (explicit.getD []) = 0 ∧ strlen ((getenv d).getD []) = 0
    ∧ nonempty_value ((nonempty_value env_name).bind getenv) = none := by
  unfold resolve_secret at h
  rw [nonempty_value_eq explicit, nonempty_value_eq (getenv d)] at h
  by_cases hk : strlen (explicit.getD []) = 0
  · cases hn : nonempty_value ((nonempty_value env_name).bind getenv) with
    | some k => simp [hk, hn] at h
    | none =>
      by_cases hd : strlen ((getenv d).getD []) = 0
      · exact ⟨hk, hd, rfl⟩
      · simp [hk, hn, hd] at h
  · simp [hk] at h

namespace SimpCurlFS

theorem env_key_branch (env : NetEnv) (fs : State) (ev : Option JVal) :
    (if is_str_val ev then
        match get_str_val ev with
        | some env_name =>
          if strlen env_name ≠ 0 then
            match env.getenv (c_str env_name) with
            | some env_val =>
              if strlen env_val ≠ 0 then { fs with api_key := dup_string (some env_val) }
              else fs
            | none => fs
          else fs
        | none => fs
      else fs).api_key
      = match nonempty_value ((nonempty_value (get_str_val ev)).bind env.getenv) with
        | some k => some k
        | none => fs.api_key := by
  cases ev with
  | none => rfl
  | some j =>
    cases j with
    | str s =>
      by_cases h0 : strlen s = 0
      · simp [is_str_val, yyjson_is_str, get_str_val, yyjson_get_str, nonempty_value, h0]
      · cases hg : env.getenv (c_str s) with
        | none =>
          simp [is_str_val, yyjson_is_str, get_str_val, yyjson_get_str, nonempty_value, h0, hg]
        | some v =>
          by_cases hv : strlen v = 0
          · simp [is_str_val, yyjson_is_str, get_str_val, yyjson_get_str, nonempty_value, h0, hg,
              hv]
          · simp [is_str_val, yyjson_is_str, get_str_val, yyjson_get_str, nonempty_value, h0, hg,
              hv, dup_string]
    | null => rfl
    | bool b => rfl
    | int i => rfl
    | real r => rfl
    | arr items => rfl
    | obj members => rfl

/-- The key `PluginInitialize` leaves in the state for a well-formed config: the
`api_key` string when that member is a string (whatever its length); else the
non-empty value of the variable named by a non-empty `api_key_env` string; else
the prior key. -/
theorem init_api_key (env : NetEnv) (fs : State) (text : List Char) (root : JVal)
    (hne : strlen text ≠ 0) (hparse : env.yyjson_read (c_str text) = some root) :
    (PluginInitialize env fs (some text)).1.api_key
      = match yyjson_obj_get root "api_key".data with
        | some (JVal.str s) => some (c_str s)
        | _ =>
          match nonempty_value
              ((nonempty_value (get_str_val (yyjson_obj_get root "api_key_env".data))).bind
                env.getenv) with
          | some k => some k
          | none => fs.api_key := by
  have hcfg : (PluginInitialize env fs (some text)).1.api_key
      = (apply_config env fs (some text)).1.api_key := by
    unfold PluginInitialize
    generalize apply_config env fs (some text) = r
    obtain ⟨s, e⟩ := r
    cases e <;> rfl
  rw [hcfg]
  unfold apply_config
  simp only [hne, if_false, hparse]
  have hfield : ∀ (a : State) (p q : Bool) (e : Option (List Char)) (m : Int),
      (if q = true then { (if p = true then { a with endpoint := e } else a) with
          default_max_results := m }
        else (if p = true then { a with endpoint := e } else a)).api_key = a.api_key := by
    intro a p q e m
    cases p <;> cases q <;> rfl
  rw [hfield]
  have hb := env_key_branch env fs (yyjson_obj_get root "api_key_env".data)
  cases hk : yyjson_obj_get root "api_key".data with
  | none => exact hb
  | some j =>
    cases j with
    | str s => rfl
    | null => exact hb
    | bool b => exact hb
    | int i => exact hb
    | real r => exact hb
    | arr items => exact hb
    | obj members => exact hb

end SimpCurlFS

theorem resolve_secret_none_of_empty (getenv : List Char → Option (List Char))
    (explicit env_name : Option (List Char)) (d : List Char)
    (hk : strlen (explicit.getD []) = 0)
    (hn : nonempty_value ((nonempty_value env_name).bind getenv) = none)
    (hd : strlen ((getenv d).getD []) = 0) :
    resolve_secret getenv explicit env_name d = none := by
  unfold resolve_secret
  rw [nonempty_value_eq explicit, nonempty_value_eq (getenv d), hn]
  simp [hk, hd]

theorem SimpCurlFS.write_unresolved (env : NetEnv) (fs : SimpCurlFS.State) (data : List Char)
    (h : resolve_secret env.getenv fs.api_key none "PERPLEXITY_API_KEY".data = none)
    (hq : SimpCurlFS.has_query env fs data) :
    (SimpCurlFS.FSWrite env fs "/request" data).2.1 = some SimpCurlFS.not_configured
    ∧ (SimpCurlFS.FSWrite env fs "/request" data).2.2 = []
    ∧ (SimpCurlFS.FSWrite env fs "/request" data).1.last_response = fs.last_response
    ∧ (SimpCurlFS.FSWrite env fs "/request" data).1.pretty_summary = fs.pretty_summary := by
  obtain ⟨hk, hd, _⟩ := resolve_secret_eq_none _ _ _ _ h
  obtain ⟨h1, h2, h3⟩ := SimpCurlFS.write_without_key env fs data hk hd
  exact ⟨h3 hq, h2, by rw [h1], by rw [h1]⟩

set_option maxRecDepth 20000 in
/-- C12 at the failing input: simpcurlfs is configured with
`{"api_key":"","api_key_env":"MY_KEY"}` while `MY_KEY` holds `k-env`. The
resolution order gives `k-env`, and summaryfs, configured the same way, sends
`k-env`. simpcurlfs stores the empty `api_key` and never looks at `api_key_env`:
with `PERPLEXITY_API_KEY` unset the write of `q` to `/request` fails with the
not-configured error and no remote call, and with `PERPLEXITY_API_KEY` holding
`k-default` the call carries `k-default`. -/
theorem C12_secret_resolution_order :
    resolve_secret (named_key_env [("MY_KEY", "k-env")]).getenv
        (get_str_val (yyjson_obj_get SimpCurlFS.empty_key_doc "api_key".data))
        (get_str_val (yyjson_obj_get SimpCurlFS.empty_key_doc "api_key_env".data))
        "PERPLEXITY_API_KEY".data = some "k-env".data
    ∧ (SimpCurlFS.PluginInitialize (named_key_env [("MY_KEY", "k-env")]) SimpCurlFS.PluginNew
        (some SimpCurlFS.empty_key_config)).2 = none
    ∧ (SimpCurlFS.FSWrite (named_key_env [("MY_KEY", "k-env")])
        (SimpCurlFS.empty_key_state [("MY_KEY", "k-env")]) "/request" "q".data).2.1
        = some SimpCurlFS.not_configured
    ∧ (SimpCurlFS.FSWrite (named_key_env [("MY_KEY", "k-env")])
        (SimpCurlFS.empty_key_state [("MY_KEY", "k-env")]) "/request" "q".data).2.2 = []
    ∧ ((SimpCurlFS.FSWrite
          (named_key_env [("MY_KEY", "k-env"), ("PERPLEXITY_API_KEY", "k-default")])
          (SimpCurlFS.empty_key_state [("MY_KEY", "k-env"), ("PERPLEXITY_API_KEY", "k-default")])
          "/request" "q".data).2.2.map (fun r => r.headers))
        = [["Content-Type: application/json".data, "Authorization: Bearer k-default".data]]
    ∧ ((SummaryFS.FSWrite (named_key_env [("MY_KEY", "k-env")])
          (SummaryFS.empty_key_state [("MY_KEY", "k-env")]) "/request" "q".data).2.2.map
          (fun r => r.headers))
        = [["Content-Type: application/json".data, "Authorization: Bearer k-env".data]] := by
  decide

/-! ## C13: atomic update in summaryfs -/

set_option maxRecDepth 20000 in
/-- C13 at the failing input: summaryfs holds the response `chat_body` with its
summary `S1`; the next write to `/request` is answered with `oops`, which is not
JSON. The write returns the error `failed to parse LLM response`, yet `last_raw`
is now `oops` while `last_summary` is still `S1`: `/response.json` serves the new
body and `/response.txt` the summary of the older one. -/
theorem C13_atomic_update_broken :
    SummaryFS.summarized_state.last_raw = some chat_body
    ∧ SummaryFS.summarized_state.last_summary = some "S1".data
    ∧ SummaryFS.derived_summary garbled_env "oops".data = none
    ∧ (SummaryFS.FSWrite garbled_env SummaryFS.summarized_state "/request" "again".data).2.1
        = some "failed to parse LLM response"
    ∧ ((SummaryFS.FSWrite garbled_env SummaryFS.summarized_state "/request" "again".data).2.2).length
        = 1
    ∧ (SummaryFS.FSWrite garbled_env SummaryFS.summarized_state "/request" "again".data).1.last_raw
        = some "oops".data
    ∧ (SummaryFS.FSWrite garbled_env SummaryFS.summarized_state "/request"
        "again".data).1.last_summary = some "S1".data
    ∧ (SummaryFS.FSRead
        (SummaryFS.FSWrite garbled_env SummaryFS.summarized_state "/request" "again".data).1
        "/response.json" 0 (-1)).2 = ReadResult.data "oops".data 4
    ∧ (SummaryFS.FSRead
        (SummaryFS.FSWrite garbled_env SummaryFS.summarized_state "/request" "again".data).1
        "/response.txt" 0 (-1)).2 = ReadResult.data "S1".data 2 := by
  decide

/-! ## C14: parse errors of simpcurlfs are not hard failures -/

/-- A request write of simpcurlfs that performs the remote call `req` ends as the
result of that call says: on an error with that message and the state `fs1` (the
state with the resolved key); on success without error, `fs1` with the body stored
and its formatted summary. -/
theorem SimpCurlFS.write_call_cases (env : NetEnv) (fs : SimpCurlFS.State) (data : List Char)
    (req : HttpRequest) (hcall : (SimpCurlFS.FSWrite env fs "/request" data).2.2 = [req]) :
    ∃ (fs1 : SimpCurlFS.State) (m : Int),
      match env.curl_easy_perform req with
      | Except.error msg => SimpCurlFS.FSWrite env fs "/request" data = (fs1, some msg, [req])
      | Except.ok body =>
        SimpCurlFS.FSWrite env fs "/request" data
          = ({ fs1 with
                last_response := some body
                pretty_summary := SimpCurlFS.format_results env body m }, none, [req]) := by
  unfold SimpCurlFS.FSWrite SimpCurlFS.handle_request_write at hcall ⊢
  simp only [ne_eq, not_true_eq_false, if_false] at hcall ⊢
  cases hq : (SimpCurlFS.parse_request env fs data).1 with
  | none =>
    rw [hq] at hcall
    cases hcall
  | some query =>
    rw [hq] at hcall
    simp only at hcall ⊢
    by_cases h0 : strlen query = 0
    · simp only [h0, if_true] at hcall
      cases hcall
    · simp only [h0, if_false] at hcall ⊢
      unfold SimpCurlFS.perform_search at hcall ⊢
      cases hk : (SimpCurlFS.ensure_api_key env fs).2 with
      | some e =>
        simp only [hk] at hcall
        cases hcall
      | none =>
        simp only [hk] at hcall ⊢
        have hreq : req = SimpCurlFS.search_request (SimpCurlFS.ensure_api_key env fs).1 query
            (if (SimpCurlFS.parse_request env fs data).2 ≤ 0 then
              (SimpCurlFS.ensure_api_key env fs).1.default_max_results
             else (SimpCurlFS.parse_request env fs data).2) := by
          split at hcall <;> simp only [List.cons.injEq, and_true] at hcall <;> exact hcall.symm
        refine ⟨(SimpCurlFS.ensure_api_key env fs).1,
          (if (SimpCurlFS.parse_request env fs data).2 ≤ 0 then
              (SimpCurlFS.ensure_api_key env fs).1.default_max_results
             else (SimpCurlFS.parse_request env fs data).2), ?_⟩
        rw [hreq]
        split <;> rename_i h <;> simp only [h]

theorem SimpCurlFS.parse_failure_text :
    dup_string (some "Failed to parse JSON response\n".data)
      = some "Failed to parse JSON response\n".data := by
  decide

theorem SimpCurlFS.no_results_text :
    (SimpCurlFS.put (none, 0) "No 'results' array in response\n".data).1
      = some "No 'results' array in response\n".data := by
  decide

theorem SimpCurlFS.read_summary_text (fs : SimpCurlFS.State) (s : List Char)
    (h : fs.pretty_summary = some s) :
    (SimpCurlFS.FSRead fs "/response.txt" 0 (-1)).2 = read_slice (c_str s) 0 (-1) := by
  have hp : ("/response.txt" : String) ≠ "/response.json" := by decide
  unfold SimpCurlFS.FSRead
  simp only [hp, if_false, if_true, h]
  exact read_slice_unchecked_eq _ 0 (-1) (le_refl 0)

/-- C14. In simpcurlfs, whenever a write to `/request` performs the remote call
`req` and that call succeeds with the body `body`, the write returns success,
`last_response` is the whole body (and a whole read of `/response.json` returns
it); when `body` is not valid JSON, a whole read of `/response.txt` returns the
placeholder `Failed to parse JSON response\n`; when `body` is valid JSON without
a `results` array, it returns the placeholder `No 'results' array in response\n`. -/
theorem C14_parse_errors_are_soft (env : NetEnv) (fs : SimpCurlFS.State) (data : List Char)
    (req : HttpRequest) (body : List Char)
    (hcall : (SimpCurlFS.FSWrite env fs "/request" data).2.2 = [req])
    (hok : env.curl_easy_perform req = Except.ok body) :
    (SimpCurlFS.FSWrite env fs "/request" data).2.1 = none
    ∧ (SimpCurlFS.FSWrite env fs "/request" data).1.last_response = some body
    ∧ (SimpCurlFS.FSRead (SimpCurlFS.FSWrite env fs "/request" data).1 "/response.json" 0 (-1)).2
        = ReadResult.data body body.length
    ∧ (env.yyjson_read body = none →
        (SimpCurlFS.FSRead (SimpCurlFS.FSWrite env fs "/request" data).1 "/response.txt" 0 (-1)).2
          = ReadResult.data "Failed to parse JSON response\n".data 30)
    ∧ (∀ root, env.yyjson_read body = some root → has_results_array root = false →
        (SimpCurlFS.FSRead (SimpCurlFS.FSWrite env fs "/request" data).1 "/response.txt" 0 (-1)).2
          = ReadResult.data "No 'results' array in response\n".data 31) := by
  obtain ⟨fs1, m, hw⟩ := SimpCurlFS.write_call_cases env fs data req hcall
  rw [hok] at hw
  simp only at hw
  rw [hw]
  refine ⟨rfl, rfl, ?_, ?_, ?_⟩
  · simp only [SimpCurlFS.FSRead, if_true]
    rw [read_slice_unchecked_eq body 0 (-1) (le_refl 0)]
    exact read_slice_whole body
  · intro hp
    have hf : SimpCurlFS.format_results env body m
        = some "Failed to parse JSON response\n".data := by
      unfold SimpCurlFS.format_results
      rw [hp]
      exact SimpCurlFS.parse_failure_text
    rw [SimpCurlFS.read_summary_text _ _ hf]
    decide
  · intro root hp hr
    have hf : SimpCurlFS.format_results env body m
        = some "No 'results' array in response\n".data := by
      unfold SimpCurlFS.format_results
      rw [hp]
      dsimp only
      unfold has_results_array at hr
      cases hres : yyjson_obj_get root "results".data with
      | none => exact SimpCurlFS.no_results_text
      | some r =>
        rw [hres] at hr
        dsimp only at hr ⊢
        rw [if_pos (by rw [hr]; decide)]
        exact SimpCurlFS.no_results_text
    rw [SimpCurlFS.read_summary_text _ _ hf]
    decide

set_option maxRecDepth 20000 in
/-- A fresh simpcurlfs plugin with the key `k` in the environment, asked `q`: when
the remote end answers `oops`, `/response.txt` serves the parse-failure
placeholder; when it answers `{}`, the placeholder for a missing `results` array. -/
theorem C14_parse_errors_are_soft_witness :
    (SimpCurlFS.FSRead
        (SimpCurlFS.FSWrite (search_env "oops".data) SimpCurlFS.PluginNew "/request" "q".data).1
        "/response.txt" 0 (-1)).2 = ReadResult.data "Failed to parse JSON response\n".data 30
    ∧ (SimpCurlFS.FSRead
        (SimpCurlFS.FSWrite (search_env "\x7b\x7d".data) SimpCurlFS.PluginNew "/request"
          "q".data).1
        "/response.txt" 0 (-1)).2 = ReadResult.data "No 'results' array in response\n".data 31 :=
  ⟨(C14_parse_errors_are_soft (search_env "oops".data) SimpCurlFS.PluginNew "q".data
      SimpCurlFS.sample_request "oops".data (by decide) rfl).2.2.2.1 rfl,
    (C14_parse_errors_are_soft (search_env "\x7b\x7d".data) SimpCurlFS.PluginNew "q".data
      SimpCurlFS.sample_request "\x7b\x7d".data (by decide) rfl).2.2.2.2 (JVal.obj [])
      rfl rfl⟩

/-! ## C15: empty and blank payloads -/

theorem SkillFS.skill_config_absent (env : Env) (fs : SkillFS.State)
    (config_json : Option (List Char)) (h : config_absent config_json) :
    SkillFS.apply_config env fs config_json = (fs, none) := by
  unfold SkillFS.apply_config
  cases config_json with
  | none => rfl
  | some text =>
    have h0 : strlen text = 0 := h
    simp only [h0, if_true]

theorem SummaryFS.summary_config_absent (env : NetEnv) (fs : SummaryFS.State)
    (config_json : Option (List Char)) (h : config_absent config_json) :
    SummaryFS.apply_config env fs config_json = (fs, none) := by
  unfold SummaryFS.apply_config
  cases config_json with
  | none => rfl
  | some text =>
    have h0 : strlen text = 0 := h
    simp only [h0, if_true]

theorem SimpCurlFS.search_config_absent (env : NetEnv) (fs : SimpCurlFS.State)
    (config_json : Option (List Char)) (h : config_absent config_json) :
    SimpCurlFS.apply_config env fs config_json = (fs, none) := by
  unfold SimpCurlFS.apply_config
  cases config_json with
  | none => rfl
  | some text =>
    have h0 : strlen text = 0 := h
    simp only [h0, if_true]

/-- C21. In the three plugins, for every state and every config text that is
non-empty (as a C string) and that the parser rejects, `PluginInitialize` returns
the error `invalid config json` and the state is the one before the call, field
by field (so `initialized` is not set, and in skillsfs neither the log nor the
status snapshot changes). For an absent or empty config text `PluginInitialize`
returns success, sets `initialized` and keeps every setting: in the eager
plugins the state is the prior one with `initialized` set; in skillsfs the
settings, the payload and the result are the prior ones. -/
theorem C21_malformed_config :
    (∀ (env : Env) (fs : SkillFS.State) (text : List Char),
      strlen text ≠ 0 → env.yyjson_read (c_str text) = none →
      SkillFS.PluginInitialize env fs (some text) = (fs, some "invalid config json"))
    ∧ (∀ (env : NetEnv) (fs : SummaryFS.State) (text : List Char),
      strlen text ≠ 0 → env.yyjson_read (c_str text) = none →
      SummaryFS.PluginInitialize env fs (some text) = (fs, some "invalid config json"))
    ∧ (∀ (env : NetEnv) (fs : SimpCurlFS.State) (text : List Char),
      strlen text ≠ 0 → env.yyjson_read (c_str text) = none →
      SimpCurlFS.PluginInitialize env fs (some text) = (fs, some "invalid config json"))
    ∧ (∀ (env : Env) (fs : SkillFS.State) (config_json : Option (List Char)),
      config_absent config_json →
      (SkillFS.PluginInitialize env fs config_json).2 = none
      ∧ (SkillFS.PluginInitialize env fs config_json).1.initialized = true
      ∧ (SkillFS.PluginInitialize env fs config_json).1.skill_name = fs.skill_name
      ∧ (SkillFS.PluginInitialize env fs config_json).1.metadata = fs.metadata
      ∧ (SkillFS.PluginInitialize env fs config_json).1.instructions = fs.instructions
      ∧ (SkillFS.PluginInitialize env fs config_json).1.cache_ttl_seconds
          = fs.cache_ttl_seconds
      ∧ (SkillFS.PluginInitialize env fs config_json).1.last_params = fs.last_params
      ∧ (SkillFS.PluginInitialize env fs config_json).1.last_result = fs.last_result
      ∧ (SkillFS.PluginInitialize env fs config_json).1.pending = fs.pending)
    ∧ (∀ (env : NetEnv) (fs : SummaryFS.State) (config_json : Option (List Char)),
      config_absent config_json →
      SummaryFS.PluginInitialize env fs config_json = ({ fs with initialized := true }, none))
    ∧ (∀ (env : NetEnv) (fs : SimpCurlFS.State) (config_json : Option (List Char)),
      config_absent config_json →
      SimpCurlFS.PluginInitialize env fs config_json
        = ({ fs with initialized := true }, none)) := by
  refine ⟨?_, ?_, ?_, ?_, ?_, ?_⟩
  · intro env fs text hne hparse
    unfold SkillFS.PluginInitialize SkillFS.apply_config
    simp only [hne, if_false, hparse]
  · intro env fs text hne hparse
    unfold SummaryFS.PluginInitialize SummaryFS.apply_config
    simp only [hne, if_false, hparse]
  · intro env fs text hne hparse
    unfold SimpCurlFS.PluginInitialize SimpCurlFS.apply_config
    simp only [hne, if_false, hparse]
  · intro env fs config_json h
    unfold SkillFS.PluginInitialize
    rw [SkillFS.skill_config_absent env fs config_json h]
    simp
  · intro env fs config_json h
    unfold SummaryFS.PluginInitialize
    rw [SummaryFS.summary_config_absent env fs config_json h]
  · intro env fs config_json h
    unfold SimpCurlFS.PluginInitialize
    rw [SimpCurlFS.search_config_absent env fs config_json h]

set_option maxRecDepth 8000 in
/-- The text `oops` is rejected by the three plugins, each fresh and left as it
was; the empty text is accepted by skillsfs, which keeps its default TTL of 3600. -/
theorem C21_malformed_config_witness :
    SkillFS.PluginInitialize (SkillFS.test_env 6) (SkillFS.PluginNew (SkillFS.test_env 5))
        (some "oops".data)
      = (SkillFS.PluginNew (SkillFS.test_env 5), some "invalid config json")
    ∧ SummaryFS.PluginInitialize chat_env SummaryFS.PluginNew (some "oops".data)
      = (SummaryFS.PluginNew, some "invalid config json")
    ∧ SimpCurlFS.PluginInitialize chat_env SimpCurlFS.PluginNew (some "oops".data)
      = (SimpCurlFS.PluginNew, some "invalid config json")
    ∧ (SkillFS.PluginInitialize (SkillFS.test_env 6) (SkillFS.PluginNew (SkillFS.test_env 5))
        (some [])).1.cache_ttl_seconds = 3600 :=
  ⟨C21_malformed_config.1 (SkillFS.test_env 6) (SkillFS.PluginNew (SkillFS.test_env 5))
      "oops".data (by decide) rfl,
    C21_malformed_config.2.1 chat_env SummaryFS.PluginNew "oops".data (by decide) rfl,
    C21_malformed_config.2.2.1 chat_env SimpCurlFS.PluginNew "oops".data (by decide) rfl,
    (C21_malformed_config.2.2.2.1 (SkillFS.test_env 6) (SkillFS.PluginNew (SkillFS.test_env 5))
      (some []) rfl).2.2.2.2.2.1.trans (by decide)⟩

/-! ## C22: reads at negative offsets -/

/-- At an offset that is not negative the slicing tail returns a contiguous part
of the value, no longer than the value, and reports its length. -/
theorem read_slice_within (v : List Char) (offset size : Int) (h : 0 ≤ offset) :
    ∃ bytes, read_slice v offset size = ReadResult.data bytes bytes.length
      ∧ bytes.length ≤ v.length ∧ bytes <:+: v := by
  rw [read_slice_eq_spec v offset size h]
  unfold slice_spec
  have hk : slice_len v.length offset size ≤ v.length - offset.toNat := by
    unfold slice_len
    by_cases h1 : offset ≥ (v.length : Int)
    · simp [h1]
    · by_cases h2 : size > 0
      · simp only [h1, h2, if_false, if_true]
        exact Nat.min_le_right _ _
      · simp [h1, h2]
  have hlen : ((v.drop offset.toNat).take (slice_len v.length offset size)).length
      = slice_len v.length offset size := by
    rw [List.length_take, List.length_drop]
    exact Nat.min_eq_left hk
  refine ⟨(v.drop offset.toNat).take (slice_len v.length offset size), ?_, ?_, ?_⟩
  · rw [hlen]
  · rw [hlen]
    omega
  · exact (List.take_prefix _ _).isInfix.trans (List.drop_suffix _ _).isInfix

/-- For a value whose length is below `INT64_MAX`, every offset from `INT64_MIN` up
to `INT64_MIN + len` makes the difference wrap below zero and the allocation fail. -/
theorem read_slice_wrapped (v : List Char) (offset size : Int)
    (hlen : (v.length : Int) + 1 < 9223372036854775808)
    (h1 : -9223372036854775808 ≤ offset)
    (h2 : offset ≤ -9223372036854775808 + (v.length : Int)) :
    read_slice v offset size = ReadResult.error "allocation failure" := by
  have hneg : offset < 0 := by omega
  rw [read_slice_negative v offset size hneg]
  have hrem : remaining_bytes v.length offset
      = (v.length : Int) - offset - 18446744073709551616 := by
    unfold remaining_bytes to_int64
    have hn : ¬ (0 ≤ offset) := by omega
    rw [if_neg hn]
    omega
  have hm : malloc_fails (read_len_of v.length offset size) := by
    unfold malloc_fails read_len_of
    rw [hrem]
    by_cases hs : size > 0 ∧ size < (v.length : Int) - offset - 18446744073709551616
    · omega
    · rw [if_neg hs]
      omega
  rw [if_pos hm]

/-- While `len - offset` stays within `int64_t`, a negative offset gives a length
of more than `len`, or the positive `size`, and a copy from before the value. -/
theorem read_slice_negative_near (v : List Char) (offset size : Int) (h : offset < 0)
    (hr : (v.length : Int) - offset < 9223372036854775808) :
    read_slice v offset size
      = ReadResult.out_of_bounds
          (if size > 0 ∧ size < (v.length : Int) - offset then size
           else (v.length : Int) - offset)
    ∧ 0 < (if size > 0 ∧ size < (v.length : Int) - offset then size
           else (v.length : Int) - offset) := by
  have hrem : remaining_bytes v.length offset = (v.length : Int) - offset := by
    unfold remaining_bytes to_int64
    have hn : ¬ (0 ≤ offset) := by omega
    rw [if_neg hn]
    omega
  have hlen : read_len_of v.length offset size
      = if size > 0 ∧ size < (v.length : Int) - offset then size
        else (v.length : Int) - offset := by
    unfold read_len_of
    rw [hrem]
  have hpos : 0 < (if size > 0 ∧ size < (v.length : Int) - offset then size
           else (v.length : Int) - offset) := by
    by_cases hs : size > 0 ∧ size < (v.length : Int) - offset
    · rw [if_pos hs]
      exact hs.1
    · rw [if_neg hs]
      omega
  refine ⟨?_, hpos⟩
  rw [read_slice_negative v offset size h, hlen]
  have hm : ¬ malloc_fails (if size > 0 ∧ size < (v.length : Int) - offset then size
           else (v.length : Int) - offset) := by
    unfold malloc_fails
    omega
  rw [if_neg hm]

set_option maxRecDepth 8000 in
/-- C22 at the failing input: a fresh skillsfs plugin serves the 13 bytes
`owner=unknown` at `/metadata`. `FSRead("/metadata", -1, -1)` computes a length of
14, more than the content holds, and copies from one byte before the buffer;
`FSRead("/metadata", -5, 3)` copies 3 bytes from before the buffer. The slicing
tails of summaryfs and simpcurlfs do the same on their placeholders of 15 and 16
bytes. -/
theorem C22_negative_offset_out_of_bounds :
    SkillFS.cached_value (SkillFS.PluginNew (SkillFS.test_env 5)) "/metadata"
        = some "owner=unknown".data
    ∧ "owner=unknown".data.length = 13
    ∧ (SkillFS.FSRead (SkillFS.test_env 9) (SkillFS.PluginNew (SkillFS.test_env 5))
        "/metadata" (-1) (-1)).2 = ReadResult.out_of_bounds 14
    ∧ (SkillFS.FSRead (SkillFS.test_env 9) (SkillFS.PluginNew (SkillFS.test_env 5))
        "/metadata" (-5) 3).2 = ReadResult.out_of_bounds 3
    ∧ (SummaryFS.FSRead SummaryFS.PluginNew "/response.txt" (-1) (-1)).2
        = ReadResult.out_of_bounds 16
    ∧ (SummaryFS.FSRead SummaryFS.PluginNew "/response.json" (-1) (-1)).2
        = ReadResult.out_of_bounds 17
    ∧ (SimpCurlFS.FSRead SimpCurlFS.PluginNew "/response.txt" (-1) (-1)).2
        = ReadResult.out_of_bounds 17 := by
  decide

/-! ## C23: the placeholder of simpcurlfs `/response.json` -/

/-- Without a stored response, every read of `/response.json` in simpcurlfs returns
the whole placeholder and reports 16 bytes, whatever the offset and the size. -/
theorem SimpCurlFS.placeholder_read (fs : SimpCurlFS.State) (offset size : Int)
    (h : fs.last_response = none) :
    SimpCurlFS.FSRead fs "/response.json" offset size
      = (fs, ReadResult.data "No response yet\n".data 16) := by
  unfold SimpCurlFS.FSRead
  rw [if_pos rfl, h]
  exact congrArg (Prod.mk fs) (by decide)

set_option maxRecDepth 8000 in
/-- C23 at the failing input: a fresh simpcurlfs plugin holds no response.
`FSRead("/response.json", 16, -1)` returns the 16 bytes of the placeholder with
`out_len = 16` where the offset rule gives no bytes and `out_len = 0`, and
`FSRead("/response.json", 3, 4)` returns the same 16 bytes where the rule gives the
4 bytes `resp`. The sibling `/response.txt` of the same plugin and
`/response.json` of summaryfs, serving their placeholders, follow the rule. -/
theorem C23_placeholder_ignores_offset :
    SimpCurlFS.PluginNew.last_response = none
    ∧ (SimpCurlFS.FSRead SimpCurlFS.PluginNew "/response.json" 16 (-1)).2
        = ReadResult.data "No response yet\n".data 16
    ∧ slice_spec "No response yet\n".data 16 (-1) = ReadResult.data [] 0
    ∧ (SimpCurlFS.FSRead SimpCurlFS.PluginNew "/response.json" 3 4).2
        = ReadResult.data "No response yet\n".data 16
    ∧ slice_spec "No response yet\n".data 3 4 = ReadResult.data "resp".data 4
    ∧ (SimpCurlFS.FSRead SimpCurlFS.PluginNew "/response.txt" 16 (-1)).2 = ReadResult.data [] 0
    ∧ (SimpCurlFS.FSRead SimpCurlFS.PluginNew "/response.txt" 3 4).2
        = ReadResult.data "resp".data 4
    ∧ (SummaryFS.FSRead SummaryFS.PluginNew "/response.json" 16 (-1)).2
        = ReadResult.data [] 0 := by
  decide

/-! ## C24: JSON escaping of the skill name -/

theorem map_cons_covered (c : Char) (t : List Char) (hc : escape_covers c = true) :
    (if t.all escape_covers = true then some t else none).map (fun r => c :: r)
      = if (c :: t).all escape_covers = true then some (c :: t) else none := by
  cases ht : t.all escape_covers <;> simp [List.all_cons, hc, ht]

/-- The reader applied to the escaped text of `s` followed by the closing quote
gives back `s` when every character of `s` is one `json_escape` covers, and
refuses the text otherwise. -/
theorem decode_escaped (s : List Char) :
    decode_body DecodeState.normal (s.flatMap SkillFS.json_escape_char ++ ['\"'])
      = if s.all escape_covers = true then some s else none := by
  induction s with
  | nil => rfl
  | cons c t ih =>
    rw [List.flatMap_cons, List.append_assoc]
    by_cases h1 : c = '\\'
    · subst h1
      have hc : escape_covers '\\' = true := by decide
      rw [← map_cons_covered _ t hc, ← ih]
      rfl
    by_cases h2 : c = '\"'
    · subst h2
      have hc : escape_covers '\"' = true := by decide
      rw [← map_cons_covered _ t hc, ← ih]
      rfl
    by_cases h3 : c = '\n'
    · subst h3
      have hc : escape_covers '\n' = true := by decide
      rw [← map_cons_covered _ t hc, ← ih]
      rfl
    by_cases h4 : c = '\r'
    · subst h4
      have hc : escape_covers '\r' = true := by decide
      rw [← map_cons_covered _ t hc, ← ih]
      rfl
    by_cases h5 : c = '\t'
    · subst h5
      have hc : escape_covers '\t' = true := by decide
      rw [← map_cons_covered _ t hc, ← ih]
      rfl
    have hesc : SkillFS.json_escape_char c = [c] := by
      simp [SkillFS.json_escape_char, h1, h2, h3, h4, h5]
    rw [hesc]
    show decode_body DecodeState.normal (c :: (t.flatMap SkillFS.json_escape_char ++ ['\"'])) = _
    unfold decode_body
    simp only [h1, h2, if_false]
    by_cases hlt : c.toNat < 32
    · have hc : escape_covers c = false := by
        simp [escape_covers, h3, h4, h5]
        omega
      simp [hlt, List.all_cons, hc]
    · have hc : escape_covers c = true := by
        simp [escape_covers]
        left
        omega
      rw [← map_cons_covered _ t hc, ← ih]
      simp only [hlt, if_false]

/-- For a string without NUL whose characters `json_escape` covers, the escaped
text enclosed in double quotes is a well-formed string literal denoting the
string; for a string without NUL holding any other character it is not
well-formed. -/
theorem json_escape_decodes (s : List Char) (hnul : NUL ∉ s) :
    json_string_decode (quoted (SkillFS.json_escape (some s)))
      = if s.all escape_covers = true then some s else none := by
  have h : SkillFS.json_escape (some s) = s.flatMap SkillFS.json_escape_char := by
    show (c_str s).flatMap SkillFS.json_escape_char = _
    rw [c_str_of_no_nul s hnul]
  rw [h]
  show (if '\"' = '\"' then
      decode_body DecodeState.normal (s.flatMap SkillFS.json_escape_char ++ ['\"'])
    else none) = _
  rw [if_pos rfl]
  exact decode_escaped s

set_option maxRecDepth 20000 in
/-- C24 at the failing input: the skill name `a`, U+0001, `b` has no zero byte.
`json_escape` returns it as it is, so the text enclosed in double quotes holds an
unescaped control character and is not a well-formed JSON string literal; after
`PluginInitialize` with the config `{"skill_name":"a\u0001b"}` the status snapshot
carries that text as the value of `skill`. -/
theorem C24_control_character_unescaped :
    NUL ∉ SkillFS.control_name
    ∧ SkillFS.json_escape (some SkillFS.control_name) = SkillFS.control_name
    ∧ json_string_decode (quoted (SkillFS.json_escape (some SkillFS.control_name))) = none
    ∧ (SkillFS.PluginInitialize (SkillFS.control_name_env 6)
        (SkillFS.PluginNew (SkillFS.test_env 5)) (some SkillFS.control_name_config)).2 = none
    ∧ (SkillFS.PluginInitialize (SkillFS.control_name_env 6)
        (SkillFS.PluginNew (SkillFS.test_env 5)) (some SkillFS.control_name_config)).1.status_json
        = some ("\x7b\"skill\":".data ++ quoted SkillFS.control_name
            ++ (",\"state\":\"idle\",\"pending\":false,\"cache_hit\":false,"
              ++ "\"last_execution\":\"\",\"duration_ms\":0.00\x7d").data) := by
  decide

/-! ## C25: the stored result belongs to the stored payload -/

namespace SkillFS

/-- The result `run_skill` stores is the transcript of the execution it performs. -/
theorem run_skill_transcript (env : Env) (fs : State) (hp : has_payload fs) :
    (run_skill env fs).1.last_result = some (transcript (execution_of env fs)) := by
  obtain ⟨params, hpar, h0⟩ := hp
  unfold run_skill
  simp only [hpar, h0, if_false]
  simp [transcript, execution_of, snprintf, result_text, hpar]

theorem init_frame (env : Env) (fs : State) (config_json : Option (List Char)) :
    (PluginInitialize env fs config_json).1.pending = fs.pending
    ∧ (PluginInitialize env fs config_json).1.last_result = fs.last_result
    ∧ (PluginInitialize env fs config_json).1.last_params = fs.last_params := by
  simp only [PluginInitialize, apply_config]
  cases config_json with
  | none => simp
  | some text =>
    by_cases h0 : strlen text = 0
    · simp [h0]
    · cases hj : env.yyjson_read (c_str text) with
      | none => simp [h0, hj]
      | some root => simp [h0, hj]

theorem write_frame (env : Env) (fs : State) (path : String) (data : List Char)
    (hpath : path ≠ "/execute") :
    (FSWrite env fs path data).1.pending = fs.pending
    ∧ (FSWrite env fs path data).1.last_result = fs.last_result
    ∧ (FSWrite env fs path data).1.last_params = fs.last_params := by
  simp only [FSWrite, hpath, if_false]
  split
  · simp
  · split
    · simp
    · exact ⟨rfl, rfl, rfl⟩

theorem execute_write_fields (env : Env) (fs : State) (data : List Char) :
    (FSWrite env fs "/execute" data).1.pending = true
    ∧ (FSWrite env fs "/execute" data).1.last_params = some data
    ∧ (FSWrite env fs "/execute" data).1.last_result = fs.last_result := by
  simp [FSWrite, handle_execute_write]

theorem stat_state (env : Env) (fs : State) (path : String) : (FSStat env fs path).1 = fs := by
  simp only [FSStat]
  split
  · rfl
  · split
    · split <;> rfl
    · rfl

theorem readdir_state (env : Env) (fs : State) (path : String) :
    (FSReadDir env fs path).1 = fs := by
  simp only [FSReadDir]
  split <;> rfl

/-- A read of `/result` that reports a cache hit found a payload and a usable
cached result, and left the result in place. -/
theorem hit_conditions (env : Env) (fs : State)
    (hhit : (ensure_result_current env fs).2.2 = true) :
    has_payload fs ∧ cache_usable env fs
    ∧ (ensure_result_current env fs).1.last_result = fs.last_result := by
  by_cases hp : has_payload fs
  · by_cases hc : cache_usable env fs
    · refine ⟨hp, hc, ?_⟩
      rw [ensure_hit env fs hp hc]
      simp
    · rw [ensure_miss env fs hp hc] at hhit
      cases hhit
  · rw [ensure_without_payload env fs hp] at hhit
    cases hhit

theorem agrees_frame (env : Env) (fs : State) (h : History) (op : Op)
    (hrec : record env fs op h = h)
    (h1 : (step env fs op).pending = fs.pending)
    (h2 : (step env fs op).last_result = fs.last_result)
    (h3 : (step env fs op).last_params = fs.last_params)
    (ha : agrees (fs, h)) : agrees (step env fs op, record env fs op h) := by
  obtain ⟨a0, a1, a2, a3⟩ := ha
  rw [hrec]
  refine ⟨Reachable.step env op a0, ?_, ?_, ?_⟩
  · exact h3.trans a1
  · intro res hres
    exact a2 res (h2 ▸ hres)
  · intro hp e he
    exact h3.trans (a3 (h1 ▸ hp) e he)

theorem agrees_step (env : Env) (fs : State) (h : History) (op : Op)
    (ha : agrees (fs, h)) : agrees (step env fs op, record env fs op h) := by
  cases op with
  | init config_json =>
    obtain ⟨h1, h2, h3⟩ := init_frame env fs config_json
    exact agrees_frame env fs h _ rfl h1 h2 h3 ha
  | shutdown =>
    exact agrees_frame env fs h _ rfl (by simp [step, PluginShutdown])
      (by simp [step, PluginShutdown]) (by simp [step, PluginShutdown]) ha
  | write path data =>
    by_cases hpath : path = "/execute"
    · subst hpath
      obtain ⟨a0, a1, a2, a3⟩ := ha
      obtain ⟨w1, w2, w3⟩ := execute_write_fields env fs data
      refine ⟨Reachable.step env (Op.write "/execute" data) a0, ?_, ?_, ?_⟩
      · simp only [step, record, if_true]
        exact w2
      · intro res hres
        simp only [step] at hres
        rw [w3] at hres
        simpa [record] using a2 res hres
      · intro hp
        simp only [step] at hp
        rw [w1] at hp
        cases hp
    · obtain ⟨h1, h2, h3⟩ := write_frame env fs path data hpath
      exact agrees_frame env fs h _ (by simp [record, hpath]) h1 h2 h3 ha
  | read path offset size =>
    by_cases hpath : path = "/result"
    · subst hpath
      have hst : step env fs (Op.read "/result" offset size)
          = (ensure_result_current env fs).1 := by
        simp only [step, FSRead_state, if_true]
      by_cases hp : has_payload fs
      · by_cases hc : cache_usable env fs
        · have hrec : record env fs (Op.read "/result" offset size) h = h := by
            simp [record, hc]
          refine agrees_frame env fs h _ hrec ?_ ?_ ?_ ha
          · rw [hst, ensure_hit env fs hp hc]
            simp
          · rw [hst, ensure_hit env fs hp hc]
            simp
          · rw [hst, ensure_hit env fs hp hc]
            simp
        · obtain ⟨a0, a1, a2, a3⟩ := ha
          have hrec : record env fs (Op.read "/result" offset size) h
              = { h with last_exec := some (execution_of env fs) } := by
            simp [record, hp, hc]
          have hrun := run_skill_with_payload env fs hp
          have hs2 : step env fs (Op.read "/result" offset size) = (run_skill env fs).1 := by
            rw [hst, ensure_miss env fs hp hc]
          obtain ⟨params, hpar, h0⟩ := hp
          refine ⟨Reachable.step env (Op.read "/result" offset size) a0, ?_, ?_, ?_⟩
          · rw [hrec, hs2]
            exact hrun.2.2.1.trans a1
          · intro res hres
            rw [hs2, run_skill_transcript env fs ⟨params, hpar, h0⟩] at hres
            cases hres
            refine ⟨execution_of env fs, by rw [hrec], rfl, ?_⟩
            simpa [execution_of, hpar] using h0
          · intro _ e he
            rw [hrec] at he
            cases he
            rw [hs2, hrun.2.2.1, hpar]
            simp [execution_of, hpar]
      · have hrec : record env fs (Op.read "/result" offset size) h = h := by
          simp [record, hp]
        refine agrees_frame env fs h _ hrec ?_ ?_ ?_ ha
        · rw [hst, ensure_without_payload env fs hp]
        · rw [hst, ensure_without_payload env fs hp]
        · rw [hst, ensure_without_payload env fs hp]
    · have hst : step env fs (Op.read path offset size) = fs := by
        simp only [step, FSRead_state, hpath, if_false]
      have hrec : record env fs (Op.read path offset size) h = h := by
        simp [record, hpath]
      exact agrees_frame env fs h _ hrec (by rw [hst]) (by rw [hst]) (by rw [hst]) ha
  | stat path =>
    have hst : step env fs (Op.stat path) = fs := by simp only [step, stat_state]
    exact agrees_frame env fs h _ rfl (by rw [hst]) (by rw [hst]) (by rw [hst]) ha
  | readdir path =>
    have hst : step env fs (Op.readdir path) = fs := by simp only [step, readdir_state]
    exact agrees_frame env fs h _ rfl (by rw [hst]) (by rw [hst]) (by rw [hst]) ha

theorem agrees_fold (trace : List (Env × Op)) (sh : State × History) (ha : agrees sh) :
    agrees (trace.foldl
      (fun sh eo => (step eo.1 sh.1 eo.2, record eo.1 sh.1 eo.2 sh.2)) sh) := by
  induction trace generalizing sh with
  | nil => exact ha
  | cons eo rest ih => exact ih _ (agrees_step eo.1 sh.1 sh.2 eo.2 ha)

theorem agrees_run_trace (env0 : Env) (trace : List (Env × Op)) :
    agrees (run_trace env0 trace) := by
  unfold run_trace
  apply agrees_fold
  refine ⟨Reachable.new env0, ?_, ?_, ?_⟩
  · simp [PluginNew, zeroed]
  · intro res hres
    simp [PluginNew, zeroed] at hres
  · intro _ e he
    cases he

/-- Every reachable state is the state after some calls. -/
theorem reachable_is_traced {fs : State} (h : Reachable fs) :
    ∃ env0 trace, (run_trace env0 trace).1 = fs := by
  induction h with
  | new env => exact ⟨env, [], rfl⟩
  | step env op _ ih =>
    obtain ⟨env0, trace, ht⟩ := ih
    refine ⟨env0, trace ++ [(env, op)], ?_⟩
    unfold run_trace at ht ⊢
    rw [List.foldl_append]
    simp only [List.foldl_cons, List.foldl_nil]
    rw [ht]

end SkillFS

end AGFS
